import Mathlib

/-! The interpreter loop and the call/create orchestration of `core/vm`.

A shallow embedding of `core/vm/interpreter.go` (`EVMInterpreter.Run`) and
`core/vm/evm.go` (`EVM.Call`, `EVM.Create`, `EVM.create`).

Conventions.
* A Go byte slice is a `List Byte`; `nil` and the empty slice are both `[]`.
* `uint64` values are natural numbers, reduced modulo `2 ^ 64` where the source
  can overflow (`pc++`, `nonce+1`).
* The loop of `Run` has no gas metering and may iterate for ever; it is modelled
  with a fuel argument and returns `none` when the fuel is used up.
* The loop carries a ghost log of its own observable actions (`mem.Resize` calls
  and handler invocations), so that "the handler is not invoked" can be stated.
* Writes to standard output and the `scanner.Scan()` read on standard input are
  not part of the model.
* Handlers (`operation.execute`) are arbitrary total functions on the execution
  state; the jump table is fixed during a run.
* A handler that indexes the stack unchecked panics on a stack that is too
  short. Such handlers are a `PanickingOperation`: the total function says what
  the call returns where it returns, a predicate says where it panics; the loop
  over them is `runStepPanicking`, `runLoopPanicking`, `RunPanicking`.
-/

set_option linter.unusedVariables false

namespace Vm

/-! ## Basic types -/

abbrev Byte := Fin 256

/-- An opcode is one byte (`type OpCode byte`). -/
abbrev OpCode := Fin 256

/-- A 160-bit account address, as a number. -/
abbrev Address := Nat

/-- A 256-bit hash, as a number; `common.Hash{}` is `0`. -/
abbrev Hash := Nat

/-- The 256-bit words held by the stack, the top first. -/
abbrev Stack := List Nat

/-- The byte buffer of a frame (`NewMemory()` is `[]`). -/
abbrev Memory := List Byte

/-- Modelled from the spec: the error kinds of section 7 (`errors.go` is not part
of the sources); `ErrInvalidOpCode` carries the offending opcode as in
`&ErrInvalidOpCode{opcode: op}`. -/
inductive VMError
  | ErrOutOfGas
  | ErrCodeStoreOutOfGas
  | ErrDepth
  | ErrInsufficientBalance
  | ErrContractAddressCollision
  | ErrExecutionReverted
  | ErrMaxCodeSizeExceeded
  | ErrInvalidJump
  | ErrWriteProtection
  | ErrReturnDataOutOfBounds
  | ErrGasUintOverflow
  | ErrInvalidCode
  | ErrStackUnderflow
  | ErrStackOverflow
  | ErrInvalidOpCode (opcode : OpCode)
  | ErrAborted
  deriving DecidableEq, Repr

/-- The two external primitives of `github.com/ethereum/go-ethereum/crypto` used
by `evm.go`, taken as parameters. -/
structure Crypto where
  Keccak256Hash : List Byte → Hash
  CreateAddress : Address → Nat → Address

/-! ## The state store -/

/-- Modelled from the spec: the account store behind the `StateDB` interface
(section 6), whose implementation is not part of the sources. Every account
field is a total map; the getters are pure and each setter updates the field it
names. -/
structure StateDB where
  exist : Address → Bool
  balance : Address → Nat
  nonce : Address → Nat
  code : Address → List Byte
  codeHash : Address → Hash
  storage : Address → Nat → Nat

namespace StateDB

def Exist (s : StateDB) (a : Address) : Bool := s.exist a

def GetNonce (s : StateDB) (a : Address) : Nat := s.nonce a

def GetCode (s : StateDB) (a : Address) : List Byte := s.code a

def GetCodeHash (s : StateDB) (a : Address) : Hash := s.codeHash a

def CreateAccount (s : StateDB) (a : Address) : StateDB :=
  { s with exist := fun b => if b = a then true else s.exist b }

def SetNonce (s : StateDB) (a : Address) (n : Nat) : StateDB :=
  { s with nonce := fun b => if b = a then n else s.nonce b }

def SetCode (cr : Crypto) (s : StateDB) (a : Address) (c : List Byte) : StateDB :=
  { s with
    code := fun b => if b = a then c else s.code b
    codeHash := fun b => if b = a then cr.Keccak256Hash c else s.codeHash b }

def SetState (s : StateDB) (a : Address) (key val : Nat) : StateDB :=
  { s with storage := fun b k => if b = a ∧ k = key then val else s.storage b k }

/-- The store with no accounts. -/
def empty : StateDB :=
  { exist := fun _ => false
    balance := fun _ => 0
    nonce := fun _ => 0
    code := fun _ => []
    codeHash := fun _ => 0
    storage := fun _ _ => 0 }

end StateDB

/-! ## Frames -/

/-- Modelled from the spec: the contract frame of section 3 (`contract.go` is not
part of the sources): caller, own address, code, code hash, code address, input,
remaining gas and value. -/
structure Contract where
  CallerAddress : Address
  self : Address
  Code : List Byte
  CodeHash : Hash
  CodeAddr : Option Address
  Input : List Byte
  Gas : Nat
  value : Nat

namespace Contract

/-- The byte at position `n` of the code, `0` at or beyond its end. -/
def GetByte (c : Contract) (n : Nat) : Byte := c.Code.getD n 0

def GetOp (c : Contract) (n : Nat) : OpCode := c.GetByte n

def Address (c : Contract) : Vm.Address := c.self

def SetCallCode (c : Contract) (addr : Vm.Address) (hash : Hash) (code : List Byte) : Contract :=
  { c with Code := code, CodeHash := hash, CodeAddr := some addr }

end Contract

/-- Analogue of `NewContract(caller, object, value, gas)`. -/
def NewContract (caller : Address) (object : Address) (value : Nat) (gas : Nat) : Contract :=
  { CallerAddress := caller, self := object, Code := [], CodeHash := 0, CodeAddr := none,
    Input := [], Gas := gas, value := value }

structure codeAndHash where
  code : List Byte
  hash : Hash

def Contract.SetCodeOptionalHash (c : Contract) (addr : Vm.Address) (cah : codeAndHash) : Contract :=
  { c with Code := cah.code, CodeHash := cah.hash, CodeAddr := some addr }

structure ScopeContext where
  Memory : Memory
  Stack : Stack
  Contract : Contract

/-! ## The machine -/

structure BlockContext where
  Coinbase : Address
  GasLimit : Nat
  BlockNumber : Nat
  Time : Nat
  Difficulty : Nat
  BaseFee : Nat

/-- The mutable fields of `EVMInterpreter`; its `cfg.JumpTable` is passed
separately. -/
structure EVMInterpreter where
  readOnly : Bool
  returnData : List Byte

structure EVM where
  Context : BlockContext
  StateDB : StateDB
  depth : Int
  interpreter : EVMInterpreter
  abort : Int
  callGasTemp : Nat

/-- What a handler can read and write: the program counter it receives by
reference, the scope (memory, stack, frame) and the interpreter with its EVM. -/
structure ExecState where
  pc : Nat
  scope : ScopeContext
  evm : EVM

/-- The values and the state a handler leaves. -/
structure HandlerResult where
  res : List Byte
  err : Option VMError
  st : ExecState

/-- Modelled from the spec: the per-opcode record of section 4.4
(`jump_table.go` is not part of the sources). `Run` reads `execute`,
`memorySize`, `returns`, `reverts`, `halts` and `jumps`. -/
structure operation where
  execute : ExecState → HandlerResult
  constantGas : Nat
  dynamicGas : Option (ExecState → Nat × Bool)
  minStack : Nat
  maxStack : Nat
  memorySize : Option (Stack → Nat × Bool)
  halts : Bool
  reverts : Bool
  jumps : Bool
  writes : Bool
  returns : Bool

/-- The array `[256]*operation`; `none` is the nil pointer. -/
abbrev JumpTable := OpCode → Option operation

/-- Ghost record of what the loop itself does. -/
inductive Event
  | resize (size : Nat)
  | execute (op : OpCode)
  deriving DecidableEq, Repr

/-! ## Memory sizing -/

/-- Modelled from the spec: the number of 32-byte words that cover `size` bytes
(`toWordSize` is not part of the sources). -/
def toWordSize (size : Nat) : Nat := (size + 31) / 32

/-- Modelled from the spec: 64-bit multiplication with an overflow flag
(`math.SafeMul` is not part of the sources). -/
def SafeMul (x y : Nat) : Nat × Bool := ((x * y) % 2 ^ 64, decide (2 ^ 64 ≤ x * y))

/-- Modelled from the spec: `resize(n)` of section 4.2 for the already rounded
size that `Run` passes: a shorter buffer is extended with zero bytes up to
`size`, a longer one is left alone (`memory.go` is not part of the sources). -/
def Memory.Resize (m : Memory) (size : Nat) : Memory :=
  if m.length < size then m ++ List.replicate (size - m.length) 0 else m

/-- Lines 146-158 of `interpreter.go`: the value of `memorySize` after the
optional `operation.memorySize` call, or the overflow error. -/
def calcMemorySize (o : operation) (stack : Stack) : Except VMError Nat :=
  match o.memorySize with
  | none => .ok 0
  | some f =>
    if (f stack).2 then .error .ErrGasUintOverflow
    else if (SafeMul (toWordSize (f stack).1) 32).2 then .error .ErrGasUintOverflow
    else .ok (SafeMul (toWordSize (f stack).1) 32).1

/-- Lines 159-162: `if memorySize > 0 { mem.Resize(memorySize) }`. -/
def growMemory (memorySize : Nat) (st : ExecState) : ExecState :=
  if 0 < memorySize then
    { st with scope := { st.scope with Memory := Memory.Resize st.scope.Memory memorySize } }
  else st

def growLog (memorySize : Nat) (log : List Event) : List Event :=
  if 0 < memorySize then log ++ [Event.resize memorySize] else log

/-! ## The interpreter loop -/

/-- What `Run` hands back, with the final execution state and the ghost log. -/
structure RunResult where
  ret : List Byte
  err : Option VMError
  st : ExecState
  log : List Event

/-- One pass through the loop body either leaves `Run` or starts the next pass. -/
inductive Outcome
  | done (r : RunResult)
  | next (st : ExecState) (log : List Event)

/-- Lines 170-172: `if operation.returns { in.returnData = res }`. -/
def storeReturnData (o : operation) (h : HandlerResult) : ExecState :=
  if o.returns then
    { h.st with evm := { h.st.evm with
        interpreter := { h.st.evm.interpreter with returnData := h.res } } }
  else h.st

/-- Lines 170-183: the assignment of `in.returnData`, then the `switch`. -/
def dispatch (o : operation) (h : HandlerResult) (log : List Event) : Outcome :=
  match h.err with
  | some e => .done { ret := [], err := some e, st := storeReturnData o h, log := log }
  | none =>
    if o.reverts then
      .done { ret := h.res, err := some .ErrExecutionReverted, st := storeReturnData o h,
              log := log }
    else if o.halts then
      .done { ret := h.res, err := none, st := storeReturnData o h, log := log }
    else if !o.jumps then
      .next { storeReturnData o h with pc := ((storeReturnData o h).pc + 1) % 2 ^ 64 } log
    else .next (storeReturnData o h) log

/-- The body of the `for` loop of `Run` (lines 131-184); `codeLen` is the length
of the code taken once before the loop. -/
def runStep (jt : JumpTable) (codeLen : Nat) (st : ExecState) (log : List Event) : Outcome :=
  if codeLen ≤ st.pc then
    .done { ret := [], err := none, st := st, log := log }
  else
    match jt (st.scope.Contract.GetOp st.pc) with
    | none =>
      .done { ret := [], err := some (.ErrInvalidOpCode (st.scope.Contract.GetOp st.pc)),
              st := st, log := log }
    | some o =>
      match calcMemorySize o st.scope.Stack with
      | .error e => .done { ret := [], err := some e, st := st, log := log }
      | .ok memorySize =>
        dispatch o (o.execute (growMemory memorySize st))
          (growLog memorySize log ++ [Event.execute (st.scope.Contract.GetOp st.pc)])

/-- The `for` loop of `Run`, at most `fuel` passes. -/
def runLoop (jt : JumpTable) (codeLen : Nat) : Nat → ExecState → List Event → Option RunResult
  | 0, _, _ => none
  | fuel + 1, st, log =>
    match runStep jt codeLen st log with
    | .done r => some r
    | .next st1 log1 => runLoop jt codeLen fuel st1 log1

/-- The first `k` passes of the loop when none of them leaves `Run`: the state
and the log at the top of pass `k`. -/
def passes (jt : JumpTable) (codeLen : Nat) : Nat → ExecState → List Event →
    Option (ExecState × List Event)
  | 0, st, log => some (st, log)
  | k + 1, st, log =>
    match runStep jt codeLen st log with
    | .done _ => none
    | .next st1 log1 => passes jt codeLen k st1 log1

/-- The ghost log after a pass. -/
def Outcome.log : Outcome → List Event
  | .done r => r.log
  | .next _ log => log

/-- The execution state after a pass. -/
def Outcome.st : Outcome → ExecState
  | .done r => r.st
  | .next st _ => st

/-- The error with which a pass leaves `Run`, if it does. -/
def Outcome.err : Outcome → Option VMError
  | .done r => r.err
  | .next _ _ => none

/-- The state in which `Run` enters its loop: `pc = 0`, fresh memory and stack,
`contract.Input = input`; the interpreter and the EVM are taken as they are. -/
def initState (evm : EVM) (contract : Contract) (input : List Byte) : ExecState :=
  { pc := 0
    scope := { Memory := [], Stack := [], Contract := { contract with Input := input } }
    evm := evm }

/-- The Go method `EVMInterpreter.Run(contract, input, readOnly)`: the receiver
is `evm.interpreter` with jump table `jt`. The argument `readOnly` is not read
by the body. -/
def Run (fuel : Nat) (jt : JumpTable) (evm : EVM) (contract : Contract) (input : List Byte)
    (readOnly : Bool) : Option RunResult :=
  if contract.Code.length = 0 then
    some { ret := [], err := none
           st := { pc := 0, scope := { Memory := [], Stack := [], Contract := contract }, evm := evm }
           log := [] }
  else
    runLoop jt contract.Code.length fuel (initState evm contract input) []

/-! ## Handlers that panic -/

/-- Modelled from the spec: an operation whose Go functions index the stack
unchecked (section 4.1: "handlers may therefore perform unchecked indexing";
`instructions.go` and `stack.go` are not part of the sources). A call of
`operation.execute` or of `operation.memorySize` either returns, with the values
that the functions of `op` give, or panics; `executePanics` and
`memorySizePanics` say on which arguments the call panics. -/
structure PanickingOperation where
  op : operation
  executePanics : ExecState → Bool
  memorySizePanics : Stack → Bool

/-- The array `[256]*operation` for operations that may panic. -/
abbrev PanickingJumpTable := OpCode → Option PanickingOperation

/-- An operation whose functions return on every argument. -/
def PanickingOperation.never (o : operation) : PanickingOperation :=
  { op := o, executePanics := fun _ => false, memorySizePanics := fun _ => false }

/-- How a piece of Go code ends: it returns a value, or a panic unwinds it. The
panic carries the ghost log of what the loop had done by then. -/
inductive PanicOr (α : Type)
  | returned (a : α)
  | panicked (log : List Event)

/-- The body of the `for` loop of `Run` (lines 131-184) over operations that may
panic: the call of `operation.memorySize` on line 149 and the call of
`operation.execute` on line 164 either return, and the pass goes on as in
`runStep`, or panic. There is no `recover` in `Run`, so a panic ends the pass and
the loop. -/
def runStepPanicking (jt : PanickingJumpTable) (codeLen : Nat) (st : ExecState)
    (log : List Event) : PanicOr Outcome :=
  if codeLen ≤ st.pc then
    .returned (.done { ret := [], err := none, st := st, log := log })
  else
    match jt (st.scope.Contract.GetOp st.pc) with
    | none =>
      .returned (.done { ret := [], err := some (.ErrInvalidOpCode (st.scope.Contract.GetOp st.pc)),
                         st := st, log := log })
    | some p =>
      if p.op.memorySize.isSome && p.memorySizePanics st.scope.Stack then
        .panicked log
      else
        match calcMemorySize p.op st.scope.Stack with
        | .error e => .returned (.done { ret := [], err := some e, st := st, log := log })
        | .ok memorySize =>
          if p.executePanics (growMemory memorySize st) then
            .panicked (growLog memorySize log ++ [Event.execute (st.scope.Contract.GetOp st.pc)])
          else
            .returned (dispatch p.op (p.op.execute (growMemory memorySize st))
              (growLog memorySize log ++ [Event.execute (st.scope.Contract.GetOp st.pc)]))

/-- The `for` loop of `Run` over operations that may panic, at most `fuel`
passes. -/
def runLoopPanicking (jt : PanickingJumpTable) (codeLen : Nat) :
    Nat → ExecState → List Event → Option (PanicOr RunResult)
  | 0, _, _ => none
  | fuel + 1, st, log =>
    match runStepPanicking jt codeLen st log with
    | .panicked l => some (.panicked l)
    | .returned (.done r) => some (.returned r)
    | .returned (.next st1 log1) => runLoopPanicking jt codeLen fuel st1 log1

/-- The Go method `EVMInterpreter.Run(contract, input, readOnly)` over operations
that may panic. -/
def RunPanicking (fuel : Nat) (jt : PanickingJumpTable) (evm : EVM) (contract : Contract)
    (input : List Byte) (readOnly : Bool) : Option (PanicOr RunResult) :=
  if contract.Code.length = 0 then
    some (.returned { ret := [], err := none
                      st := { pc := 0, scope := { Memory := [], Stack := [], Contract := contract },
                              evm := evm }
                      log := [] })
  else
    runLoopPanicking jt contract.Code.length fuel (initState evm contract input) []

/-- The ghost log at the end of a pass that may panic. -/
def PanicOr.log : PanicOr Outcome → List Event
  | .returned o => o.log
  | .panicked l => l

/-- The error with which a pass that may panic leaves `Run` by returning, if it
does. -/
def PanicOr.err : PanicOr Outcome → Option VMError
  | .returned o => o.err
  | .panicked _ => none

/-! ## Call and Create -/

structure CallResult where
  ret : List Byte
  leftOverGas : Nat
  err : Option VMError
  evm : EVM
  /-- Ghost: the interpreter invocation made by the call, if any. -/
  run : Option RunResult

/-- The frame that `Call` builds (lines 260-261). -/
def callFrame (db : StateDB) (caller addr : Address) (gas value : Nat) : Contract :=
  (NewContract caller addr value gas).SetCallCode addr (db.GetCodeHash addr) (db.GetCode addr)

/-- Lines 225-235 of `evm.go`: `if !evm.StateDB.Exist(addr) { evm.StateDB.CreateAccount(addr) }`. -/
def ensureAccount (db : StateDB) (addr : Address) : StateDB :=
  if !db.Exist addr then db.CreateAccount addr else db

/-- The Go method `EVM.Call(caller, addr, input, gas, value)`. -/
def Call (fuel : Nat) (jt : JumpTable) (evm : EVM) (caller addr : Address) (input : List Byte)
    (gas value : Nat) : Option CallResult :=
  let db := ensureAccount evm.StateDB addr
  let evm1 : EVM := { evm with StateDB := db }
  if (db.GetCode addr).length = 0 then
    some { ret := [], leftOverGas := gas, err := none, evm := evm1, run := none }
  else
    match Run fuel jt evm1 (callFrame db caller addr gas value) input false with
    | none => none
    | some r =>
      some { ret := r.ret, leftOverGas := gas, err := r.err, evm := r.st.evm, run := some r }

structure CreateResult where
  ret : List Byte
  contractAddr : Address
  leftOverGas : Nat
  err : Option VMError
  evm : EVM
  /-- Ghost: the interpreter invocation made by the creation, if any. -/
  run : Option RunResult

/-- The frame that `create` builds (lines 141-142). -/
def createFrame (caller : Address) (cah : codeAndHash) (gas value : Nat) (address : Address) :
    Contract :=
  (NewContract caller address value gas).SetCodeOptionalHash address cah

/-- The Go method `EVM.create(caller, codeAndHash, gas, value, address)`. -/
def create (fuel : Nat) (cr : Crypto) (jt : JumpTable) (evm : EVM) (caller : Address)
    (cah : codeAndHash) (gas value : Nat) (address : Address) : Option CreateResult :=
  let nonce := evm.StateDB.GetNonce caller
  let contractHash := evm.StateDB.GetCodeHash address
  if evm.StateDB.GetNonce address ≠ 0 ∨
      (contractHash ≠ 0 ∧ contractHash ≠ cr.Keccak256Hash []) then
    some { ret := [], contractAddr := 0, leftOverGas := 0
           err := some .ErrContractAddressCollision, evm := evm, run := none }
  else
    match Run fuel jt evm (createFrame caller cah gas value address) [] false with
    | none => none
    | some r =>
      let evm1 : EVM :=
        if r.err = none then
          { r.st.evm with
            StateDB := ((r.st.evm.StateDB.SetCode cr address r.ret).SetNonce caller
              ((nonce + 1) % 2 ^ 64)) }
        else r.st.evm
      some { ret := r.ret, contractAddr := address, leftOverGas := r.st.scope.Contract.Gas
             err := r.err, evm := evm1, run := some r }

/-- The Go method `EVM.Create(caller, code, gas, value)`. -/
def Create (fuel : Nat) (cr : Crypto) (jt : JumpTable) (evm : EVM) (caller : Address)
    (code : List Byte) (gas value : Nat) : Option CreateResult :=
  create fuel cr jt evm caller { code := code, hash := 0 } gas value
    (cr.CreateAddress caller (evm.StateDB.GetNonce caller))

/-! ## Opcodes (`opcodes.go`) -/

namespace OpCode

def STOP : OpCode := 0x00
def ADD : OpCode := 0x01
def MUL : OpCode := 0x02
def SUB : OpCode := 0x03
def DIV : OpCode := 0x04
def SDIV : OpCode := 0x05
def MOD : OpCode := 0x06
def SMOD : OpCode := 0x07
def ADDMOD : OpCode := 0x08
def MULMOD : OpCode := 0x09
def EXP : OpCode := 0x0a
def SIGNEXTEND : OpCode := 0x0b
def LT : OpCode := 0x10
def GT : OpCode := 0x11
def SLT : OpCode := 0x12
def SGT : OpCode := 0x13
def EQ : OpCode := 0x14
def ISZERO : OpCode := 0x15
def AND : OpCode := 0x16
def OR : OpCode := 0x17
def XOR : OpCode := 0x18
def NOT : OpCode := 0x19
def BYTE : OpCode := 0x1a
def SHL : OpCode := 0x1b
def SHR : OpCode := 0x1c
def SAR : OpCode := 0x1d
def SHA3 : OpCode := 0x20
def ADDRESS : OpCode := 0x30
def BALANCE : OpCode := 0x31
def ORIGIN : OpCode := 0x32
def CALLER : OpCode := 0x33
def CALLVALUE : OpCode := 0x34
def CALLDATALOAD : OpCode := 0x35
def CALLDATASIZE : OpCode := 0x36
def CALLDATACOPY : OpCode := 0x37
def CODESIZE : OpCode := 0x38
def CODECOPY : OpCode := 0x39
def GASPRICE : OpCode := 0x3a
def EXTCODESIZE : OpCode := 0x3b
def EXTCODECOPY : OpCode := 0x3c
def RETURNDATASIZE : OpCode := 0x3d
def RETURNDATACOPY : OpCode := 0x3e
def EXTCODEHASH : OpCode := 0x3f
def BLOCKHASH : OpCode := 0x40
def COINBASE : OpCode := 0x41
def TIMESTAMP : OpCode := 0x42
def NUMBER : OpCode := 0x43
def DIFFICULTY : OpCode := 0x44
def GASLIMIT : OpCode := 0x45
def CHAINID : OpCode := 0x46
def SELFBALANCE : OpCode := 0x47
def BASEFEE : OpCode := 0x48
def POP : OpCode := 0x50
def MLOAD : OpCode := 0x51
def MSTORE : OpCode := 0x52
def MSTORE8 : OpCode := 0x53
def SLOAD : OpCode := 0x54
def SSTORE : OpCode := 0x55
def JUMP : OpCode := 0x56
def JUMPI : OpCode := 0x57
def PC : OpCode := 0x58
def MSIZE : OpCode := 0x59
def GAS : OpCode := 0x5a
def JUMPDEST : OpCode := 0x5b
def PUSH1 : OpCode := 0x60
def PUSH2 : OpCode := 0x61
def PUSH3 : OpCode := 0x62
def PUSH4 : OpCode := 0x63
def PUSH5 : OpCode := 0x64
def PUSH6 : OpCode := 0x65
def PUSH7 : OpCode := 0x66
def PUSH8 : OpCode := 0x67
def PUSH9 : OpCode := 0x68
def PUSH10 : OpCode := 0x69
def PUSH11 : OpCode := 0x6a
def PUSH12 : OpCode := 0x6b
def PUSH13 : OpCode := 0x6c
def PUSH14 : OpCode := 0x6d
def PUSH15 : OpCode := 0x6e
def PUSH16 : OpCode := 0x6f
def PUSH17 : OpCode := 0x70
def PUSH18 : OpCode := 0x71
def PUSH19 : OpCode := 0x72
def PUSH20 : OpCode := 0x73
def PUSH21 : OpCode := 0x74
def PUSH22 : OpCode := 0x75
def PUSH23 : OpCode := 0x76
def PUSH24 : OpCode := 0x77
def PUSH25 : OpCode := 0x78
def PUSH26 : OpCode := 0x79
def PUSH27 : OpCode := 0x7a
def PUSH28 : OpCode := 0x7b
def PUSH29 : OpCode := 0x7c
def PUSH30 : OpCode := 0x7d
def PUSH31 : OpCode := 0x7e
def PUSH32 : OpCode := 0x7f
def DUP1 : OpCode := 0x80
def DUP2 : OpCode := 0x81
def DUP3 : OpCode := 0x82
def DUP4 : OpCode := 0x83
def DUP5 : OpCode := 0x84
def DUP6 : OpCode := 0x85
def DUP7 : OpCode := 0x86
def DUP8 : OpCode := 0x87
def DUP9 : OpCode := 0x88
def DUP10 : OpCode := 0x89
def DUP11 : OpCode := 0x8a
def DUP12 : OpCode := 0x8b
def DUP13 : OpCode := 0x8c
def DUP14 : OpCode := 0x8d
def DUP15 : OpCode := 0x8e
def DUP16 : OpCode := 0x8f
def SWAP1 : OpCode := 0x90
def SWAP2 : OpCode := 0x91
def SWAP3 : OpCode := 0x92
def SWAP4 : OpCode := 0x93
def SWAP5 : OpCode := 0x94
def SWAP6 : OpCode := 0x95
def SWAP7 : OpCode := 0x96
def SWAP8 : OpCode := 0x97
def SWAP9 : OpCode := 0x98
def SWAP10 : OpCode := 0x99
def SWAP11 : OpCode := 0x9a
def SWAP12 : OpCode := 0x9b
def SWAP13 : OpCode := 0x9c
def SWAP14 : OpCode := 0x9d
def SWAP15 : OpCode := 0x9e
def SWAP16 : OpCode := 0x9f
def LOG0 : OpCode := 0xa0
def LOG1 : OpCode := 0xa1
def LOG2 : OpCode := 0xa2
def LOG3 : OpCode := 0xa3
def LOG4 : OpCode := 0xa4
def PUSH : OpCode := 0xb0
def DUP : OpCode := 0xb1
def SWAP : OpCode := 0xb2
def CREATE : OpCode := 0xf0
def CALL : OpCode := 0xf1
def CALLCODE : OpCode := 0xf2
def RETURN : OpCode := 0xf3
def DELEGATECALL : OpCode := 0xf4
def CREATE2 : OpCode := 0xf5
def STATICCALL : OpCode := 0xfa
def REVERT : OpCode := 0xfd
def SELFDESTRUCT : OpCode := 0xff

end OpCode

/-- The Go method `OpCode.IsPush`: the `switch` over PUSH1 .. PUSH32. -/
def OpCode.IsPush (op : OpCode) : Bool :=
  [
   OpCode.PUSH1, OpCode.PUSH2, OpCode.PUSH3, OpCode.PUSH4, OpCode.PUSH5, OpCode.PUSH6,
   OpCode.PUSH7, OpCode.PUSH8, OpCode.PUSH9, OpCode.PUSH10, OpCode.PUSH11, OpCode.PUSH12,
   OpCode.PUSH13, OpCode.PUSH14, OpCode.PUSH15, OpCode.PUSH16, OpCode.PUSH17, OpCode.PUSH18,
   OpCode.PUSH19, OpCode.PUSH20, OpCode.PUSH21, OpCode.PUSH22, OpCode.PUSH23, OpCode.PUSH24,
   OpCode.PUSH25, OpCode.PUSH26, OpCode.PUSH27, OpCode.PUSH28, OpCode.PUSH29, OpCode.PUSH30,
   OpCode.PUSH31, OpCode.PUSH32
  ].contains op

/-- The opcode constants of the `const` blocks other than the block of unofficial
opcodes, in the order of their declaration. -/
def officialOpCodes : List OpCode :=
  [
   OpCode.STOP, OpCode.ADD, OpCode.MUL, OpCode.SUB, OpCode.DIV, OpCode.SDIV, OpCode.MOD,
   OpCode.SMOD, OpCode.ADDMOD, OpCode.MULMOD, OpCode.EXP, OpCode.SIGNEXTEND, OpCode.LT,
   OpCode.GT, OpCode.SLT, OpCode.SGT, OpCode.EQ, OpCode.ISZERO, OpCode.AND, OpCode.OR,
   OpCode.XOR, OpCode.NOT, OpCode.BYTE, OpCode.SHL, OpCode.SHR, OpCode.SAR, OpCode.SHA3,
   OpCode.ADDRESS, OpCode.BALANCE, OpCode.ORIGIN, OpCode.CALLER, OpCode.CALLVALUE,
   OpCode.CALLDATALOAD, OpCode.CALLDATASIZE, OpCode.CALLDATACOPY, OpCode.CODESIZE,
   OpCode.CODECOPY, OpCode.GASPRICE, OpCode.EXTCODESIZE, OpCode.EXTCODECOPY,
   OpCode.RETURNDATASIZE, OpCode.RETURNDATACOPY, OpCode.EXTCODEHASH, OpCode.BLOCKHASH,
   OpCode.COINBASE, OpCode.TIMESTAMP, OpCode.NUMBER, OpCode.DIFFICULTY, OpCode.GASLIMIT,
   OpCode.CHAINID, OpCode.SELFBALANCE, OpCode.BASEFEE, OpCode.POP, OpCode.MLOAD, OpCode.MSTORE,
   OpCode.MSTORE8, OpCode.SLOAD, OpCode.SSTORE, OpCode.JUMP, OpCode.JUMPI, OpCode.PC,
   OpCode.MSIZE, OpCode.GAS, OpCode.JUMPDEST, OpCode.PUSH1, OpCode.PUSH2, OpCode.PUSH3,
   OpCode.PUSH4, OpCode.PUSH5, OpCode.PUSH6, OpCode.PUSH7, OpCode.PUSH8, OpCode.PUSH9,
   OpCode.PUSH10, OpCode.PUSH11, OpCode.PUSH12, OpCode.PUSH13, OpCode.PUSH14, OpCode.PUSH15,
   OpCode.PUSH16, OpCode.PUSH17, OpCode.PUSH18, OpCode.PUSH19, OpCode.PUSH20, OpCode.PUSH21,
   OpCode.PUSH22, OpCode.PUSH23, OpCode.PUSH24, OpCode.PUSH25, OpCode.PUSH26, OpCode.PUSH27,
   OpCode.PUSH28, OpCode.PUSH29, OpCode.PUSH30, OpCode.PUSH31, OpCode.PUSH32, OpCode.DUP1,
   OpCode.DUP2, OpCode.DUP3, OpCode.DUP4, OpCode.DUP5, OpCode.DUP6, OpCode.DUP7, OpCode.DUP8,
   OpCode.DUP9, OpCode.DUP10, OpCode.DUP11, OpCode.DUP12, OpCode.DUP13, OpCode.DUP14,
   OpCode.DUP15, OpCode.DUP16, OpCode.SWAP1, OpCode.SWAP2, OpCode.SWAP3, OpCode.SWAP4,
   OpCode.SWAP5, OpCode.SWAP6, OpCode.SWAP7, OpCode.SWAP8, OpCode.SWAP9, OpCode.SWAP10,
   OpCode.SWAP11, OpCode.SWAP12, OpCode.SWAP13, OpCode.SWAP14, OpCode.SWAP15, OpCode.SWAP16,
   OpCode.LOG0, OpCode.LOG1, OpCode.LOG2, OpCode.LOG3, OpCode.LOG4, OpCode.CREATE, OpCode.CALL,
   OpCode.CALLCODE, OpCode.RETURN, OpCode.DELEGATECALL, OpCode.CREATE2, OpCode.STATICCALL,
   OpCode.REVERT, OpCode.SELFDESTRUCT
  ]

/-- The constants of the block "unofficial opcodes used for parsing". -/
def unofficialOpCodes : List OpCode := [OpCode.PUSH, OpCode.DUP, OpCode.SWAP]

/-- Indexing a Go map given as the list of its entries: the value stored under
the key, or the zero value of the value type when the key is absent. -/
def mapIndex {κ ν : Type} [BEq κ] (m : List (κ × ν)) (zero : ν) (k : κ) : ν :=
  (m.lookup k).getD zero

/-- The map `opCodeToString`, entry by entry. -/
def opCodeToString : List (OpCode × String) :=
  [
   (OpCode.STOP, "STOP"), (OpCode.ADD, "ADD"), (OpCode.MUL, "MUL"), (OpCode.SUB, "SUB"),
   (OpCode.DIV, "DIV"), (OpCode.SDIV, "SDIV"), (OpCode.MOD, "MOD"), (OpCode.SMOD, "SMOD"),
   (OpCode.EXP, "EXP"), (OpCode.NOT, "NOT"), (OpCode.LT, "LT"), (OpCode.GT, "GT"),
   (OpCode.SLT, "SLT"), (OpCode.SGT, "SGT"), (OpCode.EQ, "EQ"), (OpCode.ISZERO, "ISZERO"),
   (OpCode.SIGNEXTEND, "SIGNEXTEND"), (OpCode.AND, "AND"), (OpCode.OR, "OR"),
   (OpCode.XOR, "XOR"), (OpCode.BYTE, "BYTE"), (OpCode.SHL, "SHL"), (OpCode.SHR, "SHR"),
   (OpCode.SAR, "SAR"), (OpCode.ADDMOD, "ADDMOD"), (OpCode.MULMOD, "MULMOD"),
   (OpCode.SHA3, "SHA3"), (OpCode.ADDRESS, "ADDRESS"), (OpCode.BALANCE, "BALANCE"),
   (OpCode.ORIGIN, "ORIGIN"), (OpCode.CALLER, "CALLER"), (OpCode.CALLVALUE, "CALLVALUE"),
   (OpCode.CALLDATALOAD, "CALLDATALOAD"), (OpCode.CALLDATASIZE, "CALLDATASIZE"),
   (OpCode.CALLDATACOPY, "CALLDATACOPY"), (OpCode.CODESIZE, "CODESIZE"),
   (OpCode.CODECOPY, "CODECOPY"), (OpCode.GASPRICE, "GASPRICE"),
   (OpCode.EXTCODESIZE, "EXTCODESIZE"), (OpCode.EXTCODECOPY, "EXTCODECOPY"),
   (OpCode.RETURNDATASIZE, "RETURNDATASIZE"), (OpCode.RETURNDATACOPY, "RETURNDATACOPY"),
   (OpCode.EXTCODEHASH, "EXTCODEHASH"), (OpCode.BLOCKHASH, "BLOCKHASH"),
   (OpCode.COINBASE, "COINBASE"), (OpCode.TIMESTAMP, "TIMESTAMP"), (OpCode.NUMBER, "NUMBER"),
   (OpCode.DIFFICULTY, "DIFFICULTY"), (OpCode.GASLIMIT, "GASLIMIT"), (OpCode.CHAINID, "CHAINID"),
   (OpCode.SELFBALANCE, "SELFBALANCE"), (OpCode.BASEFEE, "BASEFEE"), (OpCode.POP, "POP"),
   (OpCode.MLOAD, "MLOAD"), (OpCode.MSTORE, "MSTORE"), (OpCode.MSTORE8, "MSTORE8"),
   (OpCode.SLOAD, "SLOAD"), (OpCode.SSTORE, "SSTORE"), (OpCode.JUMP, "JUMP"),
   (OpCode.JUMPI, "JUMPI"), (OpCode.PC, "PC"), (OpCode.MSIZE, "MSIZE"), (OpCode.GAS, "GAS"),
   (OpCode.JUMPDEST, "JUMPDEST"), (OpCode.PUSH1, "PUSH1"), (OpCode.PUSH2, "PUSH2"),
   (OpCode.PUSH3, "PUSH3"), (OpCode.PUSH4, "PUSH4"), (OpCode.PUSH5, "PUSH5"),
   (OpCode.PUSH6, "PUSH6"), (OpCode.PUSH7, "PUSH7"), (OpCode.PUSH8, "PUSH8"),
   (OpCode.PUSH9, "PUSH9"), (OpCode.PUSH10, "PUSH10"), (OpCode.PUSH11, "PUSH11"),
   (OpCode.PUSH12, "PUSH12"), (OpCode.PUSH13, "PUSH13"), (OpCode.PUSH14, "PUSH14"),
   (OpCode.PUSH15, "PUSH15"), (OpCode.PUSH16, "PUSH16"), (OpCode.PUSH17, "PUSH17"),
   (OpCode.PUSH18, "PUSH18"), (OpCode.PUSH19, "PUSH19"), (OpCode.PUSH20, "PUSH20"),
   (OpCode.PUSH21, "PUSH21"), (OpCode.PUSH22, "PUSH22"), (OpCode.PUSH23, "PUSH23"),
   (OpCode.PUSH24, "PUSH24"), (OpCode.PUSH25, "PUSH25"), (OpCode.PUSH26, "PUSH26"),
   (OpCode.PUSH27, "PUSH27"), (OpCode.PUSH28, "PUSH28"), (OpCode.PUSH29, "PUSH29"),
   (OpCode.PUSH30, "PUSH30"), (OpCode.PUSH31, "PUSH31"), (OpCode.PUSH32, "PUSH32"),
   (OpCode.DUP1, "DUP1"), (OpCode.DUP2, "DUP2"), (OpCode.DUP3, "DUP3"), (OpCode.DUP4, "DUP4"),
   (OpCode.DUP5, "DUP5"), (OpCode.DUP6, "DUP6"), (OpCode.DUP7, "DUP7"), (OpCode.DUP8, "DUP8"),
   (OpCode.DUP9, "DUP9"), (OpCode.DUP10, "DUP10"), (OpCode.DUP11, "DUP11"),
   (OpCode.DUP12, "DUP12"), (OpCode.DUP13, "DUP13"), (OpCode.DUP14, "DUP14"),
   (OpCode.DUP15, "DUP15"), (OpCode.DUP16, "DUP16"), (OpCode.SWAP1, "SWAP1"),
   (OpCode.SWAP2, "SWAP2"), (OpCode.SWAP3, "SWAP3"), (OpCode.SWAP4, "SWAP4"),
   (OpCode.SWAP5, "SWAP5"), (OpCode.SWAP6, "SWAP6"), (OpCode.SWAP7, "SWAP7"),
   (OpCode.SWAP8, "SWAP8"), (OpCode.SWAP9, "SWAP9"), (OpCode.SWAP10, "SWAP10"),
   (OpCode.SWAP11, "SWAP11"), (OpCode.SWAP12, "SWAP12"), (OpCode.SWAP13, "SWAP13"),
   (OpCode.SWAP14, "SWAP14"), (OpCode.SWAP15, "SWAP15"), (OpCode.SWAP16, "SWAP16"),
   (OpCode.LOG0, "LOG0"), (OpCode.LOG1, "LOG1"), (OpCode.LOG2, "LOG2"), (OpCode.LOG3, "LOG3"),
   (OpCode.LOG4, "LOG4"), (OpCode.CREATE, "CREATE"), (OpCode.CALL, "CALL"),
   (OpCode.RETURN, "RETURN"), (OpCode.CALLCODE, "CALLCODE"),
   (OpCode.DELEGATECALL, "DELEGATECALL"), (OpCode.CREATE2, "CREATE2"),
   (OpCode.STATICCALL, "STATICCALL"), (OpCode.REVERT, "REVERT"),
   (OpCode.SELFDESTRUCT, "SELFDESTRUCT"), (OpCode.PUSH, "PUSH"), (OpCode.DUP, "DUP"),
   (OpCode.SWAP, "SWAP")
  ]

structure OpCodeInfo where
  opCodeCount : Nat
  stackInputCount : Nat
  stackOutputCount : Nat
  gasCount : Nat
  deriving DecidableEq, Repr

/-- The map `opCodeInfoList`, entry by entry. -/
def opCodeInfoList : List (String × OpCodeInfo) :=
  [
   ("STOP", OpCodeInfo.mk 0 0 0 0), ("ADD", OpCodeInfo.mk 0 0 0 0), ("MUL", OpCodeInfo.mk 0 0 0 0), ("SUB", OpCodeInfo.mk 0 0 0 0),
   ("DIV", OpCodeInfo.mk 0 0 0 0), ("SDIV", OpCodeInfo.mk 0 0 0 0), ("MOD", OpCodeInfo.mk 0 0 0 0), ("SMOD", OpCodeInfo.mk 0 0 0 0),
   ("EXP", OpCodeInfo.mk 0 0 0 0), ("NOT", OpCodeInfo.mk 0 0 0 0), ("LT", OpCodeInfo.mk 0 0 0 0), ("GT", OpCodeInfo.mk 0 0 0 0),
   ("SLT", OpCodeInfo.mk 0 0 0 0), ("SGT", OpCodeInfo.mk 0 0 0 0), ("EQ", OpCodeInfo.mk 0 0 0 0), ("ISZERO", OpCodeInfo.mk 0 0 0 0),
   ("SIGNEXTEND", OpCodeInfo.mk 0 0 0 0), ("AND", OpCodeInfo.mk 0 0 0 0), ("OR", OpCodeInfo.mk 0 0 0 0),
   ("XOR", OpCodeInfo.mk 0 0 0 0), ("BYTE", OpCodeInfo.mk 0 0 0 0), ("SHL", OpCodeInfo.mk 0 0 0 0), ("SHR", OpCodeInfo.mk 0 0 0 0),
   ("SAR", OpCodeInfo.mk 0 0 0 0), ("ADDMOD", OpCodeInfo.mk 0 0 0 0), ("MULMOD", OpCodeInfo.mk 0 0 0 0),
   ("SHA3", OpCodeInfo.mk 0 0 0 0), ("ADDRESS", OpCodeInfo.mk 0 0 0 0), ("BALANCE", OpCodeInfo.mk 0 0 0 0),
   ("ORIGIN", OpCodeInfo.mk 0 0 0 0), ("CALLER", OpCodeInfo.mk 0 0 0 0), ("CALLVALUE", OpCodeInfo.mk 0 0 0 0),
   ("CALLDATALOAD", OpCodeInfo.mk 0 0 0 0), ("CALLDATASIZE", OpCodeInfo.mk 0 0 0 0),
   ("CALLDATACOPY", OpCodeInfo.mk 0 0 0 0), ("CHAINID", OpCodeInfo.mk 0 0 0 0), ("BASEFEE", OpCodeInfo.mk 0 0 0 0),
   ("DELEGATECALL", OpCodeInfo.mk 0 0 0 0), ("STATICCALL", OpCodeInfo.mk 0 0 0 0), ("CODESIZE", OpCodeInfo.mk 0 0 0 0),
   ("CODECOPY", OpCodeInfo.mk 0 0 0 0), ("GASPRICE", OpCodeInfo.mk 0 0 0 0), ("EXTCODESIZE", OpCodeInfo.mk 0 0 0 0),
   ("EXTCODECOPY", OpCodeInfo.mk 0 0 0 0), ("RETURNDATASIZE", OpCodeInfo.mk 0 0 0 0),
   ("RETURNDATACOPY", OpCodeInfo.mk 0 0 0 0), ("EXTCODEHASH", OpCodeInfo.mk 0 0 0 0), ("BLOCKHASH", OpCodeInfo.mk 0 0 0 0),
   ("COINBASE", OpCodeInfo.mk 0 0 0 0), ("TIMESTAMP", OpCodeInfo.mk 0 0 0 0), ("NUMBER", OpCodeInfo.mk 0 0 0 0),
   ("DIFFICULTY", OpCodeInfo.mk 0 0 0 0), ("GASLIMIT", OpCodeInfo.mk 0 0 0 0), ("SELFBALANCE", OpCodeInfo.mk 0 0 0 0),
   ("POP", OpCodeInfo.mk 0 0 0 0), ("MLOAD", OpCodeInfo.mk 0 0 0 0), ("MSTORE", OpCodeInfo.mk 0 0 0 0),
   ("MSTORE8", OpCodeInfo.mk 0 0 0 0), ("SLOAD", OpCodeInfo.mk 0 0 0 0), ("SSTORE", OpCodeInfo.mk 0 0 0 0),
   ("JUMP", OpCodeInfo.mk 0 0 0 0), ("JUMPI", OpCodeInfo.mk 0 0 0 0), ("PC", OpCodeInfo.mk 0 0 0 0),
   ("MSIZE", OpCodeInfo.mk 0 0 0 0), ("GAS", OpCodeInfo.mk 0 0 0 0), ("JUMPDEST", OpCodeInfo.mk 0 0 0 0),
   ("PUSH1", OpCodeInfo.mk 1 0 0 0), ("PUSH2", OpCodeInfo.mk 2 0 0 0), ("PUSH3", OpCodeInfo.mk 3 0 0 0),
   ("PUSH4", OpCodeInfo.mk 4 0 0 0), ("PUSH5", OpCodeInfo.mk 5 0 0 0), ("PUSH6", OpCodeInfo.mk 6 0 0 0),
   ("PUSH7", OpCodeInfo.mk 7 0 0 0), ("PUSH8", OpCodeInfo.mk 8 0 0 0), ("PUSH9", OpCodeInfo.mk 9 0 0 0),
   ("PUSH10", OpCodeInfo.mk 10 0 0 0), ("PUSH11", OpCodeInfo.mk 11 0 0 0), ("PUSH12", OpCodeInfo.mk 12 0 0 0),
   ("PUSH13", OpCodeInfo.mk 13 0 0 0), ("PUSH14", OpCodeInfo.mk 14 0 0 0), ("PUSH15", OpCodeInfo.mk 15 0 0 0),
   ("PUSH16", OpCodeInfo.mk 16 0 0 0), ("PUSH17", OpCodeInfo.mk 17 0 0 0), ("PUSH18", OpCodeInfo.mk 18 0 0 0),
   ("PUSH19", OpCodeInfo.mk 19 0 0 0), ("PUSH20", OpCodeInfo.mk 20 0 0 0), ("PUSH21", OpCodeInfo.mk 21 0 0 0),
   ("PUSH22", OpCodeInfo.mk 22 0 0 0), ("PUSH23", OpCodeInfo.mk 23 0 0 0), ("PUSH24", OpCodeInfo.mk 24 0 0 0),
   ("PUSH25", OpCodeInfo.mk 25 0 0 0), ("PUSH26", OpCodeInfo.mk 26 0 0 0), ("PUSH27", OpCodeInfo.mk 27 0 0 0),
   ("PUSH28", OpCodeInfo.mk 28 0 0 0), ("PUSH29", OpCodeInfo.mk 29 0 0 0), ("PUSH30", OpCodeInfo.mk 30 0 0 0),
   ("PUSH31", OpCodeInfo.mk 31 0 0 0), ("PUSH32", OpCodeInfo.mk 32 0 0 0), ("DUP1", OpCodeInfo.mk 0 0 0 0),
   ("DUP2", OpCodeInfo.mk 0 0 0 0), ("DUP3", OpCodeInfo.mk 0 0 0 0), ("DUP4", OpCodeInfo.mk 0 0 0 0),
   ("DUP5", OpCodeInfo.mk 0 0 0 0), ("DUP6", OpCodeInfo.mk 0 0 0 0), ("DUP7", OpCodeInfo.mk 0 0 0 0),
   ("DUP8", OpCodeInfo.mk 0 0 0 0), ("DUP9", OpCodeInfo.mk 0 0 0 0), ("DUP10", OpCodeInfo.mk 0 0 0 0),
   ("DUP11", OpCodeInfo.mk 0 0 0 0), ("DUP12", OpCodeInfo.mk 0 0 0 0), ("DUP13", OpCodeInfo.mk 0 0 0 0),
   ("DUP14", OpCodeInfo.mk 0 0 0 0), ("DUP15", OpCodeInfo.mk 0 0 0 0), ("DUP16", OpCodeInfo.mk 0 0 0 0),
   ("SWAP1", OpCodeInfo.mk 0 0 0 0), ("SWAP2", OpCodeInfo.mk 0 0 0 0), ("SWAP3", OpCodeInfo.mk 0 0 0 0),
   ("SWAP4", OpCodeInfo.mk 0 0 0 0), ("SWAP5", OpCodeInfo.mk 0 0 0 0), ("SWAP6", OpCodeInfo.mk 0 0 0 0),
   ("SWAP7", OpCodeInfo.mk 0 0 0 0), ("SWAP8", OpCodeInfo.mk 0 0 0 0), ("SWAP9", OpCodeInfo.mk 0 0 0 0),
   ("SWAP10", OpCodeInfo.mk 0 0 0 0), ("SWAP11", OpCodeInfo.mk 0 0 0 0), ("SWAP12", OpCodeInfo.mk 0 0 0 0),
   ("SWAP13", OpCodeInfo.mk 0 0 0 0), ("SWAP14", OpCodeInfo.mk 0 0 0 0), ("SWAP15", OpCodeInfo.mk 0 0 0 0),
   ("SWAP16", OpCodeInfo.mk 0 0 0 0), ("LOG0", OpCodeInfo.mk 0 0 0 0), ("LOG1", OpCodeInfo.mk 0 0 0 0),
   ("LOG2", OpCodeInfo.mk 0 0 0 0), ("LOG3", OpCodeInfo.mk 0 0 0 0), ("LOG4", OpCodeInfo.mk 0 0 0 0),
   ("CREATE", OpCodeInfo.mk 0 0 0 0), ("CREATE2", OpCodeInfo.mk 0 0 0 0), ("CALL", OpCodeInfo.mk 0 0 0 0),
   ("RETURN", OpCodeInfo.mk 0 0 0 0), ("CALLCODE", OpCodeInfo.mk 0 0 0 0), ("REVERT", OpCodeInfo.mk 0 0 0 0),
   ("SELFDESTRUCT", OpCodeInfo.mk 0 0 0 0), ("INVALID", OpCodeInfo.mk 0 0 0 0)
  ]

/-! ## The disassembler (`interpreter.go`, lines 190-231) -/

/-- One printed line: the position of the instruction, its mnemonic and the
bytes printed after it (`[]` when the line has no immediate). -/
structure Instruction where
  pc : Nat
  mnemonic : String
  immediate : List Byte
  deriving DecidableEq, Repr

/-- Lines 209-212: the name of the opcode in `opCodeToString`, or "INVALID" when
the map gives the empty string. -/
def disasmName (opCode : OpCode) : String :=
  if mapIndex opCodeToString "" opCode = "" then "INVALID" else mapIndex opCodeToString "" opCode

/-- Line 215: `skipPc := opCodeInfoList[opCodeStr].opCodeCount`. -/
def disasmSkip (opCode : OpCode) : Nat :=
  (mapIndex opCodeInfoList (OpCodeInfo.mk 0 0 0 0) (disasmName opCode)).opCodeCount

/-- Lines 218-223: the inner loop, which advances `pc` by one and appends
`contract.GetByte(pc)` as long as `skipPc > 0`. -/
def readImmediate (contract : Contract) : Nat → Nat → List Byte
  | 0, _ => []
  | skipPc + 1, pc => contract.GetByte (pc + 1) :: readImmediate contract skipPc (pc + 1)

/-- The line printed for the instruction at `pc` (lines 207-227). -/
def decodeAt (contract : Contract) (pc : Nat) : Instruction :=
  { pc := pc
    mnemonic := disasmName (contract.GetOp pc)
    immediate := readImmediate contract (disasmSkip (contract.GetOp pc)) pc }

/-- The outer loop (lines 203-229), at most `fuel` passes: the printed lines in
order, or `none` when the fuel is used up. The program counter cannot overflow
64 bits, since a Go slice has fewer than 2^63 elements and an instruction
advances it by at most 33. -/
def disasmLoop (contract : Contract) (codeLen : Nat) : Nat → Nat → Option (List Instruction)
  | 0, _ => none
  | fuel + 1, pc =>
    if codeLen ≤ pc then some []
    else
      match disasmLoop contract codeLen fuel (pc + disasmSkip (contract.GetOp pc) + 1) with
      | none => none
      | some rest => some (decodeAt contract pc :: rest)

/-- The frame that the disassembler builds around the decoded bytes (lines
198-201). -/
def disasmContract (cr : Crypto) (byteCodes : List Byte) : Contract :=
  (NewContract 0 0 0 0).SetCodeOptionalHash (cr.CreateAddress 0 0) { code := byteCodes, hash := 0 }

/-- The scan of `Disassembler` over the decoded bytes (lines 197-229); each pass
advances `pc`, so `len(code) + 1` passes are enough. -/
def disassemble (cr : Crypto) (byteCodes : List Byte) : Option (List Instruction) :=
  disasmLoop (disasmContract cr byteCodes) (disasmContract cr byteCodes).Code.length
    ((disasmContract cr byteCodes).Code.length + 1) 0

/-- The Go method `OpCode.String` (lines 391-398): the name in `opCodeToString`,
or the text printed by `fmt.Sprintf("opcode 0x%x not defined", int(op))`. -/
def OpCode.String (op : OpCode) : String :=
  if (mapIndex opCodeToString "" op).length = 0 then
    "opcode 0x" ++ String.mk (Nat.toDigits 16 op.val) ++ " not defined"
  else mapIndex opCodeToString "" op

/-- The map `stringToOp`, entry by entry. -/
def stringToOp : List (String × OpCode) :=
  [
   ("STOP", OpCode.STOP), ("ADD", OpCode.ADD), ("MUL", OpCode.MUL), ("SUB", OpCode.SUB),
   ("DIV", OpCode.DIV), ("SDIV", OpCode.SDIV), ("MOD", OpCode.MOD), ("SMOD", OpCode.SMOD),
   ("EXP", OpCode.EXP), ("NOT", OpCode.NOT), ("LT", OpCode.LT), ("GT", OpCode.GT),
   ("SLT", OpCode.SLT), ("SGT", OpCode.SGT), ("EQ", OpCode.EQ), ("ISZERO", OpCode.ISZERO),
   ("SIGNEXTEND", OpCode.SIGNEXTEND), ("AND", OpCode.AND), ("OR", OpCode.OR),
   ("XOR", OpCode.XOR), ("BYTE", OpCode.BYTE), ("SHL", OpCode.SHL), ("SHR", OpCode.SHR),
   ("SAR", OpCode.SAR), ("ADDMOD", OpCode.ADDMOD), ("MULMOD", OpCode.MULMOD),
   ("SHA3", OpCode.SHA3), ("ADDRESS", OpCode.ADDRESS), ("BALANCE", OpCode.BALANCE),
   ("ORIGIN", OpCode.ORIGIN), ("CALLER", OpCode.CALLER), ("CALLVALUE", OpCode.CALLVALUE),
   ("CALLDATALOAD", OpCode.CALLDATALOAD), ("CALLDATASIZE", OpCode.CALLDATASIZE),
   ("CALLDATACOPY", OpCode.CALLDATACOPY), ("CHAINID", OpCode.CHAINID),
   ("BASEFEE", OpCode.BASEFEE), ("DELEGATECALL", OpCode.DELEGATECALL),
   ("STATICCALL", OpCode.STATICCALL), ("CODESIZE", OpCode.CODESIZE),
   ("CODECOPY", OpCode.CODECOPY), ("GASPRICE", OpCode.GASPRICE),
   ("EXTCODESIZE", OpCode.EXTCODESIZE), ("EXTCODECOPY", OpCode.EXTCODECOPY),
   ("RETURNDATASIZE", OpCode.RETURNDATASIZE), ("RETURNDATACOPY", OpCode.RETURNDATACOPY),
   ("EXTCODEHASH", OpCode.EXTCODEHASH), ("BLOCKHASH", OpCode.BLOCKHASH),
   ("COINBASE", OpCode.COINBASE), ("TIMESTAMP", OpCode.TIMESTAMP), ("NUMBER", OpCode.NUMBER),
   ("DIFFICULTY", OpCode.DIFFICULTY), ("GASLIMIT", OpCode.GASLIMIT),
   ("SELFBALANCE", OpCode.SELFBALANCE), ("POP", OpCode.POP), ("MLOAD", OpCode.MLOAD),
   ("MSTORE", OpCode.MSTORE), ("MSTORE8", OpCode.MSTORE8), ("SLOAD", OpCode.SLOAD),
   ("SSTORE", OpCode.SSTORE), ("JUMP", OpCode.JUMP), ("JUMPI", OpCode.JUMPI), ("PC", OpCode.PC),
   ("MSIZE", OpCode.MSIZE), ("GAS", OpCode.GAS), ("JUMPDEST", OpCode.JUMPDEST),
   ("PUSH1", OpCode.PUSH1), ("PUSH2", OpCode.PUSH2), ("PUSH3", OpCode.PUSH3),
   ("PUSH4", OpCode.PUSH4), ("PUSH5", OpCode.PUSH5), ("PUSH6", OpCode.PUSH6),
   ("PUSH7", OpCode.PUSH7), ("PUSH8", OpCode.PUSH8), ("PUSH9", OpCode.PUSH9),
   ("PUSH10", OpCode.PUSH10), ("PUSH11", OpCode.PUSH11), ("PUSH12", OpCode.PUSH12),
   ("PUSH13", OpCode.PUSH13), ("PUSH14", OpCode.PUSH14), ("PUSH15", OpCode.PUSH15),
   ("PUSH16", OpCode.PUSH16), ("PUSH17", OpCode.PUSH17), ("PUSH18", OpCode.PUSH18),
   ("PUSH19", OpCode.PUSH19), ("PUSH20", OpCode.PUSH20), ("PUSH21", OpCode.PUSH21),
   ("PUSH22", OpCode.PUSH22), ("PUSH23", OpCode.PUSH23), ("PUSH24", OpCode.PUSH24),
   ("PUSH25", OpCode.PUSH25), ("PUSH26", OpCode.PUSH26), ("PUSH27", OpCode.PUSH27),
   ("PUSH28", OpCode.PUSH28), ("PUSH29", OpCode.PUSH29), ("PUSH30", OpCode.PUSH30),
   ("PUSH31", OpCode.PUSH31), ("PUSH32", OpCode.PUSH32), ("DUP1", OpCode.DUP1),
   ("DUP2", OpCode.DUP2), ("DUP3", OpCode.DUP3), ("DUP4", OpCode.DUP4), ("DUP5", OpCode.DUP5),
   ("DUP6", OpCode.DUP6), ("DUP7", OpCode.DUP7), ("DUP8", OpCode.DUP8), ("DUP9", OpCode.DUP9),
   ("DUP10", OpCode.DUP10), ("DUP11", OpCode.DUP11), ("DUP12", OpCode.DUP12),
   ("DUP13", OpCode.DUP13), ("DUP14", OpCode.DUP14), ("DUP15", OpCode.DUP15),
   ("DUP16", OpCode.DUP16), ("SWAP1", OpCode.SWAP1), ("SWAP2", OpCode.SWAP2),
   ("SWAP3", OpCode.SWAP3), ("SWAP4", OpCode.SWAP4), ("SWAP5", OpCode.SWAP5),
   ("SWAP6", OpCode.SWAP6), ("SWAP7", OpCode.SWAP7), ("SWAP8", OpCode.SWAP8),
   ("SWAP9", OpCode.SWAP9), ("SWAP10", OpCode.SWAP10), ("SWAP11", OpCode.SWAP11),
   ("SWAP12", OpCode.SWAP12), ("SWAP13", OpCode.SWAP13), ("SWAP14", OpCode.SWAP14),
   ("SWAP15", OpCode.SWAP15), ("SWAP16", OpCode.SWAP16), ("LOG0", OpCode.LOG0),
   ("LOG1", OpCode.LOG1), ("LOG2", OpCode.LOG2), ("LOG3", OpCode.LOG3), ("LOG4", OpCode.LOG4),
   ("CREATE", OpCode.CREATE), ("CREATE2", OpCode.CREATE2), ("CALL", OpCode.CALL),
   ("RETURN", OpCode.RETURN), ("CALLCODE", OpCode.CALLCODE), ("REVERT", OpCode.REVERT),
   ("SELFDESTRUCT", OpCode.SELFDESTRUCT)
  ]

/-- The Go function `StringToOp(str)`: `stringToOp[str]`, which is the zero
opcode when `str` is not a key. -/
def StringToOp (str : String) : OpCode := mapIndex stringToOp 0 str

/-- The characters of a string read as the digits of a number in base 256. -/
def keyCode (s : String) : Nat := s.data.foldl (fun a c => a * 256 + c.toNat) 0

/-- The key codes of the entries of `stringToOp`, in order. -/
def stringToOpKeyCodes : List Nat :=
  [
   1398034256, 4277316, 5068108, 5461314, 4475222, 1396984150, 5066564, 1397575492, 4544592,
   5132116, 19540, 18260, 5459028, 5457748, 17745, 80622345605711, 393308168516031899586116,
   4279876, 20306, 5787474, 1113150533, 5457996, 5458002, 5456210, 71761459498820,
   85028747693892, 1397244211, 18370933714932563, 18649144231871301, 87214835321166,
   73947732002130, 1240637072582581704005, 20814436143028623103373558084,
   20814436143028623103490611781, 20814436143028623103222567001, 18938268679555396,
   18649174363227461, 21128756727217390971972045900, 393510652048435904072780,
   4850170388242061893, 4850170387974017113, 5134476654622098245, 83833004180574521677929029,
   83833004180574521409884249, 1668650430601118690224849734425157,
   1668650430601118690224849466380377, 83833004180574521492853576, 1222983796525486920520,
   4850175924169167685, 1554808456353775963472, 86128275375442, 322472596967901239202905,
   5134476637291497812, 100668093330562555833107269, 5263184, 331992744260, 85020292108869,
   21765194779870520, 357762548036, 91617361875525, 1247104336, 319258710089, 20547,
   332109797957, 4669779, 5356272338965189460, 345028905009, 345028905010, 345028905011,
   345028905012, 345028905013, 345028905014, 345028905015, 345028905016, 345028905017,
   88327399682352, 88327399682353, 88327399682354, 88327399682355, 88327399682356,
   88327399682357, 88327399682358, 88327399682359, 88327399682360, 88327399682361,
   88327399682608, 88327399682609, 88327399682610, 88327399682611, 88327399682612,
   88327399682613, 88327399682614, 88327399682615, 88327399682616, 88327399682617,
   88327399682864, 88327399682865, 88327399682866, 1146441777, 1146441778, 1146441779,
   1146441780, 1146441781, 1146441782, 1146441783, 1146441784, 1146441785, 293489094960,
   293489094961, 293489094962, 293489094963, 293489094964, 293489094965, 293489094966,
   357946183729, 357946183730, 357946183731, 357946183732, 357946183733, 357946183734,
   357946183735, 357946183736, 357946183737, 91634223034672, 91634223034673, 91634223034674,
   91634223034675, 91634223034676, 91634223034677, 91634223034678, 1280263984, 1280263985,
   1280263986, 1280263987, 1280263988, 74020628288581, 18949280841876786, 1128352844,
   90457721098830, 4846238564457858117, 90457753604692, 25771031892769263159512220500
  ]

/-- Modelled from the spec: the digit value of a hexadecimal character, as in
Go's `encoding/hex` (a library outside the sources): 0-9, a-f and A-F. -/
def fromHexChar (c : Char) : Option Nat :=
  if 48 ≤ c.toNat ∧ c.toNat ≤ 57 then some (c.toNat - 48)
  else if 97 ≤ c.toNat ∧ c.toNat ≤ 102 then some (c.toNat - 97 + 10)
  else if 65 ≤ c.toNat ∧ c.toNat ≤ 70 then some (c.toNat - 65 + 10)
  else none

/-- Modelled from the spec: `hex.DecodeString` on the characters of the input:
two hexadecimal digits per byte; `none` for an odd length or a character that
is not a hexadecimal digit. -/
def hexDecode : List Char → Option (List Byte)
  | [] => some []
  | [_] => none
  | a :: b :: rest =>
    match fromHexChar a, fromHexChar b, hexDecode rest with
    | some x, some y, some bytes => some (Fin.ofNat (x * 16 + y) :: bytes)
    | _, _, _ => none

/-- The Go method `EVMInterpreter.Disassembler(contractCode)`: the lines printed
for a valid hex input; `none` when the decoding fails (the method then prints
the error and returns). -/
def Disassembler (cr : Crypto) (contractCode : String) : Option (List Instruction) :=
  match hexDecode contractCode.data with
  | none => none
  | some byteCodes => disassemble cr byteCodes

/-! ## The interpreter constructor (`interpreter.go`, lines 53-96) -/

/-- A Go slice of ints that starts at the beginning of its backing array: the
array (whose length is the capacity) and the length of the slice. -/
structure IntSlice where
  array : List Int
  len : Nat

/-- The elements of the slice. -/
def IntSlice.toList (s : IntSlice) : List Int := s.array.take s.len

/-- The slice with the same length and capacity as the list. -/
def IntSlice.ofList (l : List Int) : IntSlice := { array := l, len := l.length }

/-- Line 85: `append(s[:i], s[i+1:]...)`. `s[:i]` needs `i ≤ cap(s)` and
`s[i+1:]` needs `i+1 ≤ len(s)`; otherwise the expression panics (`none`). The
result fits the capacity of `s[:i]`, so the elements `s[i+1:]` are moved one
place down inside the backing array and the slice gets one shorter. -/
def IntSlice.removeAt (s : IntSlice) (i : Nat) : Option IntSlice :=
  if i ≤ s.array.length ∧ i + 1 ≤ s.len then
    some { array := s.array.take i ++ (s.array.take s.len).drop (i + 1) ++
             s.array.drop (s.len - 1)
           len := s.len - 1 }
  else none

structure Config where
  Debug : Bool
  NoRecursion : Bool
  NoBaseFee : Bool
  EnablePreimageRecording : Bool
  JumpTable : JumpTable
  ExtraEips : IntSlice

/-- What the range loop of lines 82-88 has done after its last pass: the jump
table, the slice `cfg.ExtraEips`, and (ghost) the EIP numbers handed to
`EnableEIP`, in order. -/
structure EipLoopState where
  jt : JumpTable
  ExtraEips : IntSlice
  attempted : List Int

/-- Lines 82-88: `for i, eip := range cfg.ExtraEips`, with `passes` passes left
and the next index `i`. The range expression is evaluated once, so the number
of passes is the length the slice had before the loop, and each pass reads
element `i` of the backing array as it is at that moment. `EnableEIP` (not part
of the sources) is a parameter: `none` is an error and leaves the table as it
is. A panic of the slice expression is `none`. -/
def eipLoop (EnableEIP : Int → JumpTable → Option JumpTable) :
    Nat → Nat → EipLoopState → Option EipLoopState
  | 0, _, st => some st
  | passes + 1, i, st =>
    match EnableEIP (st.ExtraEips.array.getD i 0) st.jt with
    | some jt1 =>
      eipLoop EnableEIP passes (i + 1)
        { st with jt := jt1, attempted := st.attempted ++ [st.ExtraEips.array.getD i 0] }
    | none =>
      match st.ExtraEips.removeAt i with
      | none => none
      | some eips =>
        eipLoop EnableEIP passes (i + 1)
          { st with ExtraEips := eips
                    attempted := st.attempted ++ [st.ExtraEips.array.getD i 0] }

/-- The interpreter returned by the constructor: its configuration and fresh
`readOnly` and `returnData`, with the ghost list of attempted EIPs. -/
structure NewInterpreter where
  cfg : Config
  interpreter : EVMInterpreter
  attempted : List Int

/-- The Go function `NewEVMInterpreter(evm, cfg)`; `londonInstructionSet` (not
part of the sources) is a parameter. `none` is a panic. -/
def NewEVMInterpreter (londonInstructionSet : JumpTable)
    (EnableEIP : Int → JumpTable → Option JumpTable) (cfg : Config) : Option NewInterpreter :=
  if (cfg.JumpTable OpCode.STOP).isNone then
    match eipLoop EnableEIP cfg.ExtraEips.len 0
        { jt := londonInstructionSet, ExtraEips := cfg.ExtraEips, attempted := [] } with
    | none => none
    | some st =>
      some { cfg := { cfg with JumpTable := st.jt, ExtraEips := st.ExtraEips }
             interpreter := { readOnly := false, returnData := [] }
             attempted := st.attempted }
  else
    some { cfg := cfg, interpreter := { readOnly := false, returnData := [] }, attempted := [] }

/-- The program of the first end-to-end scenario:
60 03 60 05 01 60 00 52 60 20 60 00 F3. -/
def additionProgram : List Byte :=
  [0x60, 0x03, 0x60, 0x05, 0x01, 0x60, 0x00, 0x52, 0x60, 0x20, 0x60, 0x00, 0xf3]

/-- The program of the third end-to-end scenario: 60 05 56 00 5B 00. -/
def jumpProgram : List Byte := [0x60, 0x05, 0x56, 0x00, 0x5b, 0x00]

/-- The Go function `NewEVM(statedb)`: the depth starts at 10 and the interpreter
is fresh. -/
def NewEVM (statedb : StateDB) : EVM :=
  { Context := { Coinbase := 0, GasLimit := 0, BlockNumber := 0, Time := 0, Difficulty := 0,
                 BaseFee := 0 }
    StateDB := statedb
    depth := 10
    interpreter := { readOnly := false, returnData := [] }
    abort := 0
    callGasTemp := 0 }

/-! ## Sample instructions and inputs for concrete evaluation

The instruction set itself (`jump_table.go`, `instructions.go`) is not part of
the sources; the records below follow the usual behaviour of the instructions
they are named after and serve to run the definitions above on concrete
programs. -/

def stopOp : operation :=
  { execute := fun st => { res := [], err := none, st := st }
    constantGas := 0, dynamicGas := none, minStack := 0, maxStack := 1024, memorySize := none
    halts := true, reverts := false, jumps := false, writes := false, returns := false }

/-- PUSH1 pushes the byte that follows the opcode and steps over it. -/
def push1Op : operation :=
  { execute := fun st =>
      { res := [], err := none
        st := { st with
          pc := st.pc + 1
          scope := { st.scope with
            Stack := (st.scope.Contract.GetByte (st.pc + 1)).val :: st.scope.Stack } } }
    constantGas := 3, dynamicGas := none, minStack := 0, maxStack := 1023, memorySize := none
    halts := false, reverts := false, jumps := false, writes := false, returns := false }

/-- SSTORE pops a key and a value and writes the slot of the running contract. -/
def sstoreOp : operation :=
  { execute := fun st =>
      match st.scope.Stack with
      | loc :: val :: rest =>
        { res := [], err := none
          st := { st with
            scope := { st.scope with Stack := rest }
            evm := { st.evm with
              StateDB := st.evm.StateDB.SetState st.scope.Contract.Address loc val } } }
      | _ => { res := [], err := none, st := st }
    constantGas := 0, dynamicGas := none, minStack := 2, maxStack := 1024, memorySize := none
    halts := false, reverts := false, jumps := false, writes := true, returns := false }

/-- RETURN pops offset and size and halts with that slice of memory. -/
def returnOp : operation :=
  { execute := fun st =>
      match st.scope.Stack with
      | off :: size :: rest =>
        { res := (st.scope.Memory.drop off).take size, err := none
          st := { st with scope := { st.scope with Stack := rest } } }
      | _ => { res := [], err := none, st := st }
    constantGas := 0, dynamicGas := none, minStack := 2, maxStack := 1024
    memorySize := some fun stack =>
      match stack with
      | off :: size :: _ => (off + size, decide (2 ^ 64 ≤ off + size))
      | _ => (0, false)
    halts := true, reverts := false, jumps := false, writes := false, returns := false }

/-- REVERT pops offset and size and stops with that slice of memory. -/
def revertOp : operation :=
  { returnOp with halts := false, reverts := true, returns := true }

/-- A probe instruction for a caller-supplied table: it halts and hands back, as
one byte, the nonce that the state store holds for the caller of the frame. -/
def nonceProbeOp : operation :=
  { execute := fun st =>
      { res := [Fin.ofNat (st.evm.StateDB.GetNonce st.scope.Contract.CallerAddress)]
        err := none, st := st }
    constantGas := 0, dynamicGas := none, minStack := 0, maxStack := 1024, memorySize := none
    halts := true, reverts := false, jumps := false, writes := false, returns := false }

/-- A jump table with STOP (0x00), SSTORE (0x55), PUSH1 (0x60), RETURN (0xf3),
REVERT (0xfd) and the probe at the unassigned value 0x0c. -/
def sampleTable : JumpTable := fun op =>
  if op = 0x00 then some stopOp
  else if op = 0x0c then some nonceProbeOp
  else if op = 0x55 then some sstoreOp
  else if op = 0x60 then some push1Op
  else if op = 0xf3 then some returnOp
  else if op = 0xfd then some revertOp
  else none

/-- Stand-ins for the two hash primitives, for evaluation only. -/
def sampleCrypto : Crypto :=
  { Keccak256Hash := fun c => 1000 + c.length
    CreateAddress := fun a n => 100 * (a + 1) + n }

/-- A frame at address 7 called by address 1 with the given code and gas. -/
def sampleFrame (code : List Byte) (gas : Nat) : Contract :=
  (NewContract 1 7 0 gas).SetCallCode 7 0 code

/-- PUSH1 0x20, PUSH1 0x00, REVERT. -/
def revertProgram : List Byte := [0x60, 0x20, 0x60, 0x00, 0xfd]

/-- PUSH1 0x20, PUSH1 0x00, RETURN. -/
def returnProgram : List Byte := [0x60, 0x20, 0x60, 0x00, 0xf3]

/-- The state of a sample frame with the given code and gas after two PUSH1
have put `first` and then 0x00 on the stack. -/
def afterTwoPushes (code : List Byte) (gas : Nat) (first : Nat) : ExecState :=
  { pc := 4
    scope := { Memory := [], Stack := [0, first]
               Contract := { sampleFrame code gas with Input := [] } }
    evm := NewEVM StateDB.empty }

/-- A store in which address 9 holds the one-byte code 0x21, an unassigned
opcode. -/
def storeWithBadCode : StateDB :=
  (StateDB.empty.CreateAccount 9).SetCode sampleCrypto 9 [0x21]

/-- 1025 times PUSH1 0x00. -/
def manyPushes : List Byte := (List.replicate 1025 [0x60, 0x00]).flatten

/-- PUSH1 0x01, PUSH1 0x00, SSTORE: writes 1 to slot 0. -/
def storeProgram : List Byte := [0x60, 0x01, 0x60, 0x00, 0x55]

/-- An EVM over the empty store whose interpreter has `readOnly` set. -/
def readOnlyEVM : EVM :=
  { NewEVM StateDB.empty with interpreter := { readOnly := true, returnData := [] } }

/-- A store in which the caller 1 has nonce 5. -/
def storeNonceFive : StateDB := StateDB.empty.SetNonce 1 5

/-- A store in which the address derived for caller 1 at nonce 0 already has
nonce 1. -/
def storeOccupied : StateDB := StateDB.empty.SetNonce (sampleCrypto.CreateAddress 1 0) 1

/-- The state of the frame running `manyPushes` after `i` pushes. -/
def pushState (i : Nat) : ExecState :=
  { pc := 2 * i
    scope := { Memory := [], Stack := List.replicate i 0
               Contract := { sampleFrame manyPushes 0 with Input := [] } }
    evm := NewEVM StateDB.empty }

/-- The log after `i` pushes. -/
def pushLog (i : Nat) : List Event := List.replicate i (Event.execute 0x60)

/-- MSTORE8 pops an offset and a value and writes the low byte of the value at
that offset of the memory. -/
def mstore8Op : operation :=
  { execute := fun st =>
      match st.scope.Stack with
      | off :: val :: rest =>
        { res := [], err := none
          st := { st with
            scope := { st.scope with
              Stack := rest
              Memory := st.scope.Memory.set off (Fin.ofNat val) } } }
      | _ => { res := [], err := none, st := st }
    constantGas := 3, dynamicGas := none, minStack := 2, maxStack := 1024
    memorySize := some fun stack =>
      match stack with
      | off :: _ => (off + 1, decide (2 ^ 64 ≤ off + 1))
      | _ => (0, false)
    halts := false, reverts := false, jumps := false, writes := false, returns := false }

/-- PUSH2 pushes the two bytes that follow the opcode as one big-endian number
and steps over them. -/
def push2Op : operation :=
  { execute := fun st =>
      { res := [], err := none
        st := { st with
          pc := st.pc + 2
          scope := { st.scope with
            Stack := ((st.scope.Contract.GetByte (st.pc + 1)).val * 256 +
              (st.scope.Contract.GetByte (st.pc + 2)).val) :: st.scope.Stack } } }
    constantGas := 3, dynamicGas := none, minStack := 0, maxStack := 1023, memorySize := none
    halts := false, reverts := false, jumps := false, writes := false, returns := false }

/-- The sample table extended with MSTORE8 (0x53) and PUSH2 (0x61). -/
def extendedTable : JumpTable := fun op =>
  if op = 0x53 then some mstore8Op
  else if op = 0x61 then some push2Op
  else sampleTable op

/-- PUSH1 0xEF, PUSH1 0x00, MSTORE8, PUSH1 0x01, PUSH1 0x00, RETURN: init code
that returns the single byte 0xEF. -/
def efProgram : List Byte := [0x60, 0xef, 0x60, 0x00, 0x53, 0x60, 0x01, 0x60, 0x00, 0xf3]

/-- PUSH2 0x6001, PUSH1 0x00, RETURN: init code that returns 24577 zero bytes. -/
def longCodeProgram : List Byte := [0x61, 0x60, 0x01, 0x60, 0x00, 0xf3]

/-- PUSH1 1, PUSH1 0, SSTORE, PUSH1 0, PUSH1 0, REVERT: writes slot 0 and
reverts. -/
def writeThenRevert : List Byte := [0x60, 0x01, 0x60, 0x00, 0x55, 0x60, 0x00, 0x60, 0x00, 0xfd]

/-- A store in which the existing account 9 holds `writeThenRevert`. -/
def storeWithRevertCode : StateDB :=
  (StateDB.empty.CreateAccount 9).SetCode sampleCrypto 9 writeThenRevert

/-- A store in which the existing account 9 holds `returnProgram`. -/
def storeWithReturnCode : StateDB :=
  (StateDB.empty.CreateAccount 9).SetCode sampleCrypto 9 returnProgram

/-- A store in which the account 9 exists and holds no code. -/
def storeWithPlainAccount : StateDB := StateDB.empty.CreateAccount 9

/-- An EVM over `storeWithReturnCode` at call depth 1024. -/
def deepEVM : EVM := { NewEVM storeWithReturnCode with depth := 1024 }

/-- The state of the creation frame running `longCodeProgram` after its two
pushes. -/
def longCodeState : ExecState :=
  { pc := 5
    scope := { Memory := [], Stack := [0, 24577]
               Contract := { createFrame 1 { code := longCodeProgram, hash := 0 } 0 0 200 with
                             Input := [] } }
    evm := NewEVM StateDB.empty }

/-- The lines the disassembler prints for `additionProgram`. -/
def additionListing : List Instruction :=
  [⟨0, "PUSH1", [0x03]⟩, ⟨2, "PUSH1", [0x05]⟩, ⟨4, "ADD", []⟩, ⟨5, "PUSH1", [0x00]⟩,
   ⟨7, "MSTORE", []⟩, ⟨8, "PUSH1", [0x20]⟩, ⟨10, "PUSH1", [0x00]⟩, ⟨12, "RETURN", []⟩]

/-- The lines the disassembler prints for the bytes 0c 21 fe b0. -/
def invalidListing : List Instruction :=
  [⟨0, "INVALID", []⟩, ⟨1, "INVALID", []⟩, ⟨2, "INVALID", []⟩, ⟨3, "PUSH", []⟩]

/-- RETURNDATASIZE pushes the length of the interpreter's return-data buffer. -/
def returnDataSizeOp : operation :=
  { execute := fun st =>
      { res := [], err := none
        st := { st with
          scope := { st.scope with
            Stack := st.evm.interpreter.returnData.length :: st.scope.Stack } } }
    constantGas := 2, dynamicGas := none, minStack := 0, maxStack := 1023, memorySize := none
    halts := false, reverts := false, jumps := false, writes := false, returns := false }

/-- The sample table extended with RETURNDATASIZE (0x3d). -/
def returnDataTable : JumpTable := fun op =>
  if op = 0x3d then some returnDataSizeOp else sampleTable op

/-- An EVM whose interpreter still holds three bytes of return data. -/
def usedEVM : EVM :=
  { NewEVM StateDB.empty with interpreter := { readOnly := false, returnData := [1, 2, 3] } }

/-- A stand-in for `EnableEIP`, for evaluation only: it succeeds on the EIP
numbers 3529, 3198, 2929, 2200, 1884 and 1344 and fails on every other
number. -/
def sampleEnableEIP (eip : Int) (jt : JumpTable) : Option JumpTable :=
  if eip ∈ [3529, 3198, 2929, 2200, 1884, 1344] then some jt else none

/-- A configuration with an unset jump table and the given extra EIPs. -/
def sampleConfig (eips : List Int) : Config :=
  { Debug := false, NoRecursion := false, NoBaseFee := false, EnablePreimageRecording := false
    JumpTable := fun _ => none
    ExtraEips := IntSlice.ofList eips }

/-- PUSH1 0x03 followed by a PUSH16 of which only the first immediate byte is
present: the bytes of the hex input 60036f01. -/
def truncatedProgram : List Byte := [0x60, 0x03, 0x6f, 0x01]

/-- For each official opcode, in the order of `officialOpCodes`, the position of
the entry with its name in `opCodeInfoList`, which is also the position of its
entry in `stringToOp`. -/
def officialIndex : List Nat :=
  [
   0, 1, 2, 3, 4, 5, 6, 7, 24, 25, 8, 16, 10, 11, 12, 13, 14, 15, 17, 18,
   19, 9, 20, 21, 22, 23, 26, 27, 28, 29, 30, 31, 32, 33, 34, 39, 40, 41, 42, 43,
   44, 45, 46, 47, 48, 49, 50, 51, 52, 35, 53, 36, 54, 55, 56, 57, 58, 59, 60, 61,
   62, 63, 64, 65, 66, 67, 68, 69, 70, 71, 72, 73, 74, 75, 76, 77, 78, 79, 80, 81,
   82, 83, 84, 85, 86, 87, 88, 89, 90, 91, 92, 93, 94, 95, 96, 97, 98, 99, 100, 101,
   102, 103, 104, 105, 106, 107, 108, 109, 110, 111, 112, 113, 114, 115, 116, 117, 118, 119, 120, 121,
   122, 123, 124, 125, 126, 127, 128, 129, 130, 131, 132, 133, 134, 135, 137, 139, 138, 37, 136, 38,
   140, 141
  ]

/-- A sample instruction as Go functions that index the stack unchecked: the
handler and the memory-size function read `minStack` words (two for SSTORE,
RETURN and REVERT, none for STOP and PUSH1) and panic on a shorter stack. -/
def unchecked (o : operation) : PanickingOperation :=
  { op := o
    executePanics := fun st => decide (st.scope.Stack.length < o.minStack)
    memorySizePanics := fun stack => decide (stack.length < o.minStack) }

/-- The sample table with its instructions indexing the stack unchecked. -/
def uncheckedTable : PanickingJumpTable := fun op => (sampleTable op).map unchecked

/-- SSTORE as the first and only instruction: it meets an empty stack. -/
def underflowProgram : List Byte := [0x55]

/-! ## The loop, pass by pass -/

theorem runLoop_succ (jt : JumpTable) (codeLen fuel : Nat) (st : ExecState) (log : List Event) :
    runLoop jt codeLen (fuel + 1) st log =
      match runStep jt codeLen st log with
      | .done r => some r
      | .next st1 log1 => runLoop jt codeLen fuel st1 log1 := rfl

/-- Once `k` passes have led from `(st0, log0)` to `(st, log)`, a loop with
`k + fuel` passes behaves from `(st0, log0)` as one with `fuel` passes from
`(st, log)`. -/
theorem runLoop_of_passes (jt : JumpTable) (codeLen : Nat) :
    ∀ (k fuel : Nat) (st0 : ExecState) (log0 : List Event) (st : ExecState) (log : List Event),
      passes jt codeLen k st0 log0 = some (st, log) →
      runLoop jt codeLen (k + fuel) st0 log0 = runLoop jt codeLen fuel st log := by
  intro k
  induction k with
  | zero =>
    intro fuel st0 log0 st log h
    simp only [passes, Option.some.injEq, Prod.mk.injEq] at h
    obtain ⟨h1, h2⟩ := h
    subst h1
    subst h2
    simp
  | succ k ih =>
    intro fuel st0 log0 st log h
    have hk : k + 1 + fuel = (k + fuel) + 1 := by omega
    rw [hk, runLoop_succ]
    unfold passes at h
    cases hs : runStep jt codeLen st0 log0 with
    | done r => rw [hs] at h; simp at h
    | next st1 log1 =>
      rw [hs] at h
      exact ih fuel st1 log1 st log h

/-- A run of a frame with code is the loop started in `initState`. -/
theorem Run_of_code (fuel : Nat) (jt : JumpTable) (evm : EVM) (contract : Contract)
    (input : List Byte) (readOnly : Bool) (hcode : contract.Code ≠ []) :
    Run fuel jt evm contract input readOnly =
      runLoop jt contract.Code.length fuel (initState evm contract input) [] := by
  unfold Run
  have hlen : contract.Code.length ≠ 0 := by
    intro h0
    exact hcode (List.length_eq_zero.mp h0)
  simp [hlen]

/-- When the loop reaches `(st, log)` after `k` passes and the next pass leaves
`Run` with `r`, then `Run` returns `r` for every fuel above `k`. -/
theorem Run_of_passes_done (fuel k : Nat) (jt : JumpTable) (evm : EVM) (contract : Contract)
    (input : List Byte) (readOnly : Bool) (st : ExecState) (log : List Event) (r : RunResult)
    (hcode : contract.Code ≠ [])
    (hreach : passes jt contract.Code.length k (initState evm contract input) [] = some (st, log))
    (hstep : runStep jt contract.Code.length st log = .done r) :
    Run (k + (fuel + 1)) jt evm contract input readOnly = some r := by
  rw [Run_of_code _ _ _ _ _ _ hcode, runLoop_of_passes _ _ _ _ _ _ _ _ hreach, runLoop_succ, hstep]

/-! ## Claims about single passes of `Run` -/

/-- C1: when `Run`, on a frame with non-empty code, reaches after `k` passes a
program counter below the code length whose opcode has no entry in the jump
table, it returns empty data and `ErrInvalidOpCode` carrying that opcode, with
the execution state (memory included) and the log of resizes and handler
invocations exactly as they were at the top of that pass. -/
theorem Run_undefined_opcode (fuel k : Nat) (jt : JumpTable) (evm : EVM) (contract : Contract)
    (input : List Byte) (readOnly : Bool) (st : ExecState) (log : List Event)
    (hcode : contract.Code ≠ [])
    (hreach : passes jt contract.Code.length k (initState evm contract input) [] = some (st, log))
    (hpc : st.pc < contract.Code.length)
    (hjt : jt (st.scope.Contract.GetOp st.pc) = none) :
    Run (k + (fuel + 1)) jt evm contract input readOnly =
      some { ret := [], err := some (.ErrInvalidOpCode (st.scope.Contract.GetOp st.pc)),
             st := st, log := log } := by
  apply Run_of_passes_done fuel k jt evm contract input readOnly st log _ hcode hreach
  unfold runStep
  rw [if_neg (by omega), hjt]

theorem Run_undefined_opcode_witness :
    Run (0 + (0 + 1)) sampleTable (NewEVM StateDB.empty) (sampleFrame [0x21, 0x00] 5) [] false =
      some { ret := [], err := some (.ErrInvalidOpCode 0x21),
             st := initState (NewEVM StateDB.empty) (sampleFrame [0x21, 0x00] 5) [],
             log := [] } :=
  Run_undefined_opcode 0 0 sampleTable (NewEVM StateDB.empty) (sampleFrame [0x21, 0x00] 5) []
    false (initState (NewEVM StateDB.empty) (sampleFrame [0x21, 0x00] 5) []) []
    (by decide) rfl (by decide) rfl

/-- C2: when `Run` reaches an operation whose handler is invoked (the opcode is
defined and the memory sizing does not overflow) and returns `(res, nil)`, then
`Run` returns `(res, ErrExecutionReverted)` if the operation is flagged
`reverts`, and `(res, nil)` if it is not but is flagged `halts`; in both cases
the log ends with this handler invocation, so no further opcode is executed. -/
theorem Run_reverts_halts (fuel k : Nat) (jt : JumpTable) (evm : EVM) (contract : Contract)
    (input : List Byte) (readOnly : Bool) (st : ExecState) (log : List Event)
    (o : operation) (memorySize : Nat)
    (hcode : contract.Code ≠ [])
    (hreach : passes jt contract.Code.length k (initState evm contract input) [] = some (st, log))
    (hpc : st.pc < contract.Code.length)
    (hjt : jt (st.scope.Contract.GetOp st.pc) = some o)
    (hmem : calcMemorySize o st.scope.Stack = .ok memorySize)
    (herr : (o.execute (growMemory memorySize st)).err = none) :
    (o.reverts = true →
      Run (k + (fuel + 1)) jt evm contract input readOnly =
        some { ret := (o.execute (growMemory memorySize st)).res
               err := some .ErrExecutionReverted
               st := storeReturnData o (o.execute (growMemory memorySize st))
               log := growLog memorySize log ++
                 [Event.execute (st.scope.Contract.GetOp st.pc)] }) ∧
    (o.reverts = false → o.halts = true →
      Run (k + (fuel + 1)) jt evm contract input readOnly =
        some { ret := (o.execute (growMemory memorySize st)).res
               err := none
               st := storeReturnData o (o.execute (growMemory memorySize st))
               log := growLog memorySize log ++
                 [Event.execute (st.scope.Contract.GetOp st.pc)] }) := by
  have hstep : runStep jt contract.Code.length st log =
      dispatch o (o.execute (growMemory memorySize st))
        (growLog memorySize log ++ [Event.execute (st.scope.Contract.GetOp st.pc)]) := by
    unfold runStep
    rw [if_neg (by omega), hjt]
    simp only [hmem]
  constructor
  · intro hrev
    apply Run_of_passes_done fuel k jt evm contract input readOnly st log _ hcode hreach
    rw [hstep]
    unfold dispatch
    simp [herr, hrev]
  · intro hrev hhalt
    apply Run_of_passes_done fuel k jt evm contract input readOnly st log _ hcode hreach
    rw [hstep]
    unfold dispatch
    simp [herr, hrev, hhalt]

theorem Run_reverts_halts_witness :
    Run (2 + (0 + 1)) sampleTable (NewEVM StateDB.empty) (sampleFrame revertProgram 5) [] false =
      some { ret := List.replicate 32 0
             err := some .ErrExecutionReverted
             st := storeReturnData revertOp (revertOp.execute (growMemory 32
               (afterTwoPushes revertProgram 5 32)))
             log := [Event.execute 0x60, Event.execute 0x60, Event.resize 32,
               Event.execute 0xfd] } ∧
    Run (2 + (0 + 1)) sampleTable (NewEVM StateDB.empty) (sampleFrame returnProgram 5) [] false =
      some { ret := List.replicate 32 0
             err := none
             st := storeReturnData returnOp (returnOp.execute (growMemory 32
               (afterTwoPushes returnProgram 5 32)))
             log := [Event.execute 0x60, Event.execute 0x60, Event.resize 32,
               Event.execute 0xf3] } :=
  ⟨(Run_reverts_halts 0 2 sampleTable (NewEVM StateDB.empty) (sampleFrame revertProgram 5) []
      false (afterTwoPushes revertProgram 5 32) [Event.execute 0x60, Event.execute 0x60]
      revertOp 32 (by decide) rfl (by decide) rfl rfl rfl).1 rfl,
   (Run_reverts_halts 0 2 sampleTable (NewEVM StateDB.empty) (sampleFrame returnProgram 5) []
      false (afterTwoPushes returnProgram 5 32) [Event.execute 0x60, Event.execute 0x60]
      returnOp 32 (by decide) rfl (by decide) rfl rfl rfl).2 rfl rfl⟩

/-- C6: when `Run` finds the program counter at or beyond the end of the code at
the top of a pass, it returns empty data and no error, with state and log as
they were (implicit STOP); and for a frame with empty code `Run` returns empty
data and no error for every fuel, with an empty log (no operation executed) and
the EVM, hence the interpreter's `returnData`, unchanged. -/
theorem Run_implicit_stop (fuel k : Nat) (jt : JumpTable) (evm : EVM) (contract : Contract)
    (input : List Byte) (readOnly : Bool) (st : ExecState) (log : List Event) :
    (contract.Code ≠ [] →
      passes jt contract.Code.length k (initState evm contract input) [] = some (st, log) →
      contract.Code.length ≤ st.pc →
      Run (k + (fuel + 1)) jt evm contract input readOnly =
        some { ret := [], err := none, st := st, log := log }) ∧
    (contract.Code = [] →
      Run fuel jt evm contract input readOnly =
        some { ret := [], err := none
               st := { pc := 0, scope := { Memory := [], Stack := [], Contract := contract },
                       evm := evm }
               log := [] }) := by
  constructor
  · intro hcode hreach hpc
    apply Run_of_passes_done fuel k jt evm contract input readOnly st log _ hcode hreach
    unfold runStep
    rw [if_pos hpc]
  · intro hcode
    unfold Run
    simp [hcode]

theorem Run_implicit_stop_witness :
    Run (1 + (0 + 1)) sampleTable (NewEVM StateDB.empty) (sampleFrame [0x60, 0x01] 5) [] false =
      some { ret := [], err := none
             st := { pc := 2
                     scope := { Memory := [], Stack := [1]
                                Contract := { sampleFrame [0x60, 0x01] 5 with Input := [] } }
                     evm := NewEVM StateDB.empty }
             log := [Event.execute 0x60] } ∧
    Run 0 sampleTable (NewEVM StateDB.empty) (sampleFrame [] 5) [0x01] true =
      some { ret := [], err := none
             st := { pc := 0, scope := { Memory := [], Stack := [], Contract := sampleFrame [] 5 },
                     evm := NewEVM StateDB.empty }
             log := [] } :=
  ⟨(Run_implicit_stop 0 1 sampleTable (NewEVM StateDB.empty) (sampleFrame [0x60, 0x01] 5) []
      false _ _).1 (by decide) rfl (by decide),
   (Run_implicit_stop 0 0 sampleTable (NewEVM StateDB.empty) (sampleFrame [] 5) [0x01]
      true (initState (NewEVM StateDB.empty) (sampleFrame [] 5) [0x01]) []).2 rfl⟩

/-! ## Errors and returned data -/

theorem dispatch_done_data (o : operation) (h : HandlerResult) (log : List Event)
    (r : RunResult) (e : VMError) (hd : dispatch o h log = .done r) (he : r.err = some e)
    (hne : e ≠ .ErrExecutionReverted) : r.ret = [] := by
  unfold dispatch at hd
  split at hd
  · injection hd with hr
    subst hr
    rfl
  · split at hd
    · injection hd with hr
      subst hr
      simp at he
      exact absurd he.symm hne
    · split at hd
      · injection hd with hr
        subst hr
        simp at he
      · split at hd <;> simp at hd

theorem runStep_done_data (jt : JumpTable) (codeLen : Nat) (st : ExecState) (log : List Event)
    (r : RunResult) (e : VMError) (hd : runStep jt codeLen st log = .done r)
    (he : r.err = some e) (hne : e ≠ .ErrExecutionReverted) : r.ret = [] := by
  unfold runStep at hd
  split at hd
  · injection hd with hr
    subst hr
    rfl
  · split at hd
    · injection hd with hr
      subst hr
      rfl
    · split at hd
      · injection hd with hr
        subst hr
        rfl
      · exact dispatch_done_data _ _ _ r e hd he hne

theorem runLoop_error_data (jt : JumpTable) (codeLen : Nat) :
    ∀ (fuel : Nat) (st : ExecState) (log : List Event) (r : RunResult) (e : VMError),
      runLoop jt codeLen fuel st log = some r → r.err = some e →
      e ≠ .ErrExecutionReverted → r.ret = [] := by
  intro fuel
  induction fuel with
  | zero =>
    intro st log r e h
    simp [runLoop] at h
  | succ n ih =>
    intro st log r e h he hne
    rw [runLoop_succ] at h
    cases hs : runStep jt codeLen st log with
    | done r1 =>
      rw [hs] at h
      simp only [Option.some.injEq] at h
      subst h
      exact runStep_done_data jt codeLen st log r1 e hs he hne
    | next st1 log1 =>
      rw [hs] at h
      exact ih st1 log1 r e h he hne

theorem Run_error_data (fuel : Nat) (jt : JumpTable) (evm : EVM) (contract : Contract)
    (input : List Byte) (readOnly : Bool) (r : RunResult) (e : VMError)
    (h : Run fuel jt evm contract input readOnly = some r) (he : r.err = some e)
    (hne : e ≠ .ErrExecutionReverted) : r.ret = [] := by
  unfold Run at h
  split at h
  · simp only [Option.some.injEq] at h
    subst h
    rfl
  · exact runLoop_error_data jt _ fuel _ _ r e h he hne

/-- C7: whenever `Run`, `Call` or `Create` returns a non-nil error other than
`ErrExecutionReverted`, the data it returns is empty. -/
theorem error_other_than_revert_has_no_data (fuel : Nat) (cr : Crypto) (jt : JumpTable)
    (evm : EVM) (contract : Contract) (input : List Byte) (readOnly : Bool)
    (caller addr : Address) (gas value : Nat) (code : List Byte) :
    (∀ (r : RunResult) (e : VMError), Run fuel jt evm contract input readOnly = some r →
      r.err = some e → e ≠ .ErrExecutionReverted → r.ret = []) ∧
    (∀ (r : CallResult) (e : VMError), Call fuel jt evm caller addr input gas value = some r →
      r.err = some e → e ≠ .ErrExecutionReverted → r.ret = []) ∧
    (∀ (r : CreateResult) (e : VMError), Create fuel cr jt evm caller code gas value = some r →
      r.err = some e → e ≠ .ErrExecutionReverted → r.ret = []) := by
  refine ⟨?_, ?_, ?_⟩
  · intro r e h he hne
    exact Run_error_data fuel jt evm contract input readOnly r e h he hne
  · intro r e h he hne
    unfold Call at h
    dsimp only at h
    split at h
    · simp only [Option.some.injEq] at h
      subst h
      rfl
    · split at h
      · simp at h
      · rename_i r1 hrun
        simp only [Option.some.injEq] at h
        subst h
        exact Run_error_data _ _ _ _ _ _ r1 e hrun he hne
  · intro r e h he hne
    unfold Create create at h
    dsimp only at h
    split at h
    · simp only [Option.some.injEq] at h
      subst h
      rfl
    · split at h
      · simp at h
      · rename_i r1 hrun
        simp only [Option.some.injEq] at h
        subst h
        exact Run_error_data _ _ _ _ _ _ r1 e hrun he hne

theorem error_other_than_revert_has_no_data_witness :
    (∃ r, Run 1 sampleTable (NewEVM storeWithBadCode) (sampleFrame [0x21] 5) [] false = some r ∧
      r.err = some (.ErrInvalidOpCode 0x21) ∧ r.ret = []) ∧
    (∃ r, Call 1 sampleTable (NewEVM storeWithBadCode) 1 9 [] 5 0 = some r ∧
      r.err = some (.ErrInvalidOpCode 0x21) ∧ r.ret = []) ∧
    (∃ r, Create 1 sampleCrypto sampleTable (NewEVM storeWithBadCode) 1 [0x21] 5 0 = some r ∧
      r.err = some (.ErrInvalidOpCode 0x21) ∧ r.ret = []) :=
  ⟨⟨_, rfl, rfl,
      (error_other_than_revert_has_no_data 1 sampleCrypto sampleTable (NewEVM storeWithBadCode)
        (sampleFrame [0x21] 5) [] false 1 9 5 0 [0x21]).1 _ (.ErrInvalidOpCode 0x21) rfl rfl
        (by decide)⟩,
   ⟨_, rfl, rfl,
      (error_other_than_revert_has_no_data 1 sampleCrypto sampleTable (NewEVM storeWithBadCode)
        (sampleFrame [0x21] 5) [] false 1 9 5 0 [0x21]).2.1 _ (.ErrInvalidOpCode 0x21) rfl rfl
        (by decide)⟩,
   ⟨_, rfl, rfl,
      (error_other_than_revert_has_no_data 1 sampleCrypto sampleTable (NewEVM storeWithBadCode)
        (sampleFrame [0x21] 5) [] false 1 9 5 0 [0x21]).2.2 _ (.ErrInvalidOpCode 0x21) rfl rfl
        (by decide)⟩⟩

/-! ## Create -/

/-- C8: when the address derived for a creation has a non-zero nonce, or a code
hash that is neither the zero hash nor the hash of the empty byte string,
`Create` returns, for every fuel, empty data and `ErrContractAddressCollision`
(with the zero address and no gas), without invoking the interpreter and with
the EVM, hence the whole state store, exactly as it was. -/
theorem Create_address_collision (fuel : Nat) (cr : Crypto) (jt : JumpTable) (evm : EVM)
    (caller : Address) (code : List Byte) (gas value : Nat)
    (hcol : evm.StateDB.GetNonce (cr.CreateAddress caller (evm.StateDB.GetNonce caller)) ≠ 0 ∨
      (evm.StateDB.GetCodeHash (cr.CreateAddress caller (evm.StateDB.GetNonce caller)) ≠ 0 ∧
       evm.StateDB.GetCodeHash (cr.CreateAddress caller (evm.StateDB.GetNonce caller)) ≠
         cr.Keccak256Hash [])) :
    Create fuel cr jt evm caller code gas value =
      some { ret := [], contractAddr := 0, leftOverGas := 0
             err := some .ErrContractAddressCollision, evm := evm, run := none } := by
  unfold Create create
  dsimp only
  rw [if_pos hcol]

theorem Create_address_collision_witness :
    Create 0 sampleCrypto sampleTable (NewEVM storeOccupied) 1 [0x00] 5 0 =
      some { ret := [], contractAddr := 0, leftOverGas := 0
             err := some .ErrContractAddressCollision, evm := NewEVM storeOccupied,
             run := none } :=
  Create_address_collision 0 sampleCrypto sampleTable (NewEVM storeOccupied) 1 [0x00] 5 0
    (Or.inl (by decide))

/-- What `Create` returns once the collision check is passed and the
interpreter has returned `r`. -/
theorem Create_of_run (fuel : Nat) (cr : Crypto) (jt : JumpTable) (evm : EVM)
    (caller : Address) (code : List Byte) (gas value : Nat) (r : RunResult)
    (hno : ¬ (evm.StateDB.GetNonce (cr.CreateAddress caller (evm.StateDB.GetNonce caller)) ≠ 0 ∨
      (evm.StateDB.GetCodeHash (cr.CreateAddress caller (evm.StateDB.GetNonce caller)) ≠ 0 ∧
       evm.StateDB.GetCodeHash (cr.CreateAddress caller (evm.StateDB.GetNonce caller)) ≠
         cr.Keccak256Hash [])))
    (hrun : Run fuel jt evm (createFrame caller { code := code, hash := 0 } gas value
      (cr.CreateAddress caller (evm.StateDB.GetNonce caller))) [] false = some r) :
    Create fuel cr jt evm caller code gas value =
      some { ret := r.ret
             contractAddr := cr.CreateAddress caller (evm.StateDB.GetNonce caller)
             leftOverGas := r.st.scope.Contract.Gas
             err := r.err
             evm := if r.err = none then
                 { r.st.evm with
                   StateDB := ((r.st.evm.StateDB.SetCode cr
                     (cr.CreateAddress caller (evm.StateDB.GetNonce caller)) r.ret).SetNonce caller
                     ((evm.StateDB.GetNonce caller + 1) % 2 ^ 64)) }
               else r.st.evm
             run := some r } := by
  unfold Create create
  dsimp only
  rw [if_neg hno, hrun]

/-- A creation that invoked the interpreter passed the collision check, and
the invocation is the run of the creation frame on the EVM as `Create` found
it. -/
theorem Create_run_inv (fuel : Nat) (cr : Crypto) (jt : JumpTable) (evm : EVM)
    (caller : Address) (code : List Byte) (gas value : Nat) (res : CreateResult) (r : RunResult)
    (h : Create fuel cr jt evm caller code gas value = some res) (hrun : res.run = some r) :
    ¬ (evm.StateDB.GetNonce (cr.CreateAddress caller (evm.StateDB.GetNonce caller)) ≠ 0 ∨
      (evm.StateDB.GetCodeHash (cr.CreateAddress caller (evm.StateDB.GetNonce caller)) ≠ 0 ∧
       evm.StateDB.GetCodeHash (cr.CreateAddress caller (evm.StateDB.GetNonce caller)) ≠
         cr.Keccak256Hash [])) ∧
    Run fuel jt evm (createFrame caller { code := code, hash := 0 } gas value
      (cr.CreateAddress caller (evm.StateDB.GetNonce caller))) [] false = some r := by
  unfold Create create at h
  dsimp only at h
  split at h
  · simp only [Option.some.injEq] at h
    subst h
    simp at hrun
  · rename_i hno
    refine ⟨hno, ?_⟩
    split at h
    · simp at h
    · rename_i r1 hr1
      simp only [Option.some.injEq] at h
      subst h
      simp only [Option.some.injEq] at hrun
      subst hrun
      exact hr1

theorem GetCode_SetNonce_SetCode (cr : Crypto) (s : StateDB) (a b : Address) (c : List Byte)
    (n : Nat) : ((s.SetCode cr a c).SetNonce b n).GetCode a = c := by
  simp [StateDB.GetCode, StateDB.SetNonce, StateDB.SetCode]

theorem GetNonce_SetNonce (s : StateDB) (a : Address) (n : Nat) :
    (s.SetNonce a n).GetNonce a = n := by
  simp [StateDB.GetNonce, StateDB.SetNonce]

/-- C9: when `Create` has run the init code with result `r`, that run is the run
of a frame whose address is `CreateAddress(caller, nonce of the caller before
the call)` and whose code is the init code; if the run ended without error,
`Create` returns no error, that address and the returned bytes, and the code
held by the state store at that address is exactly those bytes; if the run
ended with an error, `Create` returns that error and leaves the EVM as the run
left it, storing no code. -/
theorem Create_stores_returned_code (fuel : Nat) (cr : Crypto) (jt : JumpTable) (evm : EVM)
    (caller : Address) (code : List Byte) (gas value : Nat) (res : CreateResult) (r : RunResult)
    (h : Create fuel cr jt evm caller code gas value = some res) (hrun : res.run = some r) :
    Run fuel jt evm (createFrame caller { code := code, hash := 0 } gas value
      (cr.CreateAddress caller (evm.StateDB.GetNonce caller))) [] false = some r ∧
    (createFrame caller { code := code, hash := 0 } gas value
      (cr.CreateAddress caller (evm.StateDB.GetNonce caller))).Address =
        cr.CreateAddress caller (evm.StateDB.GetNonce caller) ∧
    (createFrame caller { code := code, hash := 0 } gas value
      (cr.CreateAddress caller (evm.StateDB.GetNonce caller))).Code = code ∧
    (r.err = none →
      res.err = none ∧ res.ret = r.ret ∧
      res.contractAddr = cr.CreateAddress caller (evm.StateDB.GetNonce caller) ∧
      res.evm.StateDB.GetCode (cr.CreateAddress caller (evm.StateDB.GetNonce caller)) = r.ret) ∧
    (r.err ≠ none → res.err = r.err ∧ res.evm = r.st.evm) := by
  obtain ⟨hno, hr⟩ := Create_run_inv fuel cr jt evm caller code gas value res r h hrun
  have hres := Create_of_run fuel cr jt evm caller code gas value r hno hr
  rw [h] at hres
  simp only [Option.some.injEq] at hres
  subst hres
  refine ⟨hr, rfl, rfl, ?_, ?_⟩
  · intro he
    refine ⟨he, rfl, rfl, ?_⟩
    simp only [he, if_true]
    exact GetCode_SetNonce_SetCode cr _ _ _ _ _
  · intro he
    refine ⟨rfl, ?_⟩
    simp only [he, if_false]

theorem Create_stores_returned_code_witness :
    ∃ res r, Create 3 sampleCrypto sampleTable (NewEVM storeNonceFive) 1 returnProgram 5 0 =
        some res ∧
      res.run = some r ∧ r.err = none ∧ res.err = none ∧ res.ret = List.replicate 32 0 ∧
      res.contractAddr = 205 ∧ res.evm.StateDB.GetCode 205 = List.replicate 32 0 :=
  ⟨_, _, rfl, rfl, rfl,
    ((Create_stores_returned_code 3 sampleCrypto sampleTable (NewEVM storeNonceFive) 1
      returnProgram 5 0 _ _ rfl rfl).2.2.2.1 rfl)⟩

/-- C10 fails as stated: with caller 1 at nonce 5, an init code made of the
probe instruction reads back nonce 5, not 6, from the store it runs against;
the store left by the run still has nonce 5 and only the store returned by
`Create` has nonce 6. -/
theorem Create_nonce_before_run_counterexample :
    storeNonceFive.GetNonce 1 = 5 ∧
    (Create 1 sampleCrypto sampleTable (NewEVM storeNonceFive) 1 [0x0c] 0 0).map
      (fun res => (res.ret, res.err, res.run.map (fun r => r.st.evm.StateDB.GetNonce 1),
        res.evm.StateDB.GetNonce 1)) = some ([5], none, some 5, 6) := by
  decide

/-- C10, amended: a `Create` that passes the collision check runs the init code
on the EVM exactly as it was when `Create` was called (so against the caller's
nonce before the call); when that run ends without error the returned store
holds `nonce_before + 1` (modulo 2^64) for the caller, and when it ends with an
error the EVM is returned as the run left it. -/
theorem Create_sets_nonce_after_run (fuel : Nat) (cr : Crypto) (jt : JumpTable) (evm : EVM)
    (caller : Address) (code : List Byte) (gas value : Nat) (res : CreateResult)
    (hno : ¬ (evm.StateDB.GetNonce (cr.CreateAddress caller (evm.StateDB.GetNonce caller)) ≠ 0 ∨
      (evm.StateDB.GetCodeHash (cr.CreateAddress caller (evm.StateDB.GetNonce caller)) ≠ 0 ∧
       evm.StateDB.GetCodeHash (cr.CreateAddress caller (evm.StateDB.GetNonce caller)) ≠
         cr.Keccak256Hash [])))
    (h : Create fuel cr jt evm caller code gas value = some res) :
    ∃ r, res.run = some r ∧
      Run fuel jt evm (createFrame caller { code := code, hash := 0 } gas value
        (cr.CreateAddress caller (evm.StateDB.GetNonce caller))) [] false = some r ∧
      (r.err = none →
        res.evm.StateDB.GetNonce caller = (evm.StateDB.GetNonce caller + 1) % 2 ^ 64) ∧
      (r.err ≠ none → res.evm = r.st.evm) := by
  cases hr : Run fuel jt evm (createFrame caller { code := code, hash := 0 } gas value
      (cr.CreateAddress caller (evm.StateDB.GetNonce caller))) [] false with
  | none =>
    unfold Create create at h
    dsimp only at h
    rw [if_neg hno, hr] at h
    simp at h
  | some r =>
    have hres := Create_of_run fuel cr jt evm caller code gas value r hno hr
    rw [h] at hres
    simp only [Option.some.injEq] at hres
    subst hres
    refine ⟨r, rfl, rfl, ?_, ?_⟩
    · intro he
      simp only [he, if_true]
      exact GetNonce_SetNonce _ _ _
    · intro he
      simp only [he, if_false]

theorem Create_sets_nonce_after_run_witness :
    ∃ res, Create 1 sampleCrypto sampleTable (NewEVM storeNonceFive) 1 [0x0c] 0 0 = some res ∧
      ∃ r, res.run = some r ∧
        Run 1 sampleTable (NewEVM storeNonceFive)
          (createFrame 1 { code := [0x0c], hash := 0 } 0 0
            (sampleCrypto.CreateAddress 1 ((NewEVM storeNonceFive).StateDB.GetNonce 1)))
          [] false = some r ∧
        (r.err = none →
          res.evm.StateDB.GetNonce 1 = ((NewEVM storeNonceFive).StateDB.GetNonce 1 + 1) % 2 ^ 64) ∧
        (r.err ≠ none → res.evm = r.st.evm) :=
  ⟨_, rfl, Create_sets_nonce_after_run 1 sampleCrypto sampleTable (NewEVM storeNonceFive) 1
    [0x0c] 0 0 _ (by decide) rfl⟩

/-! ## What a pass does not check -/

theorem runStep_exec (jt : JumpTable) (codeLen : Nat) (st : ExecState) (log : List Event)
    (o : operation) (memorySize : Nat) (hpc : st.pc < codeLen)
    (hjt : jt (st.scope.Contract.GetOp st.pc) = some o)
    (hmem : calcMemorySize o st.scope.Stack = .ok memorySize) :
    runStep jt codeLen st log =
      dispatch o (o.execute (growMemory memorySize st))
        (growLog memorySize log ++ [Event.execute (st.scope.Contract.GetOp st.pc)]) := by
  unfold runStep
  rw [if_neg (by omega), hjt]
  simp only [hmem]

theorem dispatch_log (o : operation) (h : HandlerResult) (log : List Event) :
    (dispatch o h log).log = log := by
  unfold dispatch
  split
  · rfl
  · split
    · rfl
    · split
      · rfl
      · split <;> rfl

theorem dispatch_err (o : operation) (h : HandlerResult) (log : List Event) (e : VMError)
    (he : (dispatch o h log).err = some e) (hne : e ≠ .ErrExecutionReverted) :
    h.err = some e := by
  unfold dispatch at he
  split at he
  · rename_i e1 he1
    simp only [Outcome.err, Option.some.injEq] at he
    rw [he1, he]
  · split at he
    · simp only [Outcome.err, Option.some.injEq] at he
      exact absurd he.symm hne
    · split at he
      · simp [Outcome.err] at he
      · split at he <;> simp [Outcome.err] at he

theorem dispatch_gas (o : operation) (h : HandlerResult) (log : List Event) :
    (dispatch o h log).st.scope.Contract.Gas = h.st.scope.Contract.Gas := by
  have hs : (storeReturnData o h).scope = h.st.scope := by
    unfold storeReturnData
    split <;> rfl
  unfold dispatch
  split
  · simp only [Outcome.st, hs]
  · split
    · simp only [Outcome.st, hs]
    · split
      · simp only [Outcome.st, hs]
      · split <;> simp only [Outcome.st, hs]

theorem growMemory_contract (memorySize : Nat) (st : ExecState) :
    (growMemory memorySize st).scope.Contract = st.scope.Contract := by
  unfold growMemory
  split <;> rfl

/-! ### The program of 1025 pushes -/

theorem getD_pushes (n : Nat) :
    ∀ i, i < n →
      ((List.replicate n ([0x60, 0x00] : List Byte)).flatten).getD (2 * i) 0 = 0x60 ∧
      ((List.replicate n ([0x60, 0x00] : List Byte)).flatten).getD (2 * i + 1) 0 = 0x00 := by
  induction n with
  | zero => intro i h; omega
  | succ n ih =>
    intro i h
    cases i with
    | zero => simp [List.replicate_succ]
    | succ i =>
      have h2 : 2 * (i + 1) = 2 * i + 1 + 1 := by omega
      have h3 : 2 * (i + 1) + 1 = 2 * i + 1 + 1 + 1 := by omega
      have := ih i (by omega)
      rw [h3, h2]
      simp only [List.replicate_succ, List.flatten_cons, List.cons_append, List.nil_append,
        List.getD_cons_succ]
      exact this

theorem length_pushes (n : Nat) :
    ((List.replicate n ([0x60, 0x00] : List Byte)).flatten).length = 2 * n := by
  induction n with
  | zero => rfl
  | succ n ih =>
    simp only [List.replicate_succ, List.flatten_cons, List.length_append, ih]
    simp only [List.length_cons, List.length_nil]
    omega

theorem manyPushes_length : manyPushes.length = 2050 := length_pushes 1025

theorem runStep_pushState (i : Nat) (h : i < 1025) :
    runStep sampleTable manyPushes.length (pushState i) (pushLog i) =
      .next (pushState (i + 1)) (pushLog (i + 1)) := by
  have hop : (pushState i).scope.Contract.GetOp (pushState i).pc = 0x60 :=
    (getD_pushes 1025 i h).1
  have harg : (pushState i).scope.Contract.GetByte ((pushState i).pc + 1) = 0x00 :=
    (getD_pushes 1025 i h).2
  have hjt : sampleTable ((pushState i).scope.Contract.GetOp (pushState i).pc) = some push1Op := by
    rw [hop]
    rfl
  have hpc : (pushState i).pc < manyPushes.length := by
    rw [manyPushes_length]
    show 2 * i < 2050
    omega
  rw [runStep_exec sampleTable _ _ _ push1Op 0 hpc hjt rfl, hop]
  have hmod : (2 * i + 1 + 1) % 2 ^ 64 = 2 * (i + 1) := by omega
  have hlog : pushLog i ++ [Event.execute 0x60] = pushLog (i + 1) := by
    unfold pushLog
    rw [List.replicate_succ']
  show Outcome.next
      { pc := ((pushState i).pc + 1 + 1) % 2 ^ 64
        scope :=
          { Memory := []
            Stack := (((pushState i).scope.Contract.GetByte ((pushState i).pc + 1)).val ::
              List.replicate i 0)
            Contract := { sampleFrame manyPushes 0 with Input := [] } }
        evm := NewEVM StateDB.empty }
      (pushLog i ++ [Event.execute 0x60]) = _
  rw [harg, hlog]
  show Outcome.next
      { pc := (2 * i + 1 + 1) % 2 ^ 64
        scope :=
          { Memory := []
            Stack := List.replicate (i + 1) 0
            Contract := { sampleFrame manyPushes 0 with Input := [] } }
        evm := NewEVM StateDB.empty } (pushLog (i + 1)) = _
  rw [hmod]
  rfl

theorem passes_pushState :
    ∀ j i, i + j ≤ 1025 →
      passes sampleTable manyPushes.length j (pushState i) (pushLog i) =
        some (pushState (i + j), pushLog (i + j)) := by
  intro j
  induction j with
  | zero => intro i _; rfl
  | succ j ih =>
    intro i h
    unfold passes
    rw [runStep_pushState i (by omega)]
    have := ih (i + 1) (by omega)
    simp only [this]
    have hij : i + 1 + j = i + (j + 1) := by omega
    rw [hij]

/-! ### Stack bounds -/

/-- C3 fails as stated: on the program of 1025 PUSH1 instructions `Run` reaches,
after 1024 passes, a PUSH1 (whose `maxStack` is 1023) with 1024 words on the
stack; it does not return `ErrStackOverflow` but invokes the handler and ends
without error with 1025 words on the stack and 1025 handler invocations in the
log. -/
theorem Run_stack_bounds_counterexample :
    push1Op.maxStack = 1023 ∧
    passes sampleTable (sampleFrame manyPushes 0).Code.length 1024
      (initState (NewEVM StateDB.empty) (sampleFrame manyPushes 0) []) [] =
        some (pushState 1024, pushLog 1024) ∧
    sampleTable ((pushState 1024).scope.Contract.GetOp (pushState 1024).pc) = some push1Op ∧
    (pushState 1024).scope.Stack.length = 1024 ∧
    Run (1025 + (0 + 1)) sampleTable (NewEVM StateDB.empty) (sampleFrame manyPushes 0) [] false =
      some { ret := [], err := none, st := pushState 1025, log := pushLog 1025 } ∧
    (pushState 1025).scope.Stack.length = 1025 ∧
    pushLog 1025 = List.replicate 1025 (Event.execute 0x60) := by
  have hcode : (sampleFrame manyPushes 0).Code ≠ [] := by
    intro h0
    have hl : (sampleFrame manyPushes 0).Code.length = 2050 := manyPushes_length
    rw [h0] at hl
    simp at hl
  refine ⟨rfl, passes_pushState 1024 0 (by omega), ?_, List.length_replicate _ _, ?_,
    List.length_replicate _ _, rfl⟩
  · have hop : (pushState 1024).scope.Contract.GetOp (pushState 1024).pc = 0x60 :=
      (getD_pushes 1025 1024 (by omega)).1
    rw [hop]
    rfl
  · apply Run_of_passes_done 0 1025 sampleTable (NewEVM StateDB.empty) (sampleFrame manyPushes 0)
      [] false (pushState 1025) (pushLog 1025) _ hcode (passes_pushState 1025 0 (by omega))
    unfold runStep
    have hpc : (sampleFrame manyPushes 0).Code.length ≤ (pushState 1025).pc := by
      have hl : (sampleFrame manyPushes 0).Code.length = 2050 := manyPushes_length
      rw [hl]
      show 2050 ≤ 2 * 1025
      omega
    rw [if_pos hpc]

/-- A pass over operations that may panic, once the opcode is defined, the
memory-size function has returned and the sizing has not overflowed. -/
theorem runStepPanicking_exec (jt : PanickingJumpTable) (codeLen : Nat) (st : ExecState)
    (log : List Event) (p : PanickingOperation) (memorySize : Nat) (hpc : st.pc < codeLen)
    (hjt : jt (st.scope.Contract.GetOp st.pc) = some p)
    (hsize : (p.op.memorySize.isSome && p.memorySizePanics st.scope.Stack) = false)
    (hmem : calcMemorySize p.op st.scope.Stack = .ok memorySize) :
    runStepPanicking jt codeLen st log =
      if p.executePanics (growMemory memorySize st) then
        .panicked (growLog memorySize log ++ [Event.execute (st.scope.Contract.GetOp st.pc)])
      else
        .returned (dispatch p.op (p.op.execute (growMemory memorySize st))
          (growLog memorySize log ++ [Event.execute (st.scope.Contract.GetOp st.pc)])) := by
  unfold runStepPanicking
  rw [if_neg (by omega), hjt]
  simp only [hsize, hmem]
  rfl

/-- A pass over operations whose memory-size function panics. -/
theorem runStepPanicking_sizing (jt : PanickingJumpTable) (codeLen : Nat) (st : ExecState)
    (log : List Event) (p : PanickingOperation) (hpc : st.pc < codeLen)
    (hjt : jt (st.scope.Contract.GetOp st.pc) = some p)
    (hsize : (p.op.memorySize.isSome && p.memorySizePanics st.scope.Stack) = true) :
    runStepPanicking jt codeLen st log = .panicked log := by
  unfold runStepPanicking
  rw [if_neg (by omega), hjt]
  simp only [hsize]
  rfl

/-- Over operations that never panic the pass is `runStep`. -/
theorem runStepPanicking_never (jt : JumpTable) (codeLen : Nat) (st : ExecState)
    (log : List Event) :
    runStepPanicking (fun op => (jt op).map PanickingOperation.never) codeLen st log =
      .returned (runStep jt codeLen st log) := by
  unfold runStepPanicking runStep
  by_cases hpc : codeLen ≤ st.pc
  · rw [if_pos hpc, if_pos hpc]
  · rw [if_neg hpc, if_neg hpc]
    beta_reduce
    cases hjt : jt (st.scope.Contract.GetOp st.pc) with
    | none => rfl
    | some o =>
      simp only [Option.map_some', PanickingOperation.never, Bool.and_false, Bool.false_eq_true,
        if_false]
      cases hmem : calcMemorySize o st.scope.Stack with
      | error e => rfl
      | ok memorySize => rfl

/-- Over operations that never panic the loop is `runLoop`. -/
theorem runLoopPanicking_never (jt : JumpTable) (codeLen : Nat) :
    ∀ (fuel : Nat) (st : ExecState) (log : List Event),
      runLoopPanicking (fun op => (jt op).map PanickingOperation.never) codeLen fuel st log =
        (runLoop jt codeLen fuel st log).map PanicOr.returned := by
  intro fuel
  induction fuel with
  | zero => intro st log; rfl
  | succ fuel ih =>
    intro st log
    unfold runLoopPanicking runLoop
    rw [runStepPanicking_never]
    cases hs : runStep jt codeLen st log with
    | done r => rfl
    | next st1 log1 => exact ih st1 log1

/-- C3, amended: `Run` does not compare the stack size with `minStack` or
`maxStack`. Whatever the stack size, also below `minStack` or above `maxStack`,
a pass that finds a defined opcode calls the memory-size function and, when the
sizing does not overflow, invokes the handler. These functions index the stack
unchecked: when the memory-size function panics on a stack that is too short,
the loop ends with that panic before the handler is invoked; when the handler
panics, the loop ends with that panic after the invocation; in neither case does
`Run` return an error. When the handler returns, the pass goes on with what it
returned. The pass ends with `ErrStackUnderflow` or `ErrStackOverflow` only when
the handler itself returned that error. -/
theorem runStep_no_stack_check (jt : PanickingJumpTable) (codeLen : Nat) (st : ExecState)
    (log : List Event) (p : PanickingOperation) (hpc : st.pc < codeLen)
    (hjt : jt (st.scope.Contract.GetOp st.pc) = some p) :
    ((p.op.memorySize.isSome && p.memorySizePanics st.scope.Stack) = true →
      ∀ fuel, runLoopPanicking jt codeLen (fuel + 1) st log = some (.panicked log)) ∧
    ((p.op.memorySize.isSome && p.memorySizePanics st.scope.Stack) = false →
      ∀ memorySize, calcMemorySize p.op st.scope.Stack = .ok memorySize →
        (runStepPanicking jt codeLen st log).log =
          growLog memorySize log ++ [Event.execute (st.scope.Contract.GetOp st.pc)] ∧
        (p.executePanics (growMemory memorySize st) = true →
          ∀ fuel, runLoopPanicking jt codeLen (fuel + 1) st log =
            some (.panicked
              (growLog memorySize log ++ [Event.execute (st.scope.Contract.GetOp st.pc)]))) ∧
        (p.executePanics (growMemory memorySize st) = false →
          runStepPanicking jt codeLen st log =
            .returned (dispatch p.op (p.op.execute (growMemory memorySize st))
              (growLog memorySize log ++ [Event.execute (st.scope.Contract.GetOp st.pc)])))) ∧
    (∀ e, e = VMError.ErrStackUnderflow ∨ e = VMError.ErrStackOverflow →
      (runStepPanicking jt codeLen st log).err = some e →
      (p.op.memorySize.isSome && p.memorySizePanics st.scope.Stack) = false ∧
      ∃ memorySize, calcMemorySize p.op st.scope.Stack = .ok memorySize ∧
        p.executePanics (growMemory memorySize st) = false ∧
        (p.op.execute (growMemory memorySize st)).err = some e) := by
  refine ⟨?_, ?_, ?_⟩
  · intro hsize fuel
    unfold runLoopPanicking
    rw [runStepPanicking_sizing jt codeLen st log p hpc hjt hsize]
  · intro hsize memorySize hmem
    have hstep := runStepPanicking_exec jt codeLen st log p memorySize hpc hjt hsize hmem
    refine ⟨?_, ?_, ?_⟩
    · rw [hstep]
      split
      · rfl
      · exact dispatch_log _ _ _
    · intro hp fuel
      unfold runLoopPanicking
      rw [hstep, if_pos hp]
    · intro hp
      rw [hstep, if_neg (by simp [hp])]
  · intro e he herr
    have hne : e ≠ .ErrExecutionReverted := by
      rcases he with h | h <;> rw [h] <;> decide
    have hne2 : e ≠ .ErrGasUintOverflow := by
      rcases he with h | h <;> rw [h] <;> decide
    cases hsize : (p.op.memorySize.isSome && p.memorySizePanics st.scope.Stack) with
    | true =>
      rw [runStepPanicking_sizing jt codeLen st log p hpc hjt hsize] at herr
      simp [PanicOr.err] at herr
    | false =>
      refine ⟨rfl, ?_⟩
      cases hmem : calcMemorySize p.op st.scope.Stack with
      | error e1 =>
        exfalso
        have he1 : e1 = .ErrGasUintOverflow := by
          unfold calcMemorySize at hmem
          split at hmem
          · simp at hmem
          · split at hmem
            · simp only [Except.error.injEq] at hmem
              exact hmem.symm
            · split at hmem
              · simp only [Except.error.injEq] at hmem
                exact hmem.symm
              · simp at hmem
        unfold runStepPanicking at herr
        rw [if_neg (by omega), hjt] at herr
        simp only [hsize, hmem] at herr
        simp only [Bool.false_eq_true, if_false, PanicOr.err, Outcome.err,
          Option.some.injEq] at herr
        exact hne2 (herr ▸ he1)
      | ok memorySize =>
        refine ⟨memorySize, rfl, ?_⟩
        rw [runStepPanicking_exec jt codeLen st log p memorySize hpc hjt hsize hmem] at herr
        cases hp : p.executePanics (growMemory memorySize st) with
        | true =>
          rw [hp] at herr
          simp [PanicOr.err] at herr
        | false =>
          rw [hp] at herr
          simp only [Bool.false_eq_true, if_false, PanicOr.err] at herr
          exact ⟨rfl, dispatch_err _ _ _ _ herr hne⟩

theorem runStep_no_stack_check_witness :
    ((initState (NewEVM StateDB.empty) (sampleFrame underflowProgram 0) []).scope.Stack.length <
        sstoreOp.minStack ∧
      (runStepPanicking uncheckedTable 1
        (initState (NewEVM StateDB.empty) (sampleFrame underflowProgram 0) []) []).log =
          [Event.execute 0x55] ∧
      (runStepPanicking uncheckedTable 1
        (initState (NewEVM StateDB.empty) (sampleFrame underflowProgram 0) []) []).err = none ∧
      ∀ fuel, RunPanicking (fuel + 1) uncheckedTable (NewEVM StateDB.empty)
        (sampleFrame underflowProgram 0) [] false = some (.panicked [Event.execute 0x55])) ∧
    (push1Op.maxStack < (pushState 1024).scope.Stack.length ∧
      runStepPanicking uncheckedTable 2050 (pushState 1024) (pushLog 1024) =
        .returned (.next (pushState 1025) (pushLog 1025)) ∧
      (pushState 1025).scope.Stack.length = 1025 ∧
      pushLog 1025 = pushLog 1024 ++ [Event.execute 0x60]) := by
  have hop : (pushState 1024).scope.Contract.GetOp (pushState 1024).pc = 0x60 :=
    (getD_pushes 1025 1024 (by omega)).1
  have hjt : uncheckedTable ((pushState 1024).scope.Contract.GetOp (pushState 1024).pc) =
      some (unchecked push1Op) := by
    rw [hop]
    rfl
  have hunder := runStep_no_stack_check uncheckedTable 1
    (initState (NewEVM StateDB.empty) (sampleFrame underflowProgram 0) []) []
    (unchecked sstoreOp) (by decide) rfl
  have hover := runStep_no_stack_check uncheckedTable 2050 (pushState 1024) (pushLog 1024)
    (unchecked push1Op) (by show 2 * 1024 < 2050; omega) hjt
  have hlen : ∀ i, (pushState i).scope.Stack.length = i := fun i => List.length_replicate _ _
  have hlog : pushLog 1025 = pushLog 1024 ++ [Event.execute 0x60] := by
    unfold pushLog
    rw [← List.replicate_succ']
  refine ⟨⟨by decide, (hunder.2.1 rfl 0 rfl).1, ?_, fun fuel => (hunder.2.1 rfl 0 rfl).2.1 rfl fuel⟩,
    ⟨?_, ?_, hlen 1025, hlog⟩⟩
  · rfl
  · rw [hlen]
    decide
  · have hnever : ∀ s, (unchecked push1Op).executePanics s = false := by
      intro s
      show decide (s.scope.Stack.length < 0) = false
      exact decide_eq_false (Nat.not_lt_zero _)
    have hstep := (hover.2.1 rfl 0 rfl).2.2 (hnever _)
    rw [hstep]
    have hrun := runStep_pushState 1024 (by omega)
    rw [runStep_exec sampleTable _ _ _ push1Op 0
      (by rw [manyPushes_length]; show 2 * 1024 < 2050; omega)
      (by rw [hop]; rfl) rfl] at hrun
    exact congrArg PanicOr.returned hrun

/-! ### Gas -/

/-- C4 fails as stated: PUSH1 has constant gas 3, yet a frame with no gas left
runs it without `ErrOutOfGas` (the handler is invoked and the frame still has
gas 0), and a frame with gas 10 still has gas 10 after it. -/
theorem Run_gas_counterexample :
    push1Op.constantGas = 3 ∧
    (Run 2 sampleTable (NewEVM StateDB.empty) (sampleFrame [0x60, 0x01] 0) [] false).map
      (fun r => (r.ret, r.err, r.log, r.st.scope.Contract.Gas)) =
        some ([], none, [Event.execute 0x60], 0) ∧
    (Run 2 sampleTable (NewEVM StateDB.empty) (sampleFrame [0x60, 0x01] 10) [] false).map
      (fun r => (r.ret, r.err, r.log, r.st.scope.Contract.Gas)) =
        some ([], none, [Event.execute 0x60], 10) := by
  decide

/-- C4, amended: `Run` charges no gas. Whatever gas the frame has left, a pass
that finds a defined opcode whose memory sizing does not overflow invokes the
handler on a frame with the same remaining gas, leaves the remaining gas as the
handler left it, and ends with `ErrOutOfGas` only when the handler itself
returned that error. -/
theorem runStep_no_gas_charge (jt : JumpTable) (codeLen : Nat) (st : ExecState)
    (log : List Event) (o : operation) (memorySize : Nat) (hpc : st.pc < codeLen)
    (hjt : jt (st.scope.Contract.GetOp st.pc) = some o)
    (hmem : calcMemorySize o st.scope.Stack = .ok memorySize) :
    (runStep jt codeLen st log).log =
      growLog memorySize log ++ [Event.execute (st.scope.Contract.GetOp st.pc)] ∧
    (growMemory memorySize st).scope.Contract.Gas = st.scope.Contract.Gas ∧
    (runStep jt codeLen st log).st.scope.Contract.Gas =
      (o.execute (growMemory memorySize st)).st.scope.Contract.Gas ∧
    ((runStep jt codeLen st log).err = some .ErrOutOfGas →
      (o.execute (growMemory memorySize st)).err = some .ErrOutOfGas) := by
  rw [runStep_exec jt codeLen st log o memorySize hpc hjt hmem]
  refine ⟨dispatch_log _ _ _, ?_, dispatch_gas _ _ _, ?_⟩
  · rw [growMemory_contract]
  · intro he
    exact dispatch_err _ _ _ _ he (by decide)

theorem runStep_no_gas_charge_witness :
    (runStep sampleTable 2 (initState (NewEVM StateDB.empty) (sampleFrame [0x60, 0x01] 0) [])
      []).log = growLog 0 [] ++ [Event.execute 0x60] ∧
    (growMemory 0 (initState (NewEVM StateDB.empty) (sampleFrame [0x60, 0x01] 0)
      [])).scope.Contract.Gas = 0 ∧
    (runStep sampleTable 2 (initState (NewEVM StateDB.empty) (sampleFrame [0x60, 0x01] 0) [])
      []).st.scope.Contract.Gas = 0 ∧
    ((runStep sampleTable 2 (initState (NewEVM StateDB.empty) (sampleFrame [0x60, 0x01] 0) [])
      []).err = some .ErrOutOfGas →
      (push1Op.execute (growMemory 0 (initState (NewEVM StateDB.empty)
        (sampleFrame [0x60, 0x01] 0) []))).err = some .ErrOutOfGas) :=
  runStep_no_gas_charge sampleTable 2
    (initState (NewEVM StateDB.empty) (sampleFrame [0x60, 0x01] 0) []) [] push1Op 0
    (by decide) rfl rfl

/-! ### Write protection -/

/-- C5 fails as stated: run with `readOnly = true` (and with the interpreter's
own `readOnly` field set), the program PUSH1 1, PUSH1 0, SSTORE reaches SSTORE,
which is flagged `writes`; `Run` does not return `ErrWriteProtection` but
invokes the handler, which writes the slot, and ends without error. -/
theorem Run_readOnly_counterexample :
    sstoreOp.writes = true ∧ readOnlyEVM.interpreter.readOnly = true ∧
    (Run 4 sampleTable readOnlyEVM (sampleFrame storeProgram 0) [] true).map
      (fun r => (r.ret, r.err, r.log, r.st.evm.StateDB.storage 7 0)) =
        some ([], none, [Event.execute 0x60, Event.execute 0x60, Event.execute 0x55], 1) := by
  decide

/-- C5, amended: the `readOnly` argument of `Run` governs no check: `Run` gives
the same result for `readOnly = true` and `readOnly = false`. A pass that finds
an opcode flagged `writes` whose memory sizing does not overflow invokes the
handler, and ends with `ErrWriteProtection` only when the handler itself
returned that error. -/
theorem Run_ignores_readOnly (fuel : Nat) (jt : JumpTable) (evm : EVM) (contract : Contract)
    (input : List Byte) (codeLen : Nat) (st : ExecState) (log : List Event) (o : operation)
    (memorySize : Nat) (hpc : st.pc < codeLen)
    (hjt : jt (st.scope.Contract.GetOp st.pc) = some o)
    (hmem : calcMemorySize o st.scope.Stack = .ok memorySize)
    (hwrites : o.writes = true) :
    Run fuel jt evm contract input true = Run fuel jt evm contract input false ∧
    (runStep jt codeLen st log).log =
      growLog memorySize log ++ [Event.execute (st.scope.Contract.GetOp st.pc)] ∧
    ((runStep jt codeLen st log).err = some .ErrWriteProtection →
      (o.execute (growMemory memorySize st)).err = some .ErrWriteProtection) := by
  rw [runStep_exec jt codeLen st log o memorySize hpc hjt hmem]
  refine ⟨rfl, dispatch_log _ _ _, ?_⟩
  intro he
  exact dispatch_err _ _ _ _ he (by decide)

theorem Run_ignores_readOnly_witness :
    Run 4 sampleTable readOnlyEVM (sampleFrame storeProgram 0) [] true =
      Run 4 sampleTable readOnlyEVM (sampleFrame storeProgram 0) [] false ∧
    (runStep sampleTable 5 { afterTwoPushes storeProgram 0 1 with evm := readOnlyEVM } []).log =
      growLog 0 [] ++ [Event.execute 0x55] ∧
    ((runStep sampleTable 5 { afterTwoPushes storeProgram 0 1 with evm := readOnlyEVM } []).err =
        some .ErrWriteProtection →
      (sstoreOp.execute (growMemory 0
        { afterTwoPushes storeProgram 0 1 with evm := readOnlyEVM })).err =
          some .ErrWriteProtection) :=
  Run_ignores_readOnly 4 sampleTable readOnlyEVM (sampleFrame storeProgram 0) [] 5
    { afterTwoPushes storeProgram 0 1 with evm := readOnlyEVM } [] sstoreOp 0
    (by decide) rfl rfl rfl

/-! ## Call and Create: what is not checked -/

/-- The two ways in which `Call` returns. -/
theorem Call_cases (fuel : Nat) (jt : JumpTable) (evm : EVM) (caller addr : Address)
    (input : List Byte) (gas value : Nat) (res : CallResult)
    (h : Call fuel jt evm caller addr input gas value = some res) :
    (((ensureAccount evm.StateDB addr).GetCode addr).length = 0 ∧
      res = { ret := [], leftOverGas := gas, err := none
              evm := { evm with StateDB := ensureAccount evm.StateDB addr }, run := none }) ∨
    (((ensureAccount evm.StateDB addr).GetCode addr).length ≠ 0 ∧
      ∃ r, Run fuel jt { evm with StateDB := ensureAccount evm.StateDB addr }
          (callFrame (ensureAccount evm.StateDB addr) caller addr gas value) input false = some r ∧
        res = { ret := r.ret, leftOverGas := gas, err := r.err, evm := r.st.evm,
                run := some r }) := by
  unfold Call at h
  dsimp only at h
  split at h
  · rename_i hlen
    simp only [Option.some.injEq] at h
    exact Or.inl ⟨hlen, h.symm⟩
  · rename_i hlen
    split at h
    · simp at h
    · rename_i r hr
      simp only [Option.some.injEq] at h
      exact Or.inr ⟨hlen, r, hr, h.symm⟩

/-- The two ways in which `Create` returns. -/
theorem Create_cases (fuel : Nat) (cr : Crypto) (jt : JumpTable) (evm : EVM)
    (caller : Address) (code : List Byte) (gas value : Nat) (res : CreateResult)
    (h : Create fuel cr jt evm caller code gas value = some res) :
    (res.run = none ∧ res.err = some .ErrContractAddressCollision ∧ res.evm = evm) ∨
    (∃ r, res.run = some r ∧
      Run fuel jt evm (createFrame caller { code := code, hash := 0 } gas value
        (cr.CreateAddress caller (evm.StateDB.GetNonce caller))) [] false = some r ∧
      res.err = r.err ∧ res.ret = r.ret ∧
      (r.err = none →
        res.evm.StateDB.GetCode (cr.CreateAddress caller (evm.StateDB.GetNonce caller)) = r.ret) ∧
      (r.err ≠ none → res.evm = r.st.evm)) := by
  by_cases hcol : (evm.StateDB.GetNonce (cr.CreateAddress caller (evm.StateDB.GetNonce caller)) ≠ 0 ∨
      (evm.StateDB.GetCodeHash (cr.CreateAddress caller (evm.StateDB.GetNonce caller)) ≠ 0 ∧
       evm.StateDB.GetCodeHash (cr.CreateAddress caller (evm.StateDB.GetNonce caller)) ≠
         cr.Keccak256Hash []))
  · left
    unfold Create create at h
    dsimp only at h
    rw [if_pos hcol] at h
    simp only [Option.some.injEq] at h
    subst h
    exact ⟨rfl, rfl, rfl⟩
  · right
    cases hr : Run fuel jt evm (createFrame caller { code := code, hash := 0 } gas value
        (cr.CreateAddress caller (evm.StateDB.GetNonce caller))) [] false with
    | none =>
      unfold Create create at h
      dsimp only at h
      rw [if_neg hcol, hr] at h
      simp at h
    | some r =>
      have hres := Create_of_run fuel cr jt evm caller code gas value r hcol hr
      rw [h] at hres
      simp only [Option.some.injEq] at hres
      subst hres
      refine ⟨r, rfl, rfl, rfl, rfl, ?_, ?_⟩
      · intro he
        simp only [he, if_true]
        exact GetCode_SetNonce_SetCode cr _ _ _ _ _
      · intro he
        simp only [he, if_false]

/-! ### Code size and the 0xEF prefix -/

theorem longCode_run :
    Run (2 + (0 + 1)) extendedTable (NewEVM StateDB.empty)
      (createFrame 1 { code := longCodeProgram, hash := 0 } 0 0 200) [] false =
      some { ret := (returnOp.execute (growMemory 24608 longCodeState)).res
             err := none
             st := storeReturnData returnOp (returnOp.execute (growMemory 24608 longCodeState))
             log := [Event.execute 0x61, Event.execute 0x60, Event.resize 24608,
               Event.execute 0xf3] } := by
  apply Run_of_passes_done 0 2 extendedTable (NewEVM StateDB.empty)
    (createFrame 1 { code := longCodeProgram, hash := 0 } 0 0 200) [] false longCodeState
    [Event.execute 0x61, Event.execute 0x60] _ (by decide) rfl
  rw [runStep_exec extendedTable _ longCodeState _ returnOp 24608 (by decide) rfl rfl]
  rfl

theorem longCode_length :
    (returnOp.execute (growMemory 24608 longCodeState)).res.length = 24577 := by
  show (((Memory.Resize [] 24608).drop 0).take 24577).length = 24577
  rw [List.drop_zero, List.length_take]
  have hlen : (Memory.Resize [] 24608).length = 24608 := by
    unfold Memory.Resize
    rw [if_pos (by decide), List.length_append, List.length_replicate]
    rfl
  rw [hlen]
  decide

/-- C11 fails as stated: an init code that returns the single byte 0xEF makes
`Create` return without error and store that byte as the code of the new
address, and an init code that returns 24577 bytes makes `Create` return
without error and store all 24577 bytes. -/
theorem Create_code_checks_counterexample :
    (Create 7 sampleCrypto extendedTable (NewEVM StateDB.empty) 1 efProgram 0 0).map
      (fun res => (res.ret, res.err, res.contractAddr, res.evm.StateDB.GetCode 200)) =
        some ([0xef], none, 200, [0xef]) ∧
    ∃ res, Create 3 sampleCrypto extendedTable (NewEVM StateDB.empty) 1 longCodeProgram 0 0 =
        some res ∧
      res.err = none ∧ res.contractAddr = 200 ∧ (res.evm.StateDB.GetCode 200).length = 24577 := by
  refine ⟨by decide, ?_⟩
  have hres := Create_of_run 3 sampleCrypto extendedTable (NewEVM StateDB.empty) 1
    longCodeProgram 0 0 _ (by decide) longCode_run
  refine ⟨_, hres, rfl, rfl, ?_⟩
  have hcode := GetCode_SetNonce_SetCode sampleCrypto
    (storeReturnData returnOp (returnOp.execute (growMemory 24608 longCodeState))).evm.StateDB
    200 1 (returnOp.execute (growMemory 24608 longCodeState)).res 1
  exact (congrArg List.length hcode).trans longCode_length

/-- C11, amended: `Create` checks neither the size nor the first byte of the
returned code. When the init code completes without error, `Create` returns
without error and the code held by the state store at the new address is
exactly the returned bytes, whatever their length and first byte; `Create`
returns `ErrMaxCodeSizeExceeded` or `ErrInvalidCode` only when the interpreter
run itself ended with that error. -/
theorem Create_stores_any_code (fuel : Nat) (cr : Crypto) (jt : JumpTable) (evm : EVM)
    (caller : Address) (code : List Byte) (gas value : Nat) (res : CreateResult)
    (h : Create fuel cr jt evm caller code gas value = some res) :
    (∀ r, res.run = some r → r.err = none →
      res.err = none ∧
      res.evm.StateDB.GetCode (cr.CreateAddress caller (evm.StateDB.GetNonce caller)) = r.ret) ∧
    (res.err = some .ErrMaxCodeSizeExceeded →
      ∃ r, res.run = some r ∧ r.err = some .ErrMaxCodeSizeExceeded) ∧
    (res.err = some .ErrInvalidCode →
      ∃ r, res.run = some r ∧ r.err = some .ErrInvalidCode) := by
  rcases Create_cases fuel cr jt evm caller code gas value res h with
    ⟨hrun, herr, _⟩ | ⟨r, hrun, _, herr, _, hok, _⟩
  · refine ⟨?_, ?_, ?_⟩
    · intro r hr
      rw [hrun] at hr
      simp at hr
    · intro he
      rw [herr] at he
      simp at he
    · intro he
      rw [herr] at he
      simp at he
  · refine ⟨?_, ?_, ?_⟩
    · intro r1 hr1 he1
      rw [hrun] at hr1
      simp only [Option.some.injEq] at hr1
      subst hr1
      exact ⟨herr.trans he1, hok he1⟩
    · intro he
      exact ⟨r, hrun, herr ▸ he⟩
    · intro he
      exact ⟨r, hrun, herr ▸ he⟩

theorem Create_stores_any_code_witness :
    ∃ res, Create 7 sampleCrypto extendedTable (NewEVM StateDB.empty) 1 efProgram 0 0 =
        some res ∧
      (∀ r, res.run = some r → r.err = none →
        res.err = none ∧
        res.evm.StateDB.GetCode
          (sampleCrypto.CreateAddress 1 ((NewEVM StateDB.empty).StateDB.GetNonce 1)) = r.ret) ∧
      (res.err = some .ErrMaxCodeSizeExceeded →
        ∃ r, res.run = some r ∧ r.err = some .ErrMaxCodeSizeExceeded) ∧
      (res.err = some .ErrInvalidCode →
        ∃ r, res.run = some r ∧ r.err = some .ErrInvalidCode) :=
  ⟨_, rfl, Create_stores_any_code 7 sampleCrypto extendedTable (NewEVM StateDB.empty) 1
    efProgram 0 0 _ rfl⟩

/-! ### Reverts, leftover gas, missing accounts, depth -/

/-- C12 fails as stated: a call into code that writes storage slot 0 and then
reverts ends with `ErrExecutionReverted`, yet the store returned by `Call` holds
the written value 1 in that slot, where the store before the call held 0. -/
theorem Call_revert_counterexample :
    storeWithRevertCode.storage 9 0 = 0 ∧
    (Call 7 sampleTable (NewEVM storeWithRevertCode) 1 9 [] 5 0).map
      (fun res => (res.ret, res.leftOverGas, res.err, res.evm.StateDB.storage 9 0)) =
        some ([], 5, some .ErrExecutionReverted, 1) := by
  decide

/-- C12, amended: when the interpreter run of a `Call` ends with
`ErrExecutionReverted`, `Call` undoes nothing: it returns the data and the error
of the run, and the EVM (hence the state store) it returns is exactly the one
the run left, the run having started from the store `Call` found with the
callee account created if it did not exist. -/
theorem Call_revert_keeps_changes (fuel : Nat) (jt : JumpTable) (evm : EVM)
    (caller addr : Address) (input : List Byte) (gas value : Nat) (res : CallResult)
    (r : RunResult)
    (h : Call fuel jt evm caller addr input gas value = some res)
    (hrun : res.run = some r) (hrev : r.err = some .ErrExecutionReverted) :
    Run fuel jt { evm with StateDB := ensureAccount evm.StateDB addr }
      (callFrame (ensureAccount evm.StateDB addr) caller addr gas value) input false = some r ∧
    res.err = some .ErrExecutionReverted ∧ res.ret = r.ret ∧ res.evm = r.st.evm := by
  rcases Call_cases fuel jt evm caller addr input gas value res h with
    ⟨_, hres⟩ | ⟨_, r1, hr1, hres⟩
  · subst hres
    simp at hrun
  · subst hres
    simp only [Option.some.injEq] at hrun
    subst hrun
    exact ⟨hr1, hrev, rfl, rfl⟩

theorem Call_revert_keeps_changes_witness :
    ∃ res r, Call 7 sampleTable (NewEVM storeWithRevertCode) 1 9 [] 5 0 = some res ∧
      res.run = some r ∧ r.err = some .ErrExecutionReverted ∧
      Run 7 sampleTable
        { NewEVM storeWithRevertCode with
          StateDB := ensureAccount (NewEVM storeWithRevertCode).StateDB 9 }
        (callFrame (ensureAccount (NewEVM storeWithRevertCode).StateDB 9) 1 9 5 0) [] false =
          some r ∧
      res.err = some .ErrExecutionReverted ∧ res.ret = r.ret ∧ res.evm = r.st.evm :=
  ⟨_, _, rfl, rfl, rfl,
    Call_revert_keeps_changes 7 sampleTable (NewEVM storeWithRevertCode) 1 9 [] 5 0 _ _
      rfl rfl rfl⟩

/-- C13 fails as stated: a call into code made of an unassigned opcode ends
with `ErrInvalidOpCode`, an error other than `ErrExecutionReverted`, and `Call`
returns the 5 units of gas it was given, not 0. -/
theorem Call_leftover_gas_counterexample :
    (Call 1 sampleTable (NewEVM storeWithBadCode) 1 9 [] 5 0).map
      (fun res => (res.ret, res.leftOverGas, res.err)) =
        some ([], 5, some (.ErrInvalidOpCode 0x21)) := by
  decide

/-- C13, amended: whatever the outcome of the interpreter run (no error,
`ErrExecutionReverted` or any other error) and whatever gas the frame has left,
the leftover gas that `Call` returns is the gas that was passed in. -/
theorem Call_returns_gas_passed_in (fuel : Nat) (jt : JumpTable) (evm : EVM)
    (caller addr : Address) (input : List Byte) (gas value : Nat) (res : CallResult)
    (h : Call fuel jt evm caller addr input gas value = some res) :
    res.leftOverGas = gas := by
  rcases Call_cases fuel jt evm caller addr input gas value res h with
    ⟨_, hres⟩ | ⟨_, r1, _, hres⟩
  · subst hres
    rfl
  · subst hres
    rfl

theorem Call_returns_gas_passed_in_witness :
    ∃ res, Call 1 sampleTable (NewEVM storeWithBadCode) 1 9 [] 5 0 = some res ∧
      res.err = some (.ErrInvalidOpCode 0x21) ∧ res.leftOverGas = 5 :=
  ⟨_, rfl, rfl,
    Call_returns_gas_passed_in 1 sampleTable (NewEVM storeWithBadCode) 1 9 [] 5 0 _ rfl⟩

/-- C14 fails as stated: a call with value 0 to address 9 of the empty store,
where `Exist` reports false, returns empty data, the gas passed in and no error,
but the store it leaves reports `Exist` true for that address: the account has
been created. -/
theorem Call_missing_account_counterexample :
    (NewEVM StateDB.empty).StateDB.Exist 9 = false ∧
    (Call 1 sampleTable (NewEVM StateDB.empty) 1 9 [] 5 0).map
      (fun res => (res.ret, res.leftOverGas, res.err, res.run.isSome, res.evm.StateDB.Exist 9)) =
        some ([], 5, none, false, true) := by
  decide

/-- C14, amended: a `Call` (with any value) to an address for which the state
store reports `Exist = false` first creates the account; when the account then
holds no code, `Call` returns, for every fuel, empty data, the gas passed in
and no error without invoking the interpreter, and the store it leaves is the
store before the call with `CreateAccount(addr)` applied. -/
theorem Call_creates_missing_account (fuel : Nat) (jt : JumpTable) (evm : EVM)
    (caller addr : Address) (input : List Byte) (gas value : Nat)
    (hex : evm.StateDB.Exist addr = false)
    (hcode : (evm.StateDB.CreateAccount addr).GetCode addr = []) :
    Call fuel jt evm caller addr input gas value =
      some { ret := [], leftOverGas := gas, err := none
             evm := { evm with StateDB := evm.StateDB.CreateAccount addr }, run := none } := by
  have hdb : ensureAccount evm.StateDB addr = evm.StateDB.CreateAccount addr := by
    unfold ensureAccount
    simp [hex]
  unfold Call
  dsimp only
  rw [hdb, hcode]
  simp

theorem Call_creates_missing_account_witness :
    Call 0 sampleTable (NewEVM StateDB.empty) 1 9 [] 5 0 =
      some { ret := [], leftOverGas := 5, err := none
             evm := { NewEVM StateDB.empty with
                      StateDB := (NewEVM StateDB.empty).StateDB.CreateAccount 9 }
             run := none } :=
  Call_creates_missing_account 0 sampleTable (NewEVM StateDB.empty) 1 9 [] 5 0 rfl rfl

/-- C15: a `Call` to an address that exists and whose stored code is empty
returns, for every fuel, empty data, exactly the gas passed in and no error; the
interpreter is not invoked and the EVM is returned as it was. -/
theorem Call_empty_code (fuel : Nat) (jt : JumpTable) (evm : EVM)
    (caller addr : Address) (input : List Byte) (gas value : Nat)
    (hex : evm.StateDB.Exist addr = true)
    (hcode : evm.StateDB.GetCode addr = []) :
    Call fuel jt evm caller addr input gas value =
      some { ret := [], leftOverGas := gas, err := none, evm := evm, run := none } := by
  have hdb : ensureAccount evm.StateDB addr = evm.StateDB := by
    unfold ensureAccount
    simp [hex]
  unfold Call
  dsimp only
  rw [hdb, hcode]
  simp

theorem Call_empty_code_witness :
    Call 0 sampleTable (NewEVM storeWithPlainAccount) 1 9 [0x01] 5 3 =
      some { ret := [], leftOverGas := 5, err := none, evm := NewEVM storeWithPlainAccount,
             run := none } :=
  Call_empty_code 0 sampleTable (NewEVM storeWithPlainAccount) 1 9 [0x01] 5 3 rfl rfl

/-- C16 fails as stated: at call depth 1024 a `Call` into code runs the
interpreter and returns its data without error, and a `Create` runs the init
code, returns without error and stores the returned code at the new address,
which held no code before. -/
theorem depth_limit_counterexample :
    deepEVM.depth = 1024 ∧ deepEVM.StateDB.GetCode 200 = [] ∧
    (Call 3 sampleTable deepEVM 1 9 [] 5 0).map
      (fun res => (res.ret, res.leftOverGas, res.err, res.run.isSome)) =
        some (List.replicate 32 0, 5, none, true) ∧
    (Create 3 sampleCrypto sampleTable deepEVM 1 returnProgram 5 0).map
      (fun res => (res.ret, res.err, res.run.isSome, res.evm.StateDB.GetCode 200)) =
        some (List.replicate 32 0, none, true, List.replicate 32 0) := by
  decide

/-- C16, amended: `Call` and `Create` make no depth check. Also at call depth
1024 or more, a `Call` to an address that holds code invokes the interpreter and
a `Create` that passes the collision check runs the init code, and either
returns `ErrDepth` only when the interpreter run itself ended with that
error. -/
theorem no_depth_check (fuel : Nat) (cr : Crypto) (jt : JumpTable) (evm : EVM)
    (caller addr : Address) (input code : List Byte) (gas value : Nat)
    (hdepth : 1024 ≤ evm.depth) :
    (∀ res, Call fuel jt evm caller addr input gas value = some res →
      (((ensureAccount evm.StateDB addr).GetCode addr).length ≠ 0 →
        ∃ r, res.run = some r ∧
          Run fuel jt { evm with StateDB := ensureAccount evm.StateDB addr }
            (callFrame (ensureAccount evm.StateDB addr) caller addr gas value) input false =
              some r) ∧
      (res.err = some .ErrDepth → ∃ r, res.run = some r ∧ r.err = some .ErrDepth)) ∧
    (∀ res, Create fuel cr jt evm caller code gas value = some res →
      (res.err ≠ some .ErrContractAddressCollision →
        ∃ r, res.run = some r ∧
          Run fuel jt evm (createFrame caller { code := code, hash := 0 } gas value
            (cr.CreateAddress caller (evm.StateDB.GetNonce caller))) [] false = some r) ∧
      (res.err = some .ErrDepth → ∃ r, res.run = some r ∧ r.err = some .ErrDepth)) := by
  constructor
  · intro res h
    rcases Call_cases fuel jt evm caller addr input gas value res h with
      ⟨hlen, hres⟩ | ⟨_, r1, hr1, hres⟩
    · subst hres
      refine ⟨fun hne => absurd hlen hne, ?_⟩
      intro he
      simp at he
    · subst hres
      exact ⟨fun _ => ⟨r1, rfl, hr1⟩, fun he => ⟨r1, rfl, he⟩⟩
  · intro res h
    rcases Create_cases fuel cr jt evm caller code gas value res h with
      ⟨_, herr, _⟩ | ⟨r, hrun, hr, herr, _, _, _⟩
    · refine ⟨fun hne => absurd herr hne, ?_⟩
      intro he
      rw [herr] at he
      simp at he
    · exact ⟨fun _ => ⟨r, hrun, hr⟩, fun he => ⟨r, hrun, herr ▸ he⟩⟩

theorem no_depth_check_witness :
    (∃ res, Call 3 sampleTable deepEVM 1 9 [] 5 0 = some res ∧
      ∃ r, res.run = some r ∧
        Run 3 sampleTable { deepEVM with StateDB := ensureAccount deepEVM.StateDB 9 }
          (callFrame (ensureAccount deepEVM.StateDB 9) 1 9 5 0) [] false = some r) ∧
    (∃ res, Create 3 sampleCrypto sampleTable deepEVM 1 returnProgram 5 0 = some res ∧
      ∃ r, res.run = some r ∧
        Run 3 sampleTable deepEVM (createFrame 1 { code := returnProgram, hash := 0 } 5 0
          (sampleCrypto.CreateAddress 1 (deepEVM.StateDB.GetNonce 1))) [] false = some r) :=
  ⟨⟨_, rfl, ((no_depth_check 3 sampleCrypto sampleTable deepEVM 1 9 [] returnProgram 5 0
      (by decide)).1 _ rfl).1 (by decide)⟩,
   ⟨_, rfl, ((no_depth_check 3 sampleCrypto sampleTable deepEVM 1 9 [] returnProgram 5 0
      (by decide)).2 _ rfl).1 (by decide)⟩⟩

/-! ## The opcode tables -/

/-- The values of the official opcode constants, as ranges. -/
theorem officialOpCodes_vals :
    officialOpCodes.map Fin.val =
      List.range' 0 12 ++ (List.range' 16 14 ++ (List.range' 32 1 ++ (List.range' 48 25 ++
        (List.range' 80 12 ++ (List.range' 96 69 ++ (List.range' 240 6 ++
          [250, 253, 255])))))) := by
  decide!

theorem mem_officialOpCodes_iff (b : OpCode) :
    b ∈ officialOpCodes ↔
      (b.val < 12 ∨ (16 ≤ b.val ∧ b.val < 30) ∨ b.val = 32 ∨ (48 ≤ b.val ∧ b.val < 73) ∨
        (80 ≤ b.val ∧ b.val < 92) ∨ (96 ≤ b.val ∧ b.val < 165) ∨
        (240 ≤ b.val ∧ b.val < 246) ∨ b.val = 250 ∨ b.val = 253 ∨ b.val = 255) := by
  have h : b.val ∈ officialOpCodes.map Fin.val ↔ b ∈ officialOpCodes :=
    ⟨fun hm => by
      obtain ⟨c, hc, hcb⟩ := List.mem_map.mp hm
      exact Fin.val_injective hcb ▸ hc, fun hm => List.mem_map_of_mem Fin.val hm⟩
  rw [← h, officialOpCodes_vals]
  simp only [List.mem_append, List.mem_range'_1, List.mem_cons, List.mem_singleton,
    List.not_mem_nil, or_false]
  constructor <;> intro hb <;> omega

theorem mem_unofficialOpCodes_iff (b : OpCode) :
    b ∈ unofficialOpCodes ↔ (0xb0 ≤ b.val ∧ b.val ≤ 0xb2) := by
  have hv : unofficialOpCodes.map Fin.val = [0xb0, 0xb1, 0xb2] := by decide
  have h : b.val ∈ unofficialOpCodes.map Fin.val ↔ b ∈ unofficialOpCodes :=
    ⟨fun hm => by
      obtain ⟨c, hc, hcb⟩ := List.mem_map.mp hm
      exact Fin.val_injective hcb ▸ hc, fun hm => List.mem_map_of_mem Fin.val hm⟩
  rw [← h, hv]
  simp only [List.mem_cons, List.mem_singleton, List.not_mem_nil, or_false]
  constructor <;> intro hb <;> omega

/-- Every key of `opCodeToString` is an opcode constant. -/
theorem opCodeToString_keys :
    ∀ p ∈ opCodeToString,
      (p.1.val < 12 ∨ (16 ≤ p.1.val ∧ p.1.val < 30) ∨ p.1.val = 32 ∨
        (48 ≤ p.1.val ∧ p.1.val < 73) ∨ (80 ≤ p.1.val ∧ p.1.val < 92) ∨
        (96 ≤ p.1.val ∧ p.1.val < 165) ∨ (240 ≤ p.1.val ∧ p.1.val < 246) ∨
        p.1.val = 250 ∨ p.1.val = 253 ∨ p.1.val = 255) ∨
      (0xb0 ≤ p.1.val ∧ p.1.val ≤ 0xb2) := by
  decide!

/-- A successful lookup returns the value of an entry of the list. -/
theorem mem_of_lookup {κ ν : Type} [BEq κ] [LawfulBEq κ] :
    ∀ (l : List (κ × ν)) (k : κ) (v : ν), l.lookup k = some v → (k, v) ∈ l := by
  intro l
  induction l with
  | nil => intro k v h; simp at h
  | cons p rest ih =>
    intro k v h
    obtain ⟨pk, pv⟩ := p
    rw [List.lookup_cons] at h
    cases hk : (k == pk) with
    | true =>
      rw [hk] at h
      have h1 : pv = v := Option.some.inj h
      have h2 : k = pk := eq_of_beq hk
      rw [h1, h2]
      exact List.mem_cons_self _ _
    | false =>
      rw [hk] at h
      exact List.mem_cons_of_mem _ (ih k v h)

/-- In a list of entries with pairwise distinct keys, indexing by the key of an
entry gives the value of that entry. -/
theorem lookup_of_mem {ν : Type} :
    ∀ (l : List (String × ν)) (k : String) (v : ν), (l.map Prod.fst).Nodup → (k, v) ∈ l →
      l.lookup k = some v := by
  intro l
  induction l with
  | nil => intro k v _ h; simp at h
  | cons p rest ih =>
    intro k v hnd hmem
    rw [List.map_cons, List.nodup_cons] at hnd
    obtain ⟨hnot, hrest⟩ := hnd
    rcases List.mem_cons.mp hmem with heq | hin
    · rw [← heq]
      exact List.lookup_cons_self
    · have hne : k ≠ p.1 := by
        intro hk
        apply hnot
        rw [← hk]
        exact List.mem_map_of_mem Prod.fst hin
      have hb : (k == p.1) = false := beq_eq_false_iff_ne.mpr hne
      obtain ⟨pk, pv⟩ := p
      rw [List.lookup_cons, hb]
      exact ih k v hrest hin

/-- When a table of positions gives, for each element of a list, the place of a
matching entry in a second list, every element has a matching entry. -/
theorem zip_index_mem {α β γ : Type} (t : List β) (f : β → γ) (g : α → γ) :
    ∀ (l : List α) (idx : List Nat), l.length ≤ idx.length →
      (∀ p ∈ l.zip idx, (t[p.2]?).map f = some (g p.1)) →
      ∀ a ∈ l, ∃ e ∈ t, f e = g a := by
  intro l
  induction l with
  | nil => intro idx _ _ a ha; simp at ha
  | cons x xs ih =>
    intro idx hlen h a ha
    cases idx with
    | nil => simp at hlen
    | cons j js =>
      rcases List.mem_cons.mp ha with hax | hin
      · have hx := h (x, j) (by simp)
        cases ht : t[j]? with
        | none => simp [ht] at hx
        | some e =>
          simp only [ht, Option.map_some'] at hx
          exact ⟨e, List.getElem?_mem ht, by rw [hax]; exact Option.some.inj hx⟩
      · apply ih js (by simpa using hlen) _ a hin
        intro p hp
        exact h p (by simp [hp])

theorem stringToOp_keyCodes : stringToOp.map (fun p => keyCode p.1) = stringToOpKeyCodes := by
  decide!

theorem stringToOpKeyCodes_nodup : stringToOpKeyCodes.Nodup := by
  decide!

theorem stringToOp_keys_nodup : (stringToOp.map Prod.fst).Nodup := by
  apply List.Nodup.of_map keyCode
  rw [List.map_map]
  exact stringToOp_keyCodes ▸ stringToOpKeyCodes_nodup

/-- The keys of `opCodeInfoList` are the keys of `stringToOp`, in the same
order, followed by "INVALID". -/
theorem opCodeInfoList_keys :
    opCodeInfoList.map Prod.fst = stringToOp.map Prod.fst ++ ["INVALID"] := by
  decide!

theorem invalid_not_in_stringToOp : "INVALID" ∉ stringToOp.map Prod.fst := by
  decide!

theorem opCodeInfoList_keys_nodup : (opCodeInfoList.map Prod.fst).Nodup := by
  rw [opCodeInfoList_keys]
  apply List.Nodup.append stringToOp_keys_nodup (List.nodup_singleton _)
  intro k hk hk2
  rw [List.mem_singleton] at hk2
  exact invalid_not_in_stringToOp (hk2 ▸ hk)

/-- The entry of `opCodeInfoList` for the name of each official opcode. -/
theorem officialIndex_info :
    ∀ p ∈ officialOpCodes.zip officialIndex,
      (opCodeInfoList[p.2]?).map id =
        some (disasmName p.1,
          OpCodeInfo.mk (if 0x60 ≤ p.1.val ∧ p.1.val ≤ 0x7f then p.1.val - 0x5f else 0) 0 0 0) := by
  decide!

/-- The entry of `stringToOp` for each official opcode. -/
theorem officialIndex_names :
    ∀ p ∈ officialOpCodes.zip officialIndex, (stringToOp[p.2]?).map Prod.snd = some (id p.1) := by
  decide!

theorem officialIndex_length : officialOpCodes.length ≤ officialIndex.length := by
  decide!

theorem unofficial_skip : ∀ b ∈ unofficialOpCodes, disasmSkip b = 0 := by
  decide!

theorem invalid_skip :
    (mapIndex opCodeInfoList (OpCodeInfo.mk 0 0 0 0) "INVALID").opCodeCount = 0 := by
  decide!

theorem not_push_of_not_official :
    ∀ b : Fin 256, b ∉ officialOpCodes → ¬ (0x60 ≤ b.val ∧ b.val ≤ 0x7f) := by
  intro b h hp
  apply h
  rw [mem_officialOpCodes_iff]
  omega

/-- Every byte value that is not an opcode constant gets the mnemonic
"INVALID". -/
theorem disasmName_invalid :
    ∀ b : Fin 256, b ∉ officialOpCodes → b ∉ unofficialOpCodes → disasmName b = "INVALID" := by
  intro b hoff hun
  have hnone : opCodeToString.lookup b = none := by
    cases h : opCodeToString.lookup b with
    | none => rfl
    | some s =>
      exfalso
      rcases opCodeToString_keys _ (mem_of_lookup _ _ _ h) with h1 | h2
      · exact hoff ((mem_officialOpCodes_iff b).mpr h1)
      · exact hun ((mem_unofficialOpCodes_iff b).mpr h2)
  unfold disasmName mapIndex
  rw [hnone]
  rfl

/-- The immediate width that the disassembler reads for each byte value. -/
theorem disasmSkip_eq :
    ∀ b : Fin 256, disasmSkip b = if 0x60 ≤ b.val ∧ b.val ≤ 0x7f then b.val - 0x5f else 0 := by
  intro b
  by_cases hoff : b ∈ officialOpCodes
  · obtain ⟨e, he, heq⟩ := zip_index_mem opCodeInfoList id
      (fun c : OpCode => (disasmName c,
        OpCodeInfo.mk (if 0x60 ≤ c.val ∧ c.val ≤ 0x7f then c.val - 0x5f else 0) 0 0 0))
      officialOpCodes officialIndex officialIndex_length officialIndex_info b hoff
    have hmem : (disasmName b,
        OpCodeInfo.mk (if 0x60 ≤ b.val ∧ b.val ≤ 0x7f then b.val - 0x5f else 0) 0 0 0) ∈
        opCodeInfoList := heq ▸ he
    unfold disasmSkip mapIndex
    rw [lookup_of_mem opCodeInfoList _ _ opCodeInfoList_keys_nodup hmem]
    rfl
  · rw [if_neg (not_push_of_not_official b hoff)]
    by_cases hun : b ∈ unofficialOpCodes
    · exact unofficial_skip b hun
    · unfold disasmSkip
      rw [disasmName_invalid b hoff hun]
      exact invalid_skip

theorem official_in_stringToOp : ∀ b ∈ officialOpCodes, b ∈ stringToOp.map Prod.snd := by
  intro b hb
  obtain ⟨e, he, heq⟩ := zip_index_mem stringToOp Prod.snd (fun c : OpCode => id c)
    officialOpCodes officialIndex officialIndex_length officialIndex_names b hb
  exact List.mem_map.mpr ⟨e, he, heq⟩

/-! ## The disassembler -/

theorem readImmediate_eq (contract : Contract) :
    ∀ (n pc : Nat), readImmediate contract n pc =
      (List.range n).map (fun i => contract.GetByte (pc + 1 + i)) := by
  intro n
  induction n with
  | zero => intro pc; rfl
  | succ n ih =>
    intro pc
    rw [List.range_succ_eq_map, List.map_cons, List.map_map]
    show contract.GetByte (pc + 1) :: readImmediate contract n (pc + 1) = _
    rw [ih (pc + 1)]
    congr 1
    apply List.map_congr_left
    intro i _
    show contract.GetByte (pc + 1 + 1 + i) = contract.GetByte (pc + 1 + (i + 1))
    congr 1
    omega

theorem disasmLoop_total (contract : Contract) (codeLen : Nat) :
    ∀ (fuel pc : Nat), 0 < fuel → codeLen < pc + fuel →
      ∃ out, disasmLoop contract codeLen fuel pc = some out := by
  intro fuel
  induction fuel with
  | zero => intro pc h; omega
  | succ n ih =>
    intro pc _ hlt
    unfold disasmLoop
    by_cases hpc : codeLen ≤ pc
    · exact ⟨[], by rw [if_pos hpc]⟩
    · rw [if_neg hpc]
      obtain ⟨rest, hrest⟩ := ih (pc + disasmSkip (contract.GetOp pc) + 1) (by omega) (by omega)
      exact ⟨decodeAt contract pc :: rest, by rw [hrest]⟩

/-- What the outer loop prints: every line is the decoding of a position below
the code length, the lines follow one another at the distance given by the
immediate width, and the first line is at the starting position. -/
theorem disasmLoop_spec (contract : Contract) (codeLen : Nat) :
    ∀ (fuel pc : Nat) (out : List Instruction),
      disasmLoop contract codeLen fuel pc = some out →
      (∀ ins ∈ out, ins.pc < codeLen ∧ ins = decodeAt contract ins.pc) ∧
      List.Chain' (fun a c => c.pc = a.pc + disasmSkip (contract.GetOp a.pc) + 1) out ∧
      (∀ first ∈ out.head?, first.pc = pc) := by
  intro fuel
  induction fuel with
  | zero =>
    intro pc out h
    simp [disasmLoop] at h
  | succ n ih =>
    intro pc out h
    unfold disasmLoop at h
    by_cases hpc : codeLen ≤ pc
    · rw [if_pos hpc] at h
      simp only [Option.some.injEq] at h
      subst h
      simp
    · rw [if_neg hpc] at h
      cases hrest : disasmLoop contract codeLen n (pc + disasmSkip (contract.GetOp pc) + 1) with
      | none => rw [hrest] at h; simp at h
      | some rest =>
        rw [hrest] at h
        simp only [Option.some.injEq] at h
        subst h
        obtain ⟨hmem, hchain, hhead⟩ := ih _ rest hrest
        refine ⟨?_, ?_, ?_⟩
        · intro ins hins
          rcases List.mem_cons.mp hins with heq | hin
          · subst heq
            exact ⟨by show pc < codeLen; omega, rfl⟩
          · exact hmem ins hin
        · rw [List.chain'_cons']
          refine ⟨?_, hchain⟩
          intro y hy
          exact hhead y hy
        · intro first hfirst
          simp only [List.head?_cons, Option.mem_def, Option.some.injEq] at hfirst
          subst hfirst
          rfl

theorem disassemble_total (cr : Crypto) (code : List Byte) :
    ∃ out, disassemble cr code = some out :=
  disasmLoop_total _ _ _ 0 (by omega) (by omega)

theorem disasmContract_GetByte (cr : Crypto) (code : List Byte) (k : Nat) :
    (disasmContract cr code).GetByte k = code.getD k 0 := rfl

theorem disasmContract_GetOp (cr : Crypto) (code : List Byte) (k : Nat) :
    (disasmContract cr code).GetOp k = code.getD k 0 := rfl

theorem readImmediate_congr (c1 c2 : Contract) (h : c1.Code = c2.Code) :
    ∀ (n pc : Nat), readImmediate c1 n pc = readImmediate c2 n pc := by
  intro n
  induction n with
  | zero => intro pc; rfl
  | succ n ih =>
    intro pc
    show c1.GetByte (pc + 1) :: readImmediate c1 n (pc + 1) =
      c2.GetByte (pc + 1) :: readImmediate c2 n (pc + 1)
    rw [ih (pc + 1)]
    unfold Contract.GetByte
    rw [h]

theorem disasmLoop_congr (c1 c2 : Contract) (codeLen : Nat) (h : c1.Code = c2.Code) :
    ∀ (fuel pc : Nat), disasmLoop c1 codeLen fuel pc = disasmLoop c2 codeLen fuel pc := by
  have hop : ∀ pc, c1.GetOp pc = c2.GetOp pc := by
    intro pc
    unfold Contract.GetOp Contract.GetByte
    rw [h]
  intro fuel
  induction fuel with
  | zero => intro pc; rfl
  | succ n ih =>
    intro pc
    unfold disasmLoop
    rw [hop pc, ih]
    unfold decodeAt
    rw [hop pc, readImmediate_congr c1 c2 h]

/-- The scan does not depend on the address given to the frame. -/
theorem disassemble_crypto (cr1 cr2 : Crypto) (code : List Byte) :
    disassemble cr1 code = disassemble cr2 code :=
  disasmLoop_congr (disasmContract cr1 code) (disasmContract cr2 code) _ rfl _ _

/-- What `disassemble` prints. -/
theorem disassemble_spec (cr : Crypto) (code : List Byte) (out : List Instruction)
    (h : disassemble cr code = some out) :
    (∀ ins ∈ out, ins.pc < code.length ∧
      ins.mnemonic = disasmName (code.getD ins.pc 0) ∧
      ins.immediate = (List.range (disasmSkip (code.getD ins.pc 0))).map
        (fun i => code.getD (ins.pc + 1 + i) 0)) ∧
    List.Chain' (fun a c => c.pc = a.pc + disasmSkip (code.getD a.pc 0) + 1) out := by
  obtain ⟨hmem, hchain, _⟩ := disasmLoop_spec _ _ _ _ out h
  refine ⟨?_, hchain⟩
  intro ins hins
  obtain ⟨hpc, hdec⟩ := hmem ins hins
  refine ⟨hpc, ?_, ?_⟩
  · rw [hdec]
    rfl
  · have himm : ins.immediate =
        readImmediate (disasmContract cr code)
          (disasmSkip ((disasmContract cr code).GetOp ins.pc)) ins.pc := by
      conv => lhs; rw [hdec]
      rfl
    rw [himm, readImmediate_eq]
    rfl

/-- C17: the scan of the disassembler returns for every byte code, and for
every instruction it prints at a position `pc` (which lies below the code
length): when the byte `b` at `pc` lies in 0x60..0x7F, the immediate has exactly
`b - 0x5F` bytes, which are the code bytes at `pc+1 .. pc+n` with positions at
or beyond the end of the code read as zero, and the next instruction printed is
at `pc + n + 1`; for every other byte the immediate is empty and the next
instruction is at `pc + 1`. -/
theorem disassemble_immediates (cr : Crypto) (code : List Byte) :
    (∃ out, disassemble cr code = some out) ∧
    ∀ out, disassemble cr code = some out →
      (∀ ins ∈ out, ins.pc < code.length ∧
        ((0x60 ≤ (code.getD ins.pc 0).val ∧ (code.getD ins.pc 0).val ≤ 0x7f) →
          ins.immediate.length = (code.getD ins.pc 0).val - 0x5f ∧
          ins.immediate = (List.range ((code.getD ins.pc 0).val - 0x5f)).map
            (fun i => code.getD (ins.pc + 1 + i) 0)) ∧
        (¬ (0x60 ≤ (code.getD ins.pc 0).val ∧ (code.getD ins.pc 0).val ≤ 0x7f) →
          ins.immediate = [])) ∧
      List.Chain' (fun a c => c.pc = a.pc +
        (if 0x60 ≤ (code.getD a.pc 0).val ∧ (code.getD a.pc 0).val ≤ 0x7f then
          (code.getD a.pc 0).val - 0x5f else 0) + 1) out := by
  refine ⟨disassemble_total cr code, ?_⟩
  intro out h
  obtain ⟨hmem, hchain⟩ := disassemble_spec cr code out h
  refine ⟨?_, ?_⟩
  · intro ins hins
    obtain ⟨hpc, _, himm⟩ := hmem ins hins
    rw [disasmSkip_eq] at himm
    refine ⟨hpc, ?_, ?_⟩
    · intro hpush
      rw [if_pos hpush] at himm
      refine ⟨?_, himm⟩
      rw [himm, List.length_map, List.length_range]
    · intro hpush
      rw [if_neg hpush] at himm
      rw [himm]
      rfl
  · apply List.Chain'.imp _ hchain
    intro a c hac
    rw [disasmSkip_eq] at hac
    exact hac

theorem disassemble_immediates_witness :
    disassemble sampleCrypto additionProgram = some additionListing ∧
    (∀ ins ∈ additionListing, ins.pc < additionProgram.length ∧
      ((0x60 ≤ (additionProgram.getD ins.pc 0).val ∧ (additionProgram.getD ins.pc 0).val ≤ 0x7f) →
        ins.immediate.length = (additionProgram.getD ins.pc 0).val - 0x5f ∧
        ins.immediate = (List.range ((additionProgram.getD ins.pc 0).val - 0x5f)).map
          (fun i => additionProgram.getD (ins.pc + 1 + i) 0)) ∧
      (¬ (0x60 ≤ (additionProgram.getD ins.pc 0).val ∧
          (additionProgram.getD ins.pc 0).val ≤ 0x7f) →
        ins.immediate = [])) ∧
    List.Chain' (fun a c => c.pc = a.pc +
      (if 0x60 ≤ (additionProgram.getD a.pc 0).val ∧ (additionProgram.getD a.pc 0).val ≤ 0x7f then
        (additionProgram.getD a.pc 0).val - 0x5f else 0) + 1) additionListing :=
  ⟨by decide, (disassemble_immediates sampleCrypto additionProgram).2 additionListing (by decide)⟩

/-! ### Mnemonics of bytes that are not instructions -/

/-- C18 fails as stated: the three parsing-only values 0xb0, 0xb1 and 0xb2 are
not official opcodes, yet the disassembler prints the mnemonics PUSH, DUP and
SWAP for them, not INVALID. -/
theorem disassemble_pseudo_opcodes_counterexample :
    (0xb0 : OpCode) ∉ officialOpCodes ∧ (0xb1 : OpCode) ∉ officialOpCodes ∧
    (0xb2 : OpCode) ∉ officialOpCodes ∧
    disassemble sampleCrypto [0xb0, 0xb1, 0xb2] =
      some [⟨0, "PUSH", []⟩, ⟨1, "DUP", []⟩, ⟨2, "SWAP", []⟩] := by
  decide

/-- C18, amended: for every byte value that is not an opcode constant of
`opcodes.go`, neither an official one nor one of the three unofficial parsing
constants PUSH, DUP, SWAP (0xb0, 0xb1, 0xb2), every instruction the disassembler
prints for that byte has the mnemonic INVALID and no immediate; this covers the
unassigned values 0x0c and 0x21 and the value 0xfe. -/
theorem disassemble_invalid_mnemonic (cr : Crypto) (code : List Byte) :
    (∃ out, disassemble cr code = some out) ∧
    (∀ out ins, disassemble cr code = some out → ins ∈ out →
      code.getD ins.pc 0 ∉ officialOpCodes → code.getD ins.pc 0 ∉ unofficialOpCodes →
        ins.mnemonic = "INVALID" ∧ ins.immediate = []) ∧
    (∀ b : OpCode, b = 0x0c ∨ b = 0x21 ∨ b = 0xfe → b ∉ officialOpCodes ∧ b ∉ unofficialOpCodes) := by
  refine ⟨disassemble_total cr code, ?_, ?_⟩
  · intro out ins h hins hoff hun
    obtain ⟨_, hname, himm⟩ := (disassemble_spec cr code out h).1 ins hins
    refine ⟨hname.trans (disasmName_invalid _ hoff hun), himm.trans ?_⟩
    rw [disasmSkip_eq, if_neg (not_push_of_not_official _ hoff)]
    rfl
  · intro b hb
    rcases hb with hb | hb | hb <;> subst hb <;> decide

theorem disassemble_invalid_mnemonic_witness :
    disassemble sampleCrypto [0x0c, 0x21, 0xfe, 0xb0] = some invalidListing ∧
    ((⟨0, "INVALID", []⟩ : Instruction).mnemonic = "INVALID" ∧
      (⟨0, "INVALID", []⟩ : Instruction).immediate = []) ∧
    ((⟨2, "INVALID", []⟩ : Instruction).mnemonic = "INVALID" ∧
      (⟨2, "INVALID", []⟩ : Instruction).immediate = []) :=
  ⟨by decide,
   (disassemble_invalid_mnemonic sampleCrypto [0x0c, 0x21, 0xfe, 0xb0]).2.1 invalidListing
      ⟨0, "INVALID", []⟩ (by decide) (by decide) (by decide) (by decide),
   (disassemble_invalid_mnemonic sampleCrypto [0x0c, 0x21, 0xfe, 0xb0]).2.1 invalidListing
      ⟨2, "INVALID", []⟩ (by decide) (by decide) (by decide) (by decide)⟩

/-! ### The jump scenario -/

/-- C19 fails as stated: in the code 60 05 56 00 5B 00 the byte at offset 5 is
0x00 (STOP), not JUMPDEST, the byte at offset 4 is JUMPDEST, and the
disassembler prints JUMPDEST at position 4 and STOP at position 5. -/
theorem jumpdest_offset_counterexample :
    ¬ (jumpProgram.getD 5 0 = OpCode.JUMPDEST ∧ jumpProgram.getD 4 0 ≠ OpCode.JUMPDEST) ∧
    (⟨4, "JUMPDEST", []⟩ : Instruction) ∈
      (disassemble sampleCrypto jumpProgram).getD [] ∧
    (⟨5, "JUMPDEST", []⟩ : Instruction) ∉
      (disassemble sampleCrypto jumpProgram).getD [] := by
  decide

/-- C19, amended: in the code 60 05 56 00 5B 00 the disassembler prints PUSH1
with immediate 0x05, JUMP, STOP, JUMPDEST, STOP at the byte offsets 0, 2, 3, 4,
5; the JUMPDEST instruction is the one at byte offset 4, and byte offset 5, the
value pushed by the PUSH1, holds STOP. -/
theorem jumpProgram_listing (cr : Crypto) :
    disassemble cr jumpProgram =
      some [⟨0, "PUSH1", [0x05]⟩, ⟨2, "JUMP", []⟩, ⟨3, "STOP", []⟩, ⟨4, "JUMPDEST", []⟩,
        ⟨5, "STOP", []⟩] ∧
    jumpProgram.getD 4 0 = OpCode.JUMPDEST ∧ jumpProgram.getD 5 0 = OpCode.STOP ∧
    jumpProgram.getD 1 0 = 5 ∧ OpCode.JUMP = 0x56 ∧ OpCode.JUMPDEST = 0x5b := by
  refine ⟨?_, by decide, by decide, by decide, by decide, by decide⟩
  rw [disassemble_crypto cr sampleCrypto]
  decide

/-! ### PUSH opcodes and their width -/

theorem IsPush_iff : ∀ b : OpCode, b.IsPush = true ↔ (0x60 ≤ b.val ∧ b.val ≤ 0x7f) := by
  decide!

theorem opCodeInfoList_keys_short : ∀ k ∈ opCodeInfoList.map Prod.fst, k.length ≤ 14 := by
  decide!

theorem opCodeInfoList_long_key (s : String) (h : 14 < s.length) :
    mapIndex opCodeInfoList (OpCodeInfo.mk 0 0 0 0) s = OpCodeInfo.mk 0 0 0 0 := by
  have hnone : opCodeInfoList.lookup s = none := by
    rw [List.lookup_eq_none_iff]
    intro p hp
    have hk := opCodeInfoList_keys_short p.1 (List.mem_map_of_mem _ hp)
    rw [bne_iff_ne]
    intro heq
    rw [heq] at h
    omega
  unfold mapIndex
  rw [hnone]
  rfl

theorem String_length_zero (s : String) (h : s.length = 0) : s = "" := by
  cases s with
  | mk data =>
    have hd : data = [] := List.length_eq_zero.mp h
    rw [hd]

/-- The width recorded in `opCodeInfoList` under the name `op.String()` is the
width the disassembler reads for `op`. -/
theorem width_of_String (b : OpCode) :
    (mapIndex opCodeInfoList (OpCodeInfo.mk 0 0 0 0) b.String).opCodeCount = disasmSkip b := by
  by_cases hlen : (mapIndex opCodeToString "" b).length = 0
  · have hname : mapIndex opCodeToString "" b = "" := String_length_zero _ hlen
    have hskip : disasmSkip b = 0 := by
      unfold disasmSkip disasmName
      rw [if_pos hname]
      decide
    have hlong : 14 < b.String.length := by
      unfold OpCode.String
      rw [if_pos hlen, String.length_append, String.length_append]
      have h1 : ("opcode 0x" : String).length = 9 := by decide
      have h2 : (" not defined" : String).length = 12 := by decide
      omega
    rw [opCodeInfoList_long_key _ hlong, hskip]
  · have hname : mapIndex opCodeToString "" b ≠ "" := by
      intro h0
      rw [h0] at hlen
      exact hlen (by decide)
    unfold OpCode.String disasmSkip disasmName
    rw [if_neg hlen, if_neg hname]

/-- C20: for every byte value `b`, `OpCode(b).IsPush()` is true exactly when
`0x60 ≤ b ≤ 0x7F`, which is exactly when the push width recorded in
`opCodeInfoList` under the opcode's name `OpCode(b).String()` is non-zero; that
width is then `b - 0x5F`, and it is the width the disassembler reads for `b`. -/
theorem IsPush_iff_push_width (b : OpCode) :
    (b.IsPush = true ↔ (0x60 ≤ b.val ∧ b.val ≤ 0x7f)) ∧
    (b.IsPush = true ↔
      (mapIndex opCodeInfoList (OpCodeInfo.mk 0 0 0 0) b.String).opCodeCount ≠ 0) ∧
    (b.IsPush = true →
      (mapIndex opCodeInfoList (OpCodeInfo.mk 0 0 0 0) b.String).opCodeCount = b.val - 0x5f) ∧
    disasmSkip b = (mapIndex opCodeInfoList (OpCodeInfo.mk 0 0 0 0) b.String).opCodeCount := by
  have hw := width_of_String b
  have hs := disasmSkip_eq b
  have hp := IsPush_iff b
  refine ⟨hp, ?_, ?_, hw.symm⟩
  · rw [hw, hs, hp]
    constructor
    · intro hr
      rw [if_pos hr]
      omega
    · intro hne
      by_contra hr
      rw [if_neg hr] at hne
      exact hne rfl
  · intro hpush
    rw [hw, hs, if_pos (hp.mp hpush)]

theorem IsPush_iff_push_width_witness :
    (mapIndex opCodeInfoList (OpCodeInfo.mk 0 0 0 0) (OpCode.String 0x61)).opCodeCount =
      (0x61 : OpCode).val - 0x5f ∧
    OpCode.String 0x61 = "PUSH2" ∧ (0x61 : OpCode).val - 0x5f = 2 :=
  ⟨(IsPush_iff_push_width 0x61).2.2.1 (by decide), by decide, by decide⟩


/-! ## Names and opcodes -/

/-- Every entry of `stringToOp` maps a name to an opcode that `String` prints
as that name. -/
theorem stringToOp_entries : ∀ p ∈ stringToOp, OpCode.String p.2 = p.1 := by
  decide!

theorem StringToOp_of_mem (k : String) (v : OpCode) (h : (k, v) ∈ stringToOp) :
    StringToOp k = v := by
  unfold StringToOp mapIndex
  rw [lookup_of_mem stringToOp k v stringToOp_keys_nodup h]
  rfl

/-- C21 fails as stated: the opcodes 0xb0, 0xb1 and 0xb2 have the names PUSH,
DUP and SWAP in `opCodeToString`, but `StringToOp` maps each of these names to
0x00, not back to the opcode. -/
theorem StringToOp_String_counterexample :
    (OpCode.String 0xb0, OpCode.String 0xb1, OpCode.String 0xb2) = ("PUSH", "DUP", "SWAP") ∧
    (StringToOp (OpCode.String 0xb0), StringToOp (OpCode.String 0xb1),
      StringToOp (OpCode.String 0xb2)) = (0x00, 0x00, 0x00) ∧
    StringToOp (OpCode.String 0xb0) ≠ 0xb0 := by
  decide!

/-- C21, amended: for every official opcode constant, that is every opcode
named in `opCodeToString` other than the three unofficial constants PUSH, DUP
and SWAP, `StringToOp(op.String()) = op`. -/
theorem StringToOp_String (op : OpCode) (h : op ∈ officialOpCodes) :
    StringToOp op.String = op := by
  obtain ⟨p, hp, hsnd⟩ := List.mem_map.mp (official_in_stringToOp op h)
  have hname := stringToOp_entries p hp
  rw [hsnd] at hname
  apply StringToOp_of_mem
  rw [hname, ← hsnd]
  exact hp

theorem StringToOp_String_witness :
    OpCode.String 0x61 = "PUSH2" ∧ StringToOp (OpCode.String 0x61) = 0x61 :=
  ⟨by decide, StringToOp_String 0x61 (by decide)⟩

/-- C22: for every key `s` of `stringToOp`, `StringToOp(s).String() = s`; for
every other string `StringToOp` returns 0x00, which is STOP, the value it also
returns for "STOP". -/
theorem StringToOp_spec (s : String) :
    (s ∈ stringToOp.map Prod.fst → (StringToOp s).String = s) ∧
    (s ∉ stringToOp.map Prod.fst → StringToOp s = OpCode.STOP) ∧
    StringToOp "STOP" = OpCode.STOP ∧ OpCode.STOP = 0x00 := by
  refine ⟨?_, ?_, ?_, rfl⟩
  · intro hs
    obtain ⟨p, hp, hfst⟩ := List.mem_map.mp hs
    have hv : StringToOp s = p.2 := by
      apply StringToOp_of_mem
      rw [← hfst]
      exact hp
    rw [hv, stringToOp_entries p hp, hfst]
  · intro hs
    have hnone : stringToOp.lookup s = none := by
      rw [List.lookup_eq_none_iff]
      intro p hp
      rw [bne_iff_ne]
      intro heq
      apply hs
      rw [heq]
      exact List.mem_map_of_mem Prod.fst hp
    unfold StringToOp mapIndex
    rw [hnone]
    rfl
  · exact StringToOp_of_mem "STOP" OpCode.STOP (by decide)

theorem StringToOp_spec_witness :
    (StringToOp "PUSH2").String = "PUSH2" ∧ StringToOp "push2" = OpCode.STOP :=
  ⟨(StringToOp_spec "PUSH2").1 (by decide!), (StringToOp_spec "push2").2.1 (by decide!)⟩

/-! ## Memory sizing, return data and the program counter -/

theorem SafeMul_toWordSize (n : Nat) (hn : n < 2 ^ 64) :
    ((SafeMul (toWordSize n) 32).2 = true ↔ 2 ^ 64 - 32 < n) ∧
    (n ≤ 2 ^ 64 - 32 → (SafeMul (toWordSize n) 32).1 = 32 * ((n + 31) / 32)) := by
  unfold SafeMul toWordSize
  constructor
  · simp only [decide_eq_true_eq]
    omega
  · intro hle
    show (n + 31) / 32 * 32 % 2 ^ 64 = 32 * ((n + 31) / 32)
    omega

theorem Resize_length (m : Memory) (size : Nat) :
    (Memory.Resize m size).length = max m.length size := by
  unfold Memory.Resize
  split
  · rw [List.length_append, List.length_replicate]
    omega
  · omega

theorem growMemory_pos (memorySize : Nat) (st : ExecState) (log : List Event)
    (h : 0 < memorySize) :
    (growMemory memorySize st).scope.Memory = Memory.Resize st.scope.Memory memorySize ∧
    growLog memorySize log = log ++ [Event.resize memorySize] := by
  unfold growMemory growLog
  rw [if_pos h, if_pos h]
  exact ⟨rfl, rfl⟩

theorem growMemory_zero (st : ExecState) (log : List Event) :
    growMemory 0 st = st ∧ growLog 0 log = log := ⟨rfl, rfl⟩

/-- C23: let an operation reached by `Run` have a `memorySize` function that
reports the size `n` (a 64-bit value). The rounding `32·⌈n/32⌉` overflows 64
bits exactly when `n > 2^64 - 32`. If the function reports overflow or the
rounding overflows, `Run` returns empty data and `ErrGasUintOverflow` with the
state and the log as they were (no resize, no handler). Otherwise the size
passed on is `32·⌈n/32⌉`, the least multiple of 32 that is at least `n`; the
handler is invoked after a `mem.Resize` to that size when `n > 0` and without
any resize when `n = 0`; and a resize to that size never shortens the memory
and keeps its length a multiple of 32. -/
theorem Run_memory_sizing (fuel k : Nat) (jt : JumpTable) (evm : EVM) (contract : Contract)
    (input : List Byte) (readOnly : Bool) (st : ExecState) (log : List Event) (o : operation)
    (f : Stack → Nat × Bool)
    (hcode : contract.Code ≠ [])
    (hreach : passes jt contract.Code.length k (initState evm contract input) [] = some (st, log))
    (hpc : st.pc < contract.Code.length)
    (hjt : jt (st.scope.Contract.GetOp st.pc) = some o)
    (hf : o.memorySize = some f)
    (hn : (f st.scope.Stack).1 < 2 ^ 64) :
    ((SafeMul (toWordSize (f st.scope.Stack).1) 32).2 = true ↔
      2 ^ 64 - 32 < (f st.scope.Stack).1) ∧
    ((f st.scope.Stack).2 = true ∨ 2 ^ 64 - 32 < (f st.scope.Stack).1 →
      Run (k + (fuel + 1)) jt evm contract input readOnly =
        some { ret := [], err := some .ErrGasUintOverflow, st := st, log := log }) ∧
    ((f st.scope.Stack).2 = false → (f st.scope.Stack).1 ≤ 2 ^ 64 - 32 →
      (f st.scope.Stack).1 ≤ 32 * (((f st.scope.Stack).1 + 31) / 32) ∧
      32 ∣ 32 * (((f st.scope.Stack).1 + 31) / 32) ∧
      (∀ m, 32 ∣ m → (f st.scope.Stack).1 ≤ m → 32 * (((f st.scope.Stack).1 + 31) / 32) ≤ m) ∧
      runStep jt contract.Code.length st log =
        dispatch o (o.execute (growMemory (32 * (((f st.scope.Stack).1 + 31) / 32)) st))
          (growLog (32 * (((f st.scope.Stack).1 + 31) / 32)) log ++
            [Event.execute (st.scope.Contract.GetOp st.pc)]) ∧
      (0 < (f st.scope.Stack).1 →
        (growMemory (32 * (((f st.scope.Stack).1 + 31) / 32)) st).scope.Memory =
          Memory.Resize st.scope.Memory (32 * (((f st.scope.Stack).1 + 31) / 32)) ∧
        growLog (32 * (((f st.scope.Stack).1 + 31) / 32)) log =
          log ++ [Event.resize (32 * (((f st.scope.Stack).1 + 31) / 32))]) ∧
      ((f st.scope.Stack).1 = 0 →
        growMemory (32 * (((f st.scope.Stack).1 + 31) / 32)) st = st ∧
        growLog (32 * (((f st.scope.Stack).1 + 31) / 32)) log = log) ∧
      st.scope.Memory.length ≤
        (Memory.Resize st.scope.Memory (32 * (((f st.scope.Stack).1 + 31) / 32))).length ∧
      (32 ∣ st.scope.Memory.length →
        32 ∣ (Memory.Resize st.scope.Memory
          (32 * (((f st.scope.Stack).1 + 31) / 32))).length)) := by
  obtain ⟨hov, hval⟩ := SafeMul_toWordSize (f st.scope.Stack).1 hn
  refine ⟨hov, ?_, ?_⟩
  · intro hbad
    apply Run_of_passes_done fuel k jt evm contract input readOnly st log _ hcode hreach
    have hcalc : calcMemorySize o st.scope.Stack = .error .ErrGasUintOverflow := by
      unfold calcMemorySize
      rw [hf]
      rcases hbad with h1 | h2
      · simp [h1]
      · by_cases h1 : (f st.scope.Stack).2 = true
        · simp [h1]
        · simp [h1, hov.mpr h2]
    unfold runStep
    rw [if_neg (by omega), hjt]
    simp only [hcalc]
  · intro hno hle
    have hcalc : calcMemorySize o st.scope.Stack =
        .ok (32 * (((f st.scope.Stack).1 + 31) / 32)) := by
      have hno2 : (SafeMul (toWordSize (f st.scope.Stack).1) 32).2 = false := by
        cases hb : (SafeMul (toWordSize (f st.scope.Stack).1) 32).2 with
        | false => rfl
        | true => have := hov.mp hb; omega
      unfold calcMemorySize
      rw [hf]
      simp [hno, hno2, hval hle]
    refine ⟨by omega, Dvd.intro _ rfl, ?_, ?_, ?_, ?_, ?_, ?_⟩
    · intro m hm hnm
      omega
    · exact runStep_exec jt _ st log o _ hpc hjt hcalc
    · intro hpos
      exact growMemory_pos _ st log (by omega)
    · intro hzero
      rw [hzero]
      exact growMemory_zero st log
    · rw [Resize_length]
      omega
    · intro hdiv
      rw [Resize_length]
      rcases Nat.le_total st.scope.Memory.length (32 * (((f st.scope.Stack).1 + 31) / 32)) with
        hle2 | hle2
      · rw [Nat.max_eq_right hle2]
        exact Dvd.intro _ rfl
      · rw [Nat.max_eq_left hle2]
        exact hdiv

theorem Run_memory_sizing_witness :
    ((SafeMul (toWordSize 32) 32).2 = true ↔ 2 ^ 64 - 32 < 32) ∧
    runStep sampleTable 5 (afterTwoPushes returnProgram 5 32)
        [Event.execute 0x60, Event.execute 0x60] =
      dispatch returnOp (returnOp.execute (growMemory 32 (afterTwoPushes returnProgram 5 32)))
        (growLog 32 [Event.execute 0x60, Event.execute 0x60] ++ [Event.execute 0xf3]) ∧
    (growMemory 32 (afterTwoPushes returnProgram 5 32)).scope.Memory =
      Memory.Resize [] 32 ∧
    growLog 32 [Event.execute 0x60, Event.execute 0x60] =
      [Event.execute 0x60, Event.execute 0x60, Event.resize 32] :=
  ⟨(Run_memory_sizing 0 2 sampleTable (NewEVM StateDB.empty) (sampleFrame returnProgram 5) []
      false (afterTwoPushes returnProgram 5 32) [Event.execute 0x60, Event.execute 0x60]
      returnOp _ (by decide) rfl (by decide) rfl rfl (by decide)).1,
   ((Run_memory_sizing 0 2 sampleTable (NewEVM StateDB.empty) (sampleFrame returnProgram 5) []
      false (afterTwoPushes returnProgram 5 32) [Event.execute 0x60, Event.execute 0x60]
      returnOp _ (by decide) rfl (by decide) rfl rfl (by decide)).2.2 rfl (by decide)).2.2.2.1,
   (((Run_memory_sizing 0 2 sampleTable (NewEVM StateDB.empty) (sampleFrame returnProgram 5) []
      false (afterTwoPushes returnProgram 5 32) [Event.execute 0x60, Event.execute 0x60]
      returnOp _ (by decide) rfl (by decide) rfl rfl (by decide)).2.2 rfl
        (by decide)).2.2.2.2.1 (by decide)).1,
   (((Run_memory_sizing 0 2 sampleTable (NewEVM StateDB.empty) (sampleFrame returnProgram 5) []
      false (afterTwoPushes returnProgram 5 32) [Event.execute 0x60, Event.execute 0x60]
      returnOp _ (by decide) rfl (by decide) rfl rfl (by decide)).2.2 rfl
        (by decide)).2.2.2.2.1 (by decide)).2⟩

theorem storeReturnData_pc (o : operation) (h : HandlerResult) :
    (storeReturnData o h).pc = h.st.pc := by
  unfold storeReturnData
  split <;> rfl

theorem dispatch_evm (o : operation) (h : HandlerResult) (log : List Event) :
    (dispatch o h log).st.evm = (storeReturnData o h).evm := by
  unfold dispatch
  split
  · rfl
  · split
    · rfl
    · split
      · rfl
      · split <;> rfl

/-- C24: after a pass of `Run` that invokes a handler, the interpreter's
`returnData` is the handler's result when the operation is flagged `returns`,
also when the handler returned an error; when the operation is not flagged
`returns`, the EVM, and with it `returnData`, is as the handler left it. -/
theorem runStep_returnData (jt : JumpTable) (codeLen : Nat) (st : ExecState)
    (log : List Event) (o : operation) (memorySize : Nat) (hpc : st.pc < codeLen)
    (hjt : jt (st.scope.Contract.GetOp st.pc) = some o)
    (hmem : calcMemorySize o st.scope.Stack = .ok memorySize) :
    (o.returns = true →
      (runStep jt codeLen st log).st.evm.interpreter.returnData =
        (o.execute (growMemory memorySize st)).res) ∧
    (o.returns = false →
      (runStep jt codeLen st log).st.evm = (o.execute (growMemory memorySize st)).st.evm) := by
  rw [runStep_exec jt codeLen st log o memorySize hpc hjt hmem, dispatch_evm]
  unfold storeReturnData
  constructor
  · intro hr
    rw [if_pos hr]
  · intro hr
    rw [if_neg (by simp [hr])]

theorem runStep_returnData_witness :
    (runStep sampleTable 5 (afterTwoPushes revertProgram 5 32) []).st.evm.interpreter.returnData =
      (revertOp.execute (growMemory 32 (afterTwoPushes revertProgram 5 32))).res ∧
    (runStep sampleTable 5 (afterTwoPushes returnProgram 5 32) []).st.evm =
      (returnOp.execute (growMemory 32 (afterTwoPushes returnProgram 5 32))).st.evm :=
  ⟨(runStep_returnData sampleTable 5 (afterTwoPushes revertProgram 5 32) [] revertOp 32
      (by decide) rfl rfl).1 rfl,
   (runStep_returnData sampleTable 5 (afterTwoPushes returnProgram 5 32) [] returnOp 32
      (by decide) rfl rfl).2 rfl⟩

/-- C25 fails as stated: a first run ends with REVERT, which leaves 32 bytes in
the interpreter's `returnData`; a second run on the same interpreter whose
first operation is RETURNDATASIZE pushes 32, not 0. -/
theorem Run_returnData_counterexample :
    ((Run 3 sampleTable (NewEVM StateDB.empty) (sampleFrame revertProgram 5) [] false).bind
      (fun r1 => (Run 2 returnDataTable r1.st.evm (sampleFrame [0x3d] 5) [] false).map
        (fun r2 => (r1.st.evm.interpreter.returnData.length, r2.st.scope.Stack)))) =
      some (32, [32]) := by
  decide

/-- C25, amended: a run of a frame with code enters the loop with `pc = 0`, an
empty stack and empty memory; the return-data buffer is not reset: the EVM and
its interpreter are taken as they are, so the handler of the first operation is
invoked on the `returnData` the interpreter held when `Run` was called. -/
theorem Run_initial_context (fuel : Nat) (jt : JumpTable) (evm : EVM) (contract : Contract)
    (input : List Byte) (readOnly : Bool) (hcode : contract.Code ≠ []) :
    Run fuel jt evm contract input readOnly =
      runLoop jt contract.Code.length fuel (initState evm contract input) [] ∧
    (initState evm contract input).pc = 0 ∧
    (initState evm contract input).scope.Stack = [] ∧
    (initState evm contract input).scope.Memory = [] ∧
    (initState evm contract input).evm.interpreter.returnData = evm.interpreter.returnData ∧
    (∀ memorySize, (growMemory memorySize (initState evm contract input)).evm = evm) := by
  refine ⟨Run_of_code fuel jt evm contract input readOnly hcode, rfl, rfl, rfl, rfl, ?_⟩
  intro memorySize
  unfold growMemory
  split <;> rfl

theorem Run_initial_context_witness :
    Run 2 returnDataTable usedEVM (sampleFrame [0x3d] 5) [] false =
      runLoop returnDataTable (sampleFrame [0x3d] 5).Code.length 2
        (initState usedEVM (sampleFrame [0x3d] 5) []) [] ∧
    (initState usedEVM (sampleFrame [0x3d] 5) []).pc = 0 ∧
    (initState usedEVM (sampleFrame [0x3d] 5) []).scope.Stack = [] ∧
    (initState usedEVM (sampleFrame [0x3d] 5) []).scope.Memory = [] ∧
    (initState usedEVM (sampleFrame [0x3d] 5) []).evm.interpreter.returnData =
      usedEVM.interpreter.returnData ∧
    (∀ memorySize, (growMemory memorySize (initState usedEVM (sampleFrame [0x3d] 5) [])).evm =
      usedEVM) :=
  Run_initial_context 2 returnDataTable usedEVM (sampleFrame [0x3d] 5) [] false (by decide)

/-- C27: when the handler of an operation that is flagged neither `reverts` nor
`halts` returns no error, the pass does not leave `Run`. If the operation is not
flagged `jumps`, the loop continues with the program counter the handler left,
incremented by one as a 64-bit number (so exactly one more unless the handler
left the largest 64-bit value); if it is flagged `jumps`, the loop continues
with the program counter exactly as the handler left it. -/
theorem runStep_next_pc (jt : JumpTable) (codeLen : Nat) (st : ExecState)
    (log : List Event) (o : operation) (memorySize : Nat) (hpc : st.pc < codeLen)
    (hjt : jt (st.scope.Contract.GetOp st.pc) = some o)
    (hmem : calcMemorySize o st.scope.Stack = .ok memorySize)
    (herr : (o.execute (growMemory memorySize st)).err = none)
    (hrev : o.reverts = false) (hhalt : o.halts = false) :
    (o.jumps = false →
      runStep jt codeLen st log =
        .next { storeReturnData o (o.execute (growMemory memorySize st)) with
                pc := ((o.execute (growMemory memorySize st)).st.pc + 1) % 2 ^ 64 }
          (growLog memorySize log ++ [Event.execute (st.scope.Contract.GetOp st.pc)]) ∧
      ((o.execute (growMemory memorySize st)).st.pc + 1 < 2 ^ 64 →
        (runStep jt codeLen st log).st.pc = (o.execute (growMemory memorySize st)).st.pc + 1)) ∧
    (o.jumps = true →
      runStep jt codeLen st log =
        .next (storeReturnData o (o.execute (growMemory memorySize st)))
          (growLog memorySize log ++ [Event.execute (st.scope.Contract.GetOp st.pc)]) ∧
      (runStep jt codeLen st log).st.pc = (o.execute (growMemory memorySize st)).st.pc) := by
  rw [runStep_exec jt codeLen st log o memorySize hpc hjt hmem]
  constructor
  · intro hj
    have hd : dispatch o (o.execute (growMemory memorySize st))
        (growLog memorySize log ++ [Event.execute (st.scope.Contract.GetOp st.pc)]) =
        .next { storeReturnData o (o.execute (growMemory memorySize st)) with
                pc := ((o.execute (growMemory memorySize st)).st.pc + 1) % 2 ^ 64 }
          (growLog memorySize log ++ [Event.execute (st.scope.Contract.GetOp st.pc)]) := by
      unfold dispatch
      simp [herr, hrev, hhalt, hj, storeReturnData_pc]
    refine ⟨hd, ?_⟩
    intro hlt
    rw [hd]
    show ((o.execute (growMemory memorySize st)).st.pc + 1) % 2 ^ 64 = _
    exact Nat.mod_eq_of_lt hlt
  · intro hj
    have hd : dispatch o (o.execute (growMemory memorySize st))
        (growLog memorySize log ++ [Event.execute (st.scope.Contract.GetOp st.pc)]) =
        .next (storeReturnData o (o.execute (growMemory memorySize st)))
          (growLog memorySize log ++ [Event.execute (st.scope.Contract.GetOp st.pc)]) := by
      unfold dispatch
      simp [herr, hrev, hhalt, hj]
    refine ⟨hd, ?_⟩
    rw [hd]
    exact storeReturnData_pc _ _

theorem runStep_next_pc_witness :
    runStep sampleTable 2 (initState (NewEVM StateDB.empty) (sampleFrame [0x60, 0x01] 0) []) [] =
      .next { storeReturnData push1Op (push1Op.execute (growMemory 0
                (initState (NewEVM StateDB.empty) (sampleFrame [0x60, 0x01] 0) []))) with
              pc := ((push1Op.execute (growMemory 0 (initState (NewEVM StateDB.empty)
                (sampleFrame [0x60, 0x01] 0) []))).st.pc + 1) % 2 ^ 64 }
        (growLog 0 [] ++ [Event.execute 0x60]) ∧
    (runStep sampleTable 2 (initState (NewEVM StateDB.empty) (sampleFrame [0x60, 0x01] 0) [])
      []).st.pc = 1 + 1 :=
  ⟨((runStep_next_pc sampleTable 2 (initState (NewEVM StateDB.empty)
      (sampleFrame [0x60, 0x01] 0) []) [] push1Op 0 (by decide) rfl rfl rfl rfl rfl).1 rfl).1,
   ((runStep_next_pc sampleTable 2 (initState (NewEVM StateDB.empty)
      (sampleFrame [0x60, 0x01] 0) []) [] push1Op 0 (by decide) rfl rfl rfl rfl rfl).1 rfl).2
      (by decide)⟩

/-! ## The interpreter constructor -/

/-- C26: evaluation at a failing input. With the requested EIPs 1, 2, 3529, of
which only 3529 can be activated, the constructor hands 1, 3529 and 3529 to
`EnableEIP` and never 2, and the list it keeps is 2, 3529: it contains an EIP
that was neither attempted nor activated. -/
theorem NewEVMInterpreter_skips_eip :
    (NewEVMInterpreter sampleTable sampleEnableEIP (sampleConfig [1, 2, 3529])).map
      (fun r => (r.cfg.ExtraEips.toList, r.attempted)) = some ([2, 3529], [1, 3529, 3529]) ∧
    sampleEnableEIP 2 sampleTable = none := by
  refine ⟨by decide, rfl⟩

/-- C28: evaluation at a failing input. With the requested EIPs 1 and 2, neither
of which can be activated, the second removal evaluates `cfg.ExtraEips[2:]` on a
slice of length 1 and the constructor panics. -/
theorem NewEVMInterpreter_panics :
    NewEVMInterpreter sampleTable sampleEnableEIP (sampleConfig [1, 2]) = none ∧
    (IntSlice.ofList [1, 2]).removeAt 0 = some { array := [2, 2], len := 1 } ∧
    ({ array := [2, 2], len := 1 } : IntSlice).removeAt 1 = none := by
  refine ⟨rfl, rfl, rfl⟩

/-! ## The listing reproduces the code -/

/-- Reading `n` bytes from position `p` with zero beyond the end gives the first
`n` bytes of the rest of the code padded with zeros. -/
theorem padded_read (l : List Byte) :
    ∀ (n p : Nat), (List.range n).map (fun i => l.getD (p + i) 0) =
      (l.drop p ++ List.replicate n 0).take n := by
  intro n p
  apply List.ext_getElem?
  intro i
  by_cases hi : i < n
  · rw [List.getElem?_map, List.getElem?_range hi, List.getElem?_take_of_lt hi]
    simp only [Option.map_some']
    by_cases hp : p + i < l.length
    · rw [List.getElem?_append_left (by rw [List.length_drop]; omega), List.getElem?_drop,
        List.getD_eq_getElem?_getD, List.getElem?_eq_getElem hp]
      rfl
    · rw [List.getElem?_append_right (by rw [List.length_drop]; omega),
        List.getD_eq_getElem?_getD, List.getElem?_eq_none (by omega),
        List.getElem?_replicate]
      rw [if_pos (by rw [List.length_drop]; omega)]
      rfl
  · rw [List.getElem?_eq_none (by rw [List.length_map, List.length_range]; omega),
      List.getElem?_eq_none (by rw [List.length_take]; omega)]

theorem disasmSkip_le (b : Fin 256) : disasmSkip b ≤ 32 := by
  rw [disasmSkip_eq]
  split
  · omega
  · omega

theorem disasmLoop_at_end (contract : Contract) (codeLen : Nat) (fuel pc : Nat)
    (out : List Instruction) (h : disasmLoop contract codeLen fuel pc = some out)
    (hpc : codeLen ≤ pc) : out = [] := by
  cases fuel with
  | zero => simp [disasmLoop] at h
  | succ n =>
    unfold disasmLoop at h
    rw [if_pos hpc] at h
    simp only [Option.some.injEq] at h
    exact h.symm

/-- The bytes an instruction stands for: the opcode byte at its position and
its immediate. -/
theorem decodeAt_bytes (cr : Crypto) (code : List Byte) (pc : Nat) :
    code.getD (decodeAt (disasmContract cr code) pc).pc 0 ::
        (decodeAt (disasmContract cr code) pc).immediate =
      (code.drop pc ++ List.replicate (disasmSkip (code.getD pc 0) + 1) 0).take
        (disasmSkip (code.getD pc 0) + 1) := by
  rw [← padded_read, List.range_succ_eq_map, List.map_cons, List.map_map]
  show code.getD pc 0 :: readImmediate (disasmContract cr code)
    (disasmSkip (code.getD pc 0)) pc = _
  rw [readImmediate_eq]
  congr 1
  apply List.map_congr_left
  intro i _
  show code.getD (pc + 1 + i) 0 = code.getD (pc + (i + 1)) 0
  congr 1
  omega

/-- The concatenated bytes of the lines printed from position `pc` on are the
rest of the code followed by `z` zero bytes, `z ≤ 32`; when `z > 0` the last
line is an instruction with an immediate that ends `z` bytes beyond the code. -/
theorem disasmLoop_bytes (cr : Crypto) (code : List Byte) :
    ∀ (fuel pc : Nat) (out : List Instruction),
      disasmLoop (disasmContract cr code) code.length fuel pc = some out →
      ∃ z, z ≤ 32 ∧
        (out.map (fun ins => code.getD ins.pc 0 :: ins.immediate)).flatten =
          code.drop pc ++ List.replicate z 0 ∧
        (0 < z → ∃ last, out.getLast? = some last ∧
          0 < disasmSkip (code.getD last.pc 0) ∧
          last.pc + 1 + disasmSkip (code.getD last.pc 0) = code.length + z) := by
  intro fuel
  induction fuel with
  | zero =>
    intro pc out h
    simp [disasmLoop] at h
  | succ n ih =>
    intro pc out h
    by_cases hpc : code.length ≤ pc
    · have hout := disasmLoop_at_end _ _ _ _ _ h hpc
      subst hout
      refine ⟨0, by omega, ?_, ?_⟩
      · simp [List.drop_eq_nil_of_le hpc]
      · intro hz
        omega
    · unfold disasmLoop at h
      rw [if_neg hpc] at h
      cases hrest : disasmLoop (disasmContract cr code) code.length n
          (pc + disasmSkip ((disasmContract cr code).GetOp pc) + 1) with
      | none => rw [hrest] at h; simp at h
      | some rest =>
        rw [hrest] at h
        simp only [Option.some.injEq] at h
        subst h
        have hop : (disasmContract cr code).GetOp pc = code.getD pc 0 := rfl
        rw [hop] at hrest
        have hskip := disasmSkip_le (code.getD pc 0)
        obtain ⟨z1, hz1, hflat, hlast⟩ := ih _ rest hrest
        rw [List.map_cons, List.flatten_cons, decodeAt_bytes, hflat]
        by_cases hfit : pc + disasmSkip (code.getD pc 0) + 1 ≤ code.length
        · refine ⟨z1, hz1, ?_, ?_⟩
          · rw [List.take_append_of_le_length (by rw [List.length_drop]; omega),
              ← List.append_assoc]
            congr 1
            have hdd : List.drop (pc + disasmSkip (code.getD pc 0) + 1) code =
                List.drop (disasmSkip (code.getD pc 0) + 1) (List.drop pc code) := by
              rw [List.drop_drop]
              congr 1
            rw [hdd]
            exact List.take_append_drop _ _
          · intro hz
            obtain ⟨last, hl, hs, heq⟩ := hlast hz
            refine ⟨last, ?_, hs, heq⟩
            cases rest with
            | nil => simp at hl
            | cons r rs => rw [List.getLast?_cons_cons]; exact hl
        · have hrest_nil := disasmLoop_at_end _ _ _ _ _ hrest (by omega)
          subst hrest_nil
          have hz0 : z1 = 0 := by
            by_contra hne
            obtain ⟨last, hl, _, _⟩ := hlast (by omega)
            simp at hl
          subst hz0
          refine ⟨pc + disasmSkip (code.getD pc 0) + 1 - code.length, by omega, ?_, ?_⟩
          · rw [List.drop_eq_nil_of_le (by omega : code.length ≤
              pc + disasmSkip (code.getD pc 0) + 1)]
            simp only [List.replicate_zero, List.append_nil]
            rw [List.take_append_eq_append_take, List.take_of_length_le
              (by rw [List.length_drop]; omega), List.length_drop, List.take_replicate]
            congr 2
            omega
          · intro _
            refine ⟨decodeAt (disasmContract cr code) pc, rfl, ?_, ?_⟩
            · show 0 < disasmSkip (code.getD pc 0)
              omega
            · show pc + 1 + disasmSkip (code.getD pc 0) = _
              omega

/-- C29 fails as stated: for the valid hex input "7f", a PUSH32 at the very end
of the code, the disassembler prints PUSH32 with 32 zero bytes, so the
concatenated bytes are the code followed by 32 zero bytes, not fewer than 32. -/
theorem Disassembler_padding_counterexample :
    hexDecode "7f".data = some [0x7f] ∧
    Disassembler sampleCrypto "7f" = some [⟨0, "PUSH32", List.replicate 32 0⟩] ∧
    ((0x7f : Byte) :: List.replicate 32 0) = [0x7f] ++ List.replicate 32 0 ∧
    ¬ (32 < 32) := by
  decide

/-- C29, amended: for every valid hex input the scan of the disassembler
returns; the positions of the printed instructions start at 0 and are strictly
increasing; and the concatenation, in order, of each instruction's opcode byte
followed by its immediate is the decoded code followed by `z` zero bytes with
`z ≤ 32`, where `z > 0` only when the last instruction has an immediate (a
PUSH) that ends `z` bytes beyond the end of the code. -/
theorem Disassembler_reproduces_code (cr : Crypto) (contractCode : String) (code : List Byte)
    (hhex : hexDecode contractCode.data = some code) :
    ∃ out, Disassembler cr contractCode = some out ∧
      (∀ first ∈ out.head?, first.pc = 0) ∧
      List.Chain' (fun a c => a.pc < c.pc) out ∧
      ∃ z, z ≤ 32 ∧
        (out.map (fun ins => code.getD ins.pc 0 :: ins.immediate)).flatten =
          code ++ List.replicate z 0 ∧
        (0 < z → ∃ last, out.getLast? = some last ∧
          (0x60 ≤ (code.getD last.pc 0).val ∧ (code.getD last.pc 0).val ≤ 0x7f) ∧
          last.pc + 1 + last.immediate.length = code.length + z) := by
  obtain ⟨out, hout⟩ := disassemble_total cr code
  have hdis : Disassembler cr contractCode = some out := by
    unfold Disassembler
    rw [hhex]
    exact hout
  obtain ⟨hmem, hchain, hhead⟩ := disasmLoop_spec _ _ _ _ out hout
  obtain ⟨z, hz, hflat, hlast⟩ := disasmLoop_bytes cr code _ _ out hout
  refine ⟨out, hdis, hhead, ?_, z, hz, ?_, ?_⟩
  · apply List.Chain'.imp _ hchain
    intro a c hac
    omega
  · rw [hflat]
    rfl
  · intro hpos
    obtain ⟨last, hl, hs, heq⟩ := hlast hpos
    have hin : last ∈ out := List.mem_of_mem_getLast? hl
    obtain ⟨_, _, himm⟩ := (disassemble_spec cr code out hout).1 last hin
    have hlen : last.immediate.length = disasmSkip (code.getD last.pc 0) := by
      rw [himm, List.length_map, List.length_range]
    refine ⟨last, hl, ?_, by omega⟩
    by_contra hnot
    rw [disasmSkip_eq, if_neg hnot] at hs
    omega

theorem Disassembler_reproduces_code_witness :
    ∃ out, Disassembler sampleCrypto "60036f01" = some out ∧
      (∀ first ∈ out.head?, first.pc = 0) ∧
      List.Chain' (fun a c => a.pc < c.pc) out ∧
      ∃ z, z ≤ 32 ∧
        (out.map (fun ins => truncatedProgram.getD ins.pc 0 :: ins.immediate)).flatten =
          truncatedProgram ++ List.replicate z 0 ∧
        (0 < z → ∃ last, out.getLast? = some last ∧
          (0x60 ≤ (truncatedProgram.getD last.pc 0).val ∧
            (truncatedProgram.getD last.pc 0).val ≤ 0x7f) ∧
          last.pc + 1 + last.immediate.length = truncatedProgram.length + z) :=
  Disassembler_reproduces_code sampleCrypto "60036f01" truncatedProgram (by decide)

end Vm
